import Mathlib

/-!
# Avaya Infinity sample applications: webhook signature verifier and token lifecycle

A shallow embedding of

* `server-sdk/src/services/signature-validation.ts` and `server-sdk/src/index.ts`,
* `avaya-infinity-twilio-sms-connector/src/middleware/avayaSignatureValidation.js`,
* `server-sdk/src/services/token-service.ts`,
* `avaya-infinity-twilio-sms-connector/src/services/avayaTokenService.js`,

together with the Node.js library functions they call (`Buffer.from(s, 'utf8')`,
`crypto.createHmac('sha256', key)`, `digest('base64')`, `crypto.timingSafeEqual`,
`JSON.stringify`, `setTimeout`), followed by theorems about the embedded code.

Conventions.  A JavaScript string is the list of its UTF-16 code units, a buffer is
the list of its bytes.  A value that may be `undefined` or `null` is an `Option`.
Code that throws returns an `Except`, and code that mutates `this` returns the new
state next to its result, so that a throw after a partial update keeps the update.
Console output is not modelled; calls into `crypto` are recorded in a trace.
-/

namespace Avaya

/-! ## JavaScript strings and buffers -/

/-- A JavaScript string: the sequence of its UTF-16 code units (each below 65536). -/
abbrev JSString := List Nat

/-- A Node.js `Buffer`: the sequence of its bytes (each below 256). -/
abbrev Buffer := List Nat

/-- The JavaScript string written as the given literal: the UTF-16 code units of its
characters (a character beyond the basic plane becomes a surrogate pair). -/
def utf16 (s : String) : JSString :=
  s.toList.flatMap fun ch =>
    if ch.toNat < 65536 then [ch.toNat]
    else [0xD800 + (ch.toNat - 65536) / 1024, 0xDC00 + (ch.toNat - 65536) % 1024]

/-- The three bytes of U+FFFD, which `Buffer.from(s, 'utf8')` writes for a lone
surrogate. -/
def replacementBytes : Buffer := [0xEF, 0xBF, 0xBD]

/-- `Buffer.from(s, 'utf8')`: the UTF-8 encoding of a JavaScript string.  A surrogate
pair is one four-byte code point; a lone surrogate is replaced by U+FFFD. -/
def utf8Encode : JSString → Buffer
  | [] => []
  | [c] =>
    if c < 0x80 then [c]
    else if c < 0x800 then [0xC0 + c / 64, 0x80 + c % 64]
    else if 0xD800 ≤ c ∧ c < 0xE000 then replacementBytes
    else [0xE0 + c / 4096, 0x80 + c / 64 % 64, 0x80 + c % 64]
  | c :: d :: rest =>
    if c < 0x80 then c :: utf8Encode (d :: rest)
    else if c < 0x800 then [0xC0 + c / 64, 0x80 + c % 64] ++ utf8Encode (d :: rest)
    else if 0xD800 ≤ c ∧ c < 0xDC00 then
      if 0xDC00 ≤ d ∧ d < 0xE000 then
        [0xF0 + (0x10000 + (c - 0xD800) * 1024 + (d - 0xDC00)) / 262144,
         0x80 + (0x10000 + (c - 0xD800) * 1024 + (d - 0xDC00)) / 4096 % 64,
         0x80 + (0x10000 + (c - 0xD800) * 1024 + (d - 0xDC00)) / 64 % 64,
         0x80 + (0x10000 + (c - 0xD800) * 1024 + (d - 0xDC00)) % 64] ++ utf8Encode rest
      else replacementBytes ++ utf8Encode (d :: rest)
    else if 0xDC00 ≤ c ∧ c < 0xE000 then replacementBytes ++ utf8Encode (d :: rest)
    else [0xE0 + c / 4096, 0x80 + c / 64 % 64, 0x80 + c % 64] ++ utf8Encode (d :: rest)

/-! ## Base64 (`digest('base64')`) -/

/-- The character of the standard base64 alphabet for a six-bit value. -/
def base64Char (i : Nat) : Nat :=
  if i < 26 then 65 + i
  else if i < 52 then 97 + (i - 26)
  else if i < 62 then 48 + (i - 52)
  else if i = 62 then 43
  else 47

/-- Standard base64 with `=` padding, as produced by `digest('base64')`. -/
def base64Encode : Buffer → JSString
  | [] => []
  | [a] => [base64Char (a / 4), base64Char (a % 4 * 16), 61, 61]
  | [a, b] =>
    [base64Char (a / 4), base64Char (a % 4 * 16 + b / 16), base64Char (b % 16 * 4), 61]
  | a :: b :: c :: rest =>
    [base64Char (a / 4), base64Char (a % 4 * 16 + b / 16),
     base64Char (b % 16 * 4 + c / 64), base64Char (c % 64)] ++ base64Encode rest

/-! ## SHA-256 and HMAC (`crypto.createHmac('sha256', key)`) -/

namespace Sha256

/-- Reduction of a natural number to a 32-bit word. -/
def mask32 (x : Nat) : Nat := x % 4294967296

/-- Rotation of a 32-bit word to the right. -/
def rotr (x n : Nat) : Nat := mask32 ((x >>> n) ||| (x <<< (32 - n)))

/-- The round constants of SHA-256. -/
def K : List Nat := [
  0x428a2f98, 0x71374491, 0xb5c0fbcf, 0xe9b5dba5, 0x3956c25b, 0x59f111f1, 0x923f82a4, 0xab1c5ed5,
  0xd807aa98, 0x12835b01, 0x243185be, 0x550c7dc3, 0x72be5d74, 0x80deb1fe, 0x9bdc06a7, 0xc19bf174,
  0xe49b69c1, 0xefbe4786, 0x0fc19dc6, 0x240ca1cc, 0x2de92c6f, 0x4a7484aa, 0x5cb0a9dc, 0x76f988da,
  0x983e5152, 0xa831c66d, 0xb00327c8, 0xbf597fc7, 0xc6e00bf3, 0xd5a79147, 0x06ca6351, 0x14292967,
  0x27b70a85, 0x2e1b2138, 0x4d2c6dfc, 0x53380d13, 0x650a7354, 0x766a0abb, 0x81c2c92e, 0x92722c85,
  0xa2bfe8a1, 0xa81a664b, 0xc24b8b70, 0xc76c51a3, 0xd192e819, 0xd6990624, 0xf40e3585, 0x106aa070,
  0x19a4c116, 0x1e376c08, 0x2748774c, 0x34b0bcb5, 0x391c0cb3, 0x4ed8aa4a, 0x5b9cca4f, 0x682e6ff3,
  0x748f82ee, 0x78a5636f, 0x84c87814, 0x8cc70208, 0x90befffa, 0xa4506ceb, 0xbef9a3f7, 0xc67178f2]

/-- The initial hash value of SHA-256. -/
def H0 : List Nat :=
  [0x6a09e667, 0xbb67ae85, 0x3c6ef372, 0xa54ff53a, 0x510e527f, 0x9b05688c, 0x1f83d9ab, 0x5be0cd19]

/-- The big-endian bytes of `n`, `width` of them. -/
def bigEndian (width n : Nat) : Buffer :=
  (List.range width).map fun i => (n >>> (8 * (width - 1 - i))) % 256

/-- The message followed by the bit `1`, zero bits and its 64-bit bit length, a
multiple of 64 bytes long. -/
def pad (msg : Buffer) : Buffer :=
  msg ++ [0x80] ++ List.replicate ((119 - msg.length % 64) % 64) 0 ++ bigEndian 8 (8 * msg.length)

/-- The big-endian 32-bit words of a byte sequence. -/
def words : Buffer → List Nat
  | a :: b :: c :: d :: rest => (a * 16777216 + b * 65536 + c * 256 + d) :: words rest
  | _ => []

/-- The message schedule: `n` words, produced from a sliding window of sixteen. -/
def schedule : Nat → List Nat → List Nat
  | 0, _ => []
  | n + 1, w =>
    w.getD 0 0 :: schedule n (w.drop 1 ++
      [mask32 (w.getD 0 0
        + (rotr (w.getD 1 0) 7 ^^^ rotr (w.getD 1 0) 18 ^^^ (w.getD 1 0 >>> 3))
        + w.getD 9 0
        + (rotr (w.getD 14 0) 17 ^^^ rotr (w.getD 14 0) 19 ^^^ (w.getD 14 0 >>> 10)))])

/-- One round of the compression function on the eight working variables. -/
def round (st : List Nat) (kw : Nat × Nat) : List Nat :=
  match st with
  | [a, b, c, d, e, f, g, h] =>
    let t1 := mask32 (h + (rotr e 6 ^^^ rotr e 11 ^^^ rotr e 25)
      + ((e &&& f) ^^^ ((4294967295 - e) &&& g)) + kw.1 + kw.2)
    let t2 := mask32 ((rotr a 2 ^^^ rotr a 13 ^^^ rotr a 22)
      + ((a &&& b) ^^^ (a &&& c) ^^^ (b &&& c)))
    [mask32 (t1 + t2), a, b, c, mask32 (d + t1), e, f, g]
  | _ => st

/-- The compression function: the hash value after one 64-byte block. -/
def compress (h : List Nat) (block : Buffer) : List Nat :=
  List.zipWith (fun x y => mask32 (x + y)) h
    ((K.zip (schedule 64 (words block))).foldl round h)

/-- The first `n` 64-byte blocks of a byte sequence. -/
def blocks : Nat → Buffer → List Buffer
  | 0, _ => []
  | n + 1, bs => bs.take 64 :: blocks n (bs.drop 64)

/-- SHA-256 of a byte sequence (FIPS 180-4): 32 bytes. -/
def sha256 (msg : Buffer) : Buffer :=
  ((blocks ((pad msg).length / 64) (pad msg)).foldl compress H0).flatMap (bigEndian 4)

/-- HMAC-SHA256 (RFC 2104) of `msg` under `key`: 32 bytes. -/
def hmac (key msg : Buffer) : Buffer :=
  let k0 := if key.length > 64 then sha256 key else key
  let k := k0 ++ List.replicate (64 - k0.length) 0
  sha256 (k.map (fun b => b ^^^ 0x5c) ++ sha256 (k.map (fun b => b ^^^ 0x36) ++ msg))

end Sha256

/-! ## `crypto.timingSafeEqual` and the trace of calls into `crypto` -/

/-- `crypto.timingSafeEqual(a, b)`: throws a `RangeError` (here `none`) when the two
buffers differ in length, and otherwise tells whether they hold the same bytes. -/
def timingSafeEqual (a b : Buffer) : Option Bool :=
  if a.length ≠ b.length then none else some (decide (a = b))

/-- A call into the `crypto` module, as recorded in the trace of a verification. -/
inductive CryptoCall where
  | createHmac (key : JSString)
  | update (data : JSString)
  | digest
  | timingSafeEqual (a b : Buffer)
deriving DecidableEq

/-- Whether a recorded call is a call of `crypto.timingSafeEqual`. -/
def CryptoCall.isComparison : CryptoCall → Bool
  | .timingSafeEqual _ _ => true
  | _ => false

/-! ## `JSON.stringify` on a fragment of the JavaScript values -/

/-- The JavaScript values a parsed request body is made of, without numbers: the members
of an object stand in property enumeration order. -/
inductive JSValue where
  | undefined
  | null
  | bool (b : Bool)
  | str (s : JSString)
  | arr (items : List JSValue)
  | obj (members : List (JSString × JSValue))

/-- The lower-case hexadecimal digit of a value below 16. -/
def hexDigit (n : Nat) : Nat := if n < 10 then 48 + n else 87 + n

/-- The escape `\uXXXX` of a code unit. -/
def unicodeEscape (c : Nat) : JSString :=
  [92, 117, hexDigit (c / 4096 % 16), hexDigit (c / 256 % 16), hexDigit (c / 16 % 16),
   hexDigit (c % 16)]

/-- The escaped characters of a string inside a JSON string literal. -/
def quoteChars : JSString → JSString
  | [] => []
  | [c] =>
    if c = 34 then [92, 34]
    else if c = 92 then [92, 92]
    else if c = 8 then [92, 98]
    else if c = 12 then [92, 102]
    else if c = 10 then [92, 110]
    else if c = 13 then [92, 114]
    else if c = 9 then [92, 116]
    else if c < 32 then unicodeEscape c
    else if 0xD800 ≤ c ∧ c < 0xE000 then unicodeEscape c
    else [c]
  | c :: d :: rest =>
    if c = 34 then [92, 34] ++ quoteChars (d :: rest)
    else if c = 92 then [92, 92] ++ quoteChars (d :: rest)
    else if c = 8 then [92, 98] ++ quoteChars (d :: rest)
    else if c = 12 then [92, 102] ++ quoteChars (d :: rest)
    else if c = 10 then [92, 110] ++ quoteChars (d :: rest)
    else if c = 13 then [92, 114] ++ quoteChars (d :: rest)
    else if c = 9 then [92, 116] ++ quoteChars (d :: rest)
    else if c < 32 then unicodeEscape c ++ quoteChars (d :: rest)
    else if 0xD800 ≤ c ∧ c < 0xDC00 then
      if 0xDC00 ≤ d ∧ d < 0xE000 then c :: d :: quoteChars rest
      else unicodeEscape c ++ quoteChars (d :: rest)
    else if 0xDC00 ≤ c ∧ c < 0xE000 then unicodeEscape c ++ quoteChars (d :: rest)
    else c :: quoteChars (d :: rest)

/-- The JSON string literal of a string (`QuoteJSONString`). -/
def quoteJSONString (s : JSString) : JSString := [34] ++ quoteChars s ++ [34]

mutual
/-- `JSON.stringify(v)` without indentation: `none` when it returns `undefined`. -/
def JSON.stringify : JSValue → Option JSString
  | .undefined => none
  | .null => some (utf16 "null")
  | .bool true => some (utf16 "true")
  | .bool false => some (utf16 "false")
  | .str s => some (quoteJSONString s)
  | .arr items => some ([91] ++ List.intercalate [44] (JSON.stringifyItems items) ++ [93])
  | .obj members => some ([123] ++ List.intercalate [44] (JSON.stringifyMembers members) ++ [125])
/-- The serialised elements of an array: an `undefined` element is written `null`. -/
def JSON.stringifyItems : List JSValue → List JSString
  | [] => []
  | v :: rest => (JSON.stringify v).getD (utf16 "null") :: JSON.stringifyItems rest
/-- The serialised members of an object: a member whose value is `undefined` is left out. -/
def JSON.stringifyMembers : List (JSString × JSValue) → List JSString
  | [] => []
  | (k, v) :: rest =>
    match JSON.stringify v with
    | none => JSON.stringifyMembers rest
    | some s => (quoteJSONString k ++ [58] ++ s) :: JSON.stringifyMembers rest
end

/-! ## The signature verifier of the server SDK (`signature-validation.ts`) -/

/-- JavaScript truthiness of a value that is a string, `undefined` or `null`: only a
non-empty string is truthy. -/
def truthy : Option JSString → Bool
  | some (_ :: _) => true
  | _ => false

/-- The literal `'sha256='`. -/
def sha256Tag : JSString := utf16 "sha256="

/-- The expression `signature?.startsWith('sha256=')`, read as a condition: an absent
signature gives `undefined`, which is falsy. -/
def startsWithSha256 : Option JSString → Bool
  | none => false
  | some s => sha256Tag.isPrefixOf s

/-- `SignatureValidationService.verifySignature(body, signature)` for a service built
with `webhookSecret`: the value returned and the calls made into `crypto`.
`stringify` is `JSON.stringify` on the type of bodies; where it is `none` (it threw, or
returned `undefined` so that `hmac.update` throws) control passes to the `catch`. -/
def SignatureValidationService.verifySignature {β : Type} (stringify : β → Option JSString)
    (webhookSecret : Option JSString) (body : β) (signature : Option JSString) :
    Bool × List CryptoCall :=
  if !truthy webhookSecret || webhookSecret == some [] then
    (true, [])
  else if !startsWithSha256 signature then
    (false, [])
  else
    match stringify body with
    | none => (false, [.createHmac (webhookSecret.getD [])])
    | some data =>
      let generatedHmac := sha256Tag ++
        base64Encode (Sha256.hmac (utf8Encode (webhookSecret.getD [])) (utf8Encode data))
      let receivedBuffer := utf8Encode (signature.getD [])
      let generatedBuffer := utf8Encode generatedHmac
      let hmacCalls := [CryptoCall.createHmac (webhookSecret.getD []), .update data, .digest]
      if receivedBuffer.length ≠ generatedBuffer.length then
        (false, hmacCalls)
      else
        match timingSafeEqual receivedBuffer generatedBuffer with
        | some true => (true, hmacCalls ++ [.timingSafeEqual receivedBuffer generatedBuffer])
        | some false => (false, hmacCalls ++ [.timingSafeEqual receivedBuffer generatedBuffer])
        | none => (false, hmacCalls ++ [.timingSafeEqual receivedBuffer generatedBuffer])

/-! ## The public entry point of the server SDK (`index.ts`) -/

/-- The value of `request.headers[name]`, of type `string | string[] | undefined`. -/
inductive HeaderValue where
  | absent
  | single (value : JSString)
  | multiple (values : List JSString)

/-- The condition `!signature || typeof signature !== 'string'` of
`verifyEventSignature`: it holds unless the header is a non-empty string. -/
def HeaderValue.rejected : HeaderValue → Bool
  | .absent => true
  | .single [] => true
  | .single (_ :: _) => false
  | .multiple _ => true

/-- The header as a string, once `HeaderValue.rejected` is false. -/
def HeaderValue.asString : HeaderValue → Option JSString
  | .single s => some s
  | _ => none

/-- The webhook request handed to `AvayaInfinity.verifyEventSignature`: its body and its
`x-avaya-event-signature` header. -/
structure WebhookRequest (β : Type) where
  body : β
  signatureHeader : HeaderValue

/-- `AvayaInfinity.verifyEventSignature(request, webhookSecret)`. -/
def AvayaInfinity.verifyEventSignature {β : Type} (stringify : β → Option JSString)
    (request : WebhookRequest β) (webhookSecret : JSString) : Bool × List CryptoCall :=
  if request.signatureHeader.rejected then
    (false, [])
  else
    SignatureValidationService.verifySignature stringify (some webhookSecret) request.body
      request.signatureHeader.asString

/-! ## The middleware of the connector (`avayaSignatureValidation.js`) -/

/-- What a middleware does with a request: it sends a response with a status code, or it
calls `next()`. -/
inductive HttpAction where
  | respond (status : Nat)
  | next
deriving DecidableEq

/-- The request seen by the middleware: the body left by the body parsers, and the
`x-avaya-event-signature` header (a string, or absent). -/
structure ExpressRequest (β : Type) where
  body : β
  signatureHeader : Option JSString

/-- `validateAvayaSignature(req, res, next)` with `config.avaya.webhookSecret` equal to
`webhookSecret`: the responses sent and calls of `next()`, in order, and the calls made
into `crypto`. -/
def validateAvayaSignature {β : Type} (stringify : β → Option JSString)
    (webhookSecret : Option JSString) (req : ExpressRequest β) :
    List HttpAction × List CryptoCall :=
  if !truthy webhookSecret || webhookSecret == some [] then
    ([.next], [])
  else if !startsWithSha256 req.signatureHeader then
    ([.respond 401], [])
  else
    match stringify req.body with
    | none => ([.respond 500], [.createHmac (webhookSecret.getD [])])
    | some data =>
      let generatedHmac := sha256Tag ++
        base64Encode (Sha256.hmac (utf8Encode (webhookSecret.getD [])) (utf8Encode data))
      let receivedBuffer := utf8Encode (req.signatureHeader.getD [])
      let generatedBuffer := utf8Encode generatedHmac
      let hmacCalls := [CryptoCall.createHmac (webhookSecret.getD []), .update data, .digest]
      if receivedBuffer.length ≠ generatedBuffer.length then
        ([.respond 403], hmacCalls)
      else
        match timingSafeEqual receivedBuffer generatedBuffer with
        | some true => ([.next], hmacCalls ++ [.timingSafeEqual receivedBuffer generatedBuffer])
        | some false =>
          ([.respond 403], hmacCalls ++ [.timingSafeEqual receivedBuffer generatedBuffer])
        | none => ([.respond 500], hmacCalls ++ [.timingSafeEqual receivedBuffer generatedBuffer])

/-- The signature the claims speak of: `'sha256=' + base64(HMAC-SHA256(secret, text))`,
with key and text taken as UTF-8. -/
def expectedSignature (secret text : JSString) : JSString :=
  utf16 "sha256=" ++ base64Encode (Sha256.hmac (utf8Encode secret) (utf8Encode text))

/-! ## Numbers, timers and the token endpoint -/

/-- A JavaScript number as the token code uses it: an integer (epoch seconds and
milliseconds are integers), or `NaN`, which arithmetic on `undefined` yields. -/
inductive JSNumber where
  | nan
  | int (n : Int)
deriving DecidableEq

/-- Subtraction of an integer from a number; `NaN` stays `NaN`. -/
def JSNumber.sub : JSNumber → Int → JSNumber
  | .nan, _ => .nan
  | .int a, b => .int (a - b)

/-- The comparison `x <= 0`, false for `NaN`. -/
def JSNumber.leZero : JSNumber → Bool
  | .nan => false
  | .int a => decide (a ≤ 0)

/-- Whether `new Date(x).toISOString()` throws a `RangeError`: it does for `NaN` and for
a time value beyond 8.64e15 milliseconds either side of the epoch. -/
def JSNumber.invalidDate : JSNumber → Bool
  | .nan => true
  | .int a => decide (a < -8640000000000000 ∨ 8640000000000000 < a)

/-- `TOKEN_REFRESH_MARGIN_MILLIS`. -/
def TOKEN_REFRESH_MARGIN_MILLIS : Int := 60000

/-- `DEFAULT_TOKEN_REFRESH_INTERVAL`. -/
def DEFAULT_TOKEN_REFRESH_INTERVAL : Int := 60000

/-- A timer created by `setTimeout` and not yet fired or cleared, with the delay after
which it fires. -/
structure Timer where
  id : Nat
  delay : JSNumber
deriving DecidableEq

/-- The timers of the event loop: those pending, and the identity of the next one. -/
structure Timers where
  pending : List Timer
  nextId : Nat
deriving DecidableEq

/-- The event loop before any timer was created. -/
def Timers.empty : Timers := { pending := [], nextId := 1 }

/-- `TIMEOUT_MAX` of the timers of Node: `2 ** 31 - 1` milliseconds. -/
def TIMEOUT_MAX : Int := 2147483647

/-- The delay Node gives a timer for the `delay` argument of `setTimeout`: the argument
when it lies between 1 and `TIMEOUT_MAX`, and 1 otherwise, also for `NaN`
(`if (!(after >= 1 && after <= TIMEOUT_MAX)) after = 1`). -/
def timeoutDelay : JSNumber → JSNumber
  | .nan => .int 1
  | .int n => if 1 ≤ n ∧ n ≤ TIMEOUT_MAX then .int n else .int 1

/-- `setTimeout(callback, delay)`: the handle returned and the event loop afterwards.  The
timer created has the delay that Node makes of the argument. -/
def setTimeout (t : Timers) (delay : JSNumber) : Nat × Timers :=
  (t.nextId, { pending := t.pending ++ [{ id := t.nextId, delay := timeoutDelay delay }],
               nextId := t.nextId + 1 })

/-- `clearTimeout(handle)`. -/
def clearTimeout (t : Timers) (handle : Nat) : Timers :=
  { t with pending := t.pending.filter fun timer => timer.id != handle }

/-- The claims of a decoded token payload that the code reads; an absent claim is
`none`. -/
structure TokenPayload where
  exp : Option Int
  organization : Option (List JSString)
  owner : Option (List JSString)
deriving DecidableEq

/-- The JSON body of a token response: its `access_token` member, and the value of
`jwt.decode` on that token (`none` when it returns `null` or throws).  The library
`jsonwebtoken` is not modelled, so the decoded payload comes with the response. -/
structure TokenResponseBody where
  access_token : Option JSString
  decoded : Option TokenPayload
deriving DecidableEq

/-- How the request to the token endpoint ends: `fetch` rejects, or a response arrives
with a status and a body (`none` when `response.json()` rejects or yields a value whose
member cannot be read). -/
inductive FetchOutcome where
  | rejected
  | response (status : Nat) (body : Option TokenResponseBody)
deriving DecidableEq

/-- The errors thrown by the token code. -/
inductive TokenError where
  | notProperlyInitialized
  | fetchRejected
  | failedToObtain (status : Nat)
  | failedToDecode
  | typeError
  | rangeError
  | accessTokenNotInitialized
deriving DecidableEq

/-- `jwt.decode` wrapped by `getAccessTokenData`: the payload of the current token, or
the error `Failed to decode access token`.  An absent or empty token is never decoded. -/
def getAccessTokenData (body : TokenResponseBody) : Except TokenError TokenPayload :=
  match body.access_token, body.decoded with
  | some (_ :: _), some payload => .ok payload
  | _, _ => .error .failedToDecode

/-- The number `exp * 1000` for the `exp` claim of a payload. -/
def tokenExpirationMillis (payload : TokenPayload) : JSNumber :=
  match payload.exp with
  | none => .nan
  | some e => .int (e * 1000)

/-- The renewal interval stored by `fetchAccessToken`: expiry minus now minus the margin,
replaced by the default when that is `<= 0`. -/
def computeRefreshInterval (payload : TokenPayload) (now : Int) : JSNumber :=
  let refreshIntervalTime :=
    ((tokenExpirationMillis payload).sub now).sub TOKEN_REFRESH_MARGIN_MILLIS
  if refreshIntervalTime.leZero then .int DEFAULT_TOKEN_REFRESH_INTERVAL
  else refreshIntervalTime

/-! ## The token service of the server SDK (`token-service.ts`) -/

/-- The fields of a `TokenService` instance. -/
structure TokenService where
  tokenUrl : Option JSString
  currentClientId : Option JSString
  currentClientSecret : Option JSString
  currentAccessToken : Option JSString
  refreshTimeout : Option Nat
  refreshIntervalTime : JSNumber
  isInitialized : Bool
  tokenAccountId : Option JSString
  tokenConnectorId : Option JSString
deriving DecidableEq

/-- A freshly constructed `TokenService`. -/
def TokenService.fresh : TokenService :=
  { tokenUrl := none, currentClientId := none, currentClientSecret := none,
    currentAccessToken := none, refreshTimeout := none,
    refreshIntervalTime := .int DEFAULT_TOKEN_REFRESH_INTERVAL, isInitialized := false,
    tokenAccountId := none, tokenConnectorId := none }

/-- A `TokenService` together with the event loop its timers live in. -/
structure World where
  service : TokenService
  timers : Timers
deriving DecidableEq

/-- A fresh service in an event loop without timers. -/
def World.fresh : World := { service := TokenService.fresh, timers := Timers.empty }

/-- `TokenService.stopTokenRefresh()`. -/
def TokenService.stopTokenRefresh (w : World) : World :=
  match w.service.refreshTimeout with
  | some handle =>
    { service := { w.service with refreshTimeout := none },
      timers := clearTimeout w.timers handle }
  | none => w

/-- `TokenService.startTokenRefresh()`: the pending timer is cleared and a new one is
created by `setTimeout(..., this.refreshIntervalTime)`. -/
def TokenService.startTokenRefresh (w : World) : World :=
  let w1 := TokenService.stopTokenRefresh w
  let created := setTimeout w1.timers w1.service.refreshIntervalTime
  { service := { w1.service with refreshTimeout := some created.1 }, timers := created.2 }

/-- The part of `TokenService.fetchAccessToken()` after `await fetch(...)`, run on the
state found at that moment: the result, and the state it leaves (also when it throws). -/
def TokenService.fetchAccessTokenResume (s : TokenService) (outcome : FetchOutcome)
    (now : Int) : Except TokenError Unit × TokenService :=
  match outcome with
  | .rejected => (.error .fetchRejected, s)
  | .response status body =>
    if status ≠ 200 then (.error (.failedToObtain status), s)
    else
      match body with
      | none => (.error .fetchRejected, s)
      | some data =>
        let s1 := { s with currentAccessToken := data.access_token }
        match getAccessTokenData data with
        | .error e => (.error e, s1)
        | .ok currentAccessTokenData =>
          let s2 := { s1 with
            refreshIntervalTime := computeRefreshInterval currentAccessTokenData now }
          match currentAccessTokenData.organization with
          | none => (.error .typeError, s2)
          | some organization =>
            let s3 := { s2 with tokenAccountId := organization.head? }
            match currentAccessTokenData.owner with
            | none => (.error .typeError, s3)
            | some owner =>
              let s4 := { s3 with tokenConnectorId := owner.head? }
              if (tokenExpirationMillis currentAccessTokenData).invalidDate then
                (.error .rangeError, s4)
              else (.ok (), s4)

/-- `TokenService.fetchAccessToken()`: the check of the credentials, then the request
whose outcome is `outcome`, then the rest. -/
def TokenService.fetchAccessToken (s : TokenService) (outcome : FetchOutcome) (now : Int) :
    Except TokenError Unit × TokenService :=
  if !truthy s.tokenUrl || !truthy s.currentClientId || !truthy s.currentClientSecret then
    (.error .notProperlyInitialized, s)
  else TokenService.fetchAccessTokenResume s outcome now

/-- The path of the token endpoint, appended to the base URL. -/
def tokenPath : JSString := utf16 "/auth/realms/avaya/protocol/openid-connect/token"

/-- `TokenService.initialize(baseUrl, clientId, clientSecret)` when no other code runs
while the request is in flight: the result (an error is rethrown to the caller) and the
state afterwards. -/
def TokenService.initialize (w : World) (baseUrl clientId clientSecret : JSString)
    (outcome : FetchOutcome) (now : Int) : Except TokenError Unit × World :=
  let w1 := TokenService.stopTokenRefresh w
  let s1 := { w1.service with
    tokenUrl := some (baseUrl ++ tokenPath),
    currentClientId := some clientId,
    currentClientSecret := some clientSecret }
  match TokenService.fetchAccessToken s1 outcome now with
  | (.ok _, s2) =>
    (.ok (), TokenService.startTokenRefresh
      { service := { s2 with isInitialized := true }, timers := w1.timers })
  | (.error e, s2) => (.error e, { service := s2, timers := w1.timers })

/-- `TokenService.getAccessToken()`. -/
def TokenService.getAccessToken (s : TokenService) : Except TokenError JSString :=
  if !truthy s.currentAccessToken then .error .accessTokenNotInitialized
  else .ok (s.currentAccessToken.getD [])

/-- `TokenService.isInitializedStatus()`. -/
def TokenService.isInitializedStatus (s : TokenService) : Bool := s.isInitialized

/-- `TokenService.getTokenAccountId()`. -/
def TokenService.getTokenAccountId (s : TokenService) : Option JSString := s.tokenAccountId

/-- `TokenService.getTokenConnectorId()`. -/
def TokenService.getTokenConnectorId (s : TokenService) : Option JSString :=
  s.tokenConnectorId

/-- `TokenService.dispose()`. -/
def TokenService.dispose (w : World) : World :=
  let w1 := TokenService.stopTokenRefresh w
  { w1 with service := { w1.service with currentAccessToken := none, isInitialized := false } }

/-! ## The token service of the connector (`avayaTokenService.js`) -/

namespace Connector

/-- The module-level variables of `avayaTokenService.js`. -/
structure TokenState where
  tokenUrl : Option JSString
  currentClientId : Option JSString
  currentClientSecret : Option JSString
  currentAccessToken : Option JSString
  refreshTimeout : Option Nat
  refreshIntervalTime : JSNumber
deriving DecidableEq

/-- The variables as the module initialises them. -/
def TokenState.fresh : TokenState :=
  { tokenUrl := none, currentClientId := none, currentClientSecret := none,
    currentAccessToken := none, refreshTimeout := none,
    refreshIntervalTime := .int DEFAULT_TOKEN_REFRESH_INTERVAL }

/-- The connector's `fetchAccessToken()`, with `config.avaya.isMockMode` equal to
`isMockMode`: the result, and the variables afterwards (also when it throws).  In mock
mode no request is made and `outcome` is not looked at. -/
def fetchAccessToken (isMockMode : Bool) (s : TokenState) (outcome : FetchOutcome)
    (now : Int) : Except TokenError Unit × TokenState :=
  if isMockMode then
    (.ok (), { s with currentAccessToken := some (utf16 "mock_access_token"),
                      refreshIntervalTime := .int DEFAULT_TOKEN_REFRESH_INTERVAL })
  else
    match outcome with
    | .rejected => (.error .fetchRejected, s)
    | .response status body =>
      if status ≠ 200 then (.error (.failedToObtain status), s)
      else
        match body with
        | none => (.error .fetchRejected, s)
        | some data =>
          let s1 := { s with currentAccessToken := data.access_token }
          match getAccessTokenData data with
          | .error e => (.error e, s1)
          | .ok currentAccessTokenData =>
            let s2 := { s1 with
              refreshIntervalTime := computeRefreshInterval currentAccessTokenData now }
            if (tokenExpirationMillis currentAccessTokenData).invalidDate then
              (.error .rangeError, s2)
            else (.ok (), s2)

/-- The connector's `getAccessToken()`. -/
def getAccessToken (s : TokenState) : Except TokenError JSString :=
  if !truthy s.currentAccessToken then .error .accessTokenNotInitialized
  else .ok (s.currentAccessToken.getD [])

end Connector

/-! ## Interleavings of the SDK token service

`initialize` and the callback of the refresh timer are asynchronous: each runs up to
`await this.fetchAccessToken()`, where the request to the token endpoint is sent, and
goes on when the response arrives.  Between the two halves any other code may run. -/

/-- The condition of the credential check at the head of `fetchAccessToken()`. -/
def TokenService.credentialsMissing (s : TokenService) : Bool :=
  !truthy s.tokenUrl || !truthy s.currentClientId || !truthy s.currentClientSecret

/-- The code that waits for a request to the token endpoint. -/
inductive Caller where
  | initializeCall
  | refreshCallback
deriving DecidableEq

/-- `TokenService.initialize(...)` up to `await fetch(...)`: the state it leaves, and
whether the request was sent (it is not when the credential check throws, and
`initialize` is then over). -/
def TokenService.initializeBegin (w : World) (baseUrl clientId clientSecret : JSString) :
    World × Bool :=
  let w1 := TokenService.stopTokenRefresh w
  let s1 := { w1.service with
    tokenUrl := some (baseUrl ++ tokenPath),
    currentClientId := some clientId,
    currentClientSecret := some clientSecret }
  ({ service := s1, timers := w1.timers }, !s1.credentialsMissing)

/-- `TokenService.initialize(...)` from the arrival of the response on: the result (an
error is rethrown) and the state afterwards. -/
def TokenService.initializeResume (w : World) (outcome : FetchOutcome) (now : Int) :
    Except TokenError Unit × World :=
  match TokenService.fetchAccessTokenResume w.service outcome now with
  | (.ok _, s2) =>
    (.ok (), TokenService.startTokenRefresh
      { service := { s2 with isInitialized := true }, timers := w.timers })
  | (.error e, s2) => (.error e, { service := s2, timers := w.timers })

/-- The callback of the refresh timer from the arrival of the response on: after a
successful fetch the timer is started again, a failure is logged and nothing else is
done. -/
def TokenService.refreshResume (w : World) (outcome : FetchOutcome) (now : Int) : World :=
  match TokenService.fetchAccessTokenResume w.service outcome now with
  | (.ok _, s2) => TokenService.startTokenRefresh { service := s2, timers := w.timers }
  | (.error _, s2) => { service := s2, timers := w.timers }

/-- The event loop once the timer with the given handle has fired: it is no longer
pending. -/
def Timers.fire (t : Timers) (handle : Nat) : Timers :=
  { t with pending := t.pending.filter fun timer => timer.id != handle }

/-- The callback of the refresh timer, run when the timer with the given handle fires
and no other code runs while the request is in flight. -/
def TokenService.refreshCallback (w : World) (handle : Nat) (outcome : FetchOutcome)
    (now : Int) : World :=
  let w1 : World := { w with timers := w.timers.fire handle }
  if w1.service.credentialsMissing then w1
  else TokenService.refreshResume w1 outcome now

/-- Whether a timer with the given handle is pending. -/
def Timers.isPending (t : Timers) (handle : Nat) : Bool :=
  t.pending.any fun timer => timer.id == handle

/-- A `TokenService`, its event loop, and the callers waiting for a response of the
token endpoint, oldest first. -/
structure System where
  world : World
  inFlight : List Caller
deriving DecidableEq

/-- A fresh service with nothing in flight. -/
def System.fresh : System := { world := World.fresh, inFlight := [] }

/-- What can happen to a `TokenService`: a call of `initialize` or of `dispose`, the
firing of a pending timer, and the arrival of the response to a request in flight. -/
inductive Event where
  | initializeCalled (baseUrl clientId clientSecret : JSString)
  | disposeCalled
  | timerFired (handle : Nat)
  | fetchCompleted (index : Nat) (outcome : FetchOutcome) (now : Int)
deriving DecidableEq

/-- Whether an event is a call of `initialize`. -/
def Event.isInitializeCall : Event → Bool
  | .initializeCalled _ _ _ => true
  | _ => false

/-- Whether an event, when it is the arrival of a `200` response with a readable body,
brings a non-empty `access_token`; every other event passes. -/
def Event.carriesToken : Event → Bool
  | .fetchCompleted _ (.response 200 (some data)) _ => truthy data.access_token
  | _ => true

/-- Whether an event is the firing of a timer. -/
def Event.isTimerFiring : Event → Bool
  | .timerFired _ => true
  | _ => false

/-- One event: the system afterwards, or `none` when the event cannot happen (the timer
is not pending, or no such request is in flight). -/
def System.step (sys : System) : Event → Option System
  | .initializeCalled baseUrl clientId clientSecret =>
    let begun := TokenService.initializeBegin sys.world baseUrl clientId clientSecret
    some { world := begun.1,
           inFlight := if begun.2 then sys.inFlight ++ [Caller.initializeCall]
                       else sys.inFlight }
  | .disposeCalled => some { sys with world := TokenService.dispose sys.world }
  | .timerFired handle =>
    if sys.world.timers.isPending handle then
      some { world := { sys.world with timers := sys.world.timers.fire handle },
             inFlight := if sys.world.service.credentialsMissing then sys.inFlight
                         else sys.inFlight ++ [Caller.refreshCallback] }
    else none
  | .fetchCompleted index outcome now =>
    match sys.inFlight.get? index with
    | none => none
    | some Caller.initializeCall =>
      some { world := (TokenService.initializeResume sys.world outcome now).2,
             inFlight := sys.inFlight.eraseIdx index }
    | some Caller.refreshCallback =>
      some { world := TokenService.refreshResume sys.world outcome now,
             inFlight := sys.inFlight.eraseIdx index }

/-- A sequence of events from a state: the state reached, or `none` when one of the
events cannot happen. -/
def System.run (sys : System) : List Event → Option System
  | [] => some sys
  | e :: rest =>
    match sys.step e with
    | none => none
    | some next => next.run rest

/-- Every pending timer is the one `refreshTimeout` refers to. -/
def World.timersReferenced (w : World) : Prop :=
  ∀ t ∈ w.timers.pending, w.service.refreshTimeout = some t.id

/-- The timer-count invariant: at most one timer is pending, and a pending timer is the
one `refreshTimeout` refers to. -/
def World.atMostOneTimer (w : World) : Prop :=
  w.timers.pending.length ≤ 1 ∧ w.timersReferenced

/-! ## Timers and interleavings of the connector token service -/

namespace Connector

/-- The module-level variables of `avayaTokenService.js` and the event loop. -/
structure World where
  state : TokenState
  timers : Timers
deriving DecidableEq

/-- The module as loaded, in an event loop without timers. -/
def World.fresh : World := { state := TokenState.fresh, timers := Timers.empty }

/-- The connector's `stopTokenRefresh()`. -/
def stopTokenRefresh (w : World) : World :=
  match w.state.refreshTimeout with
  | some handle =>
    { state := { w.state with refreshTimeout := none },
      timers := clearTimeout w.timers handle }
  | none => w

/-- The connector's `startTokenRefresh()`. -/
def startTokenRefresh (w : World) : World :=
  let w1 := stopTokenRefresh w
  let created := setTimeout w1.timers w1.state.refreshIntervalTime
  { state := { w1.state with refreshTimeout := some created.1 }, timers := created.2 }

/-- A request to the token endpoint: its URL and the credentials in its form body. -/
structure TokenRequest where
  url : Option JSString
  clientId : Option JSString
  clientSecret : Option JSString
deriving DecidableEq

/-- The requests the connector's `fetchAccessToken()` sends to the token endpoint: none
in mock mode, where it returns before `fetch`, and one otherwise. -/
def fetchAccessTokenRequests (isMockMode : Bool) (s : TokenState) : List TokenRequest :=
  if isMockMode then []
  else [{ url := s.tokenUrl, clientId := s.currentClientId,
          clientSecret := s.currentClientSecret }]

/-- `initializeTokenService(baseUrl, clientId, clientSecret)` when no other code runs
while the request is in flight: the result (an error is rethrown) and the state
afterwards. -/
def initializeTokenService (isMockMode : Bool) (w : World) (baseUrl : JSString)
    (clientId clientSecret : Option JSString) (outcome : FetchOutcome) (now : Int) :
    Except TokenError Unit × World :=
  let w1 := stopTokenRefresh w
  let s1 := { w1.state with
    tokenUrl := some (baseUrl ++ tokenPath),
    currentClientId := clientId,
    currentClientSecret := clientSecret }
  match fetchAccessToken isMockMode s1 outcome now with
  | (.ok _, s2) => (.ok (), startTokenRefresh { state := s2, timers := w1.timers })
  | (.error e, s2) => (.error e, { state := s2, timers := w1.timers })

/-- The callback of the connector's refresh timer, run when the timer with the given
handle fires and no other code runs while the request is in flight. -/
def refreshCallback (isMockMode : Bool) (w : World) (handle : Nat) (outcome : FetchOutcome)
    (now : Int) : World :=
  match fetchAccessToken isMockMode w.state outcome now with
  | (.ok _, s2) => startTokenRefresh { state := s2, timers := w.timers.fire handle }
  | (.error _, s2) => { state := s2, timers := w.timers.fire handle }

/-- A caller waiting at `await fetchAccessToken()`: for the response of the token
endpoint, or, in mock mode, only for its turn, `fetchAccessToken` having returned. -/
inductive Waiting where
  | response (caller : Caller)
  | settled (caller : Caller)
deriving DecidableEq

/-- The connector's token module, its event loop, and the callers waiting. -/
structure System where
  world : World
  inFlight : List Waiting
deriving DecidableEq

/-- The module as loaded with nothing in flight. -/
def System.fresh : System := { world := World.fresh, inFlight := [] }

/-- What can happen to the connector's token module: a call of `initializeTokenService`,
the firing of a pending timer (each with the value of `config.avaya.isMockMode` at that
moment), and the resumption of a caller, with the response when it waits for one. -/
inductive Event where
  | initializeCalled (isMockMode : Bool) (baseUrl : JSString)
      (clientId clientSecret : Option JSString)
  | timerFired (isMockMode : Bool) (handle : Nat)
  | fetchCompleted (index : Nat) (outcome : FetchOutcome) (now : Int)
deriving DecidableEq

/-- Whether an event is a call of `initializeTokenService`. -/
def Event.isInitializeCall : Event → Bool
  | .initializeCalled _ _ _ _ => true
  | _ => false

/-- Whether an event is the firing of a timer. -/
def Event.isTimerFiring : Event → Bool
  | .timerFired _ _ => true
  | _ => false

/-- The state after `fetchAccessToken()` has run in mock mode, where it returns before
any request. -/
def mockFetch (s : TokenState) : TokenState := (fetchAccessToken true s .rejected 0).2

/-- The callers of `fetchAccessToken()` go on alike: after a successful fetch the timer
is started; an error is rethrown by `initializeTokenService` and logged by the callback,
and the state stays as the fetch left it. -/
def resume (w : World) (outcome : FetchOutcome) (now : Int) : World :=
  match fetchAccessToken false w.state outcome now with
  | (.ok _, s2) => startTokenRefresh { state := s2, timers := w.timers }
  | (.error _, s2) => { state := s2, timers := w.timers }

/-- One event: the system afterwards, or `none` when the event cannot happen. -/
def System.step (sys : System) : Event → Option System
  | .initializeCalled isMockMode baseUrl clientId clientSecret =>
    let w1 := stopTokenRefresh sys.world
    let s1 := { w1.state with
      tokenUrl := some (baseUrl ++ tokenPath),
      currentClientId := clientId,
      currentClientSecret := clientSecret }
    if isMockMode then
      some { world := { state := mockFetch s1, timers := w1.timers },
             inFlight := sys.inFlight ++ [Waiting.settled Caller.initializeCall] }
    else
      some { world := { state := s1, timers := w1.timers },
             inFlight := sys.inFlight ++ [Waiting.response Caller.initializeCall] }
  | .timerFired isMockMode handle =>
    if sys.world.timers.isPending handle then
      if isMockMode then
        some { world := { state := mockFetch sys.world.state,
                          timers := sys.world.timers.fire handle },
               inFlight := sys.inFlight ++ [Waiting.settled Caller.refreshCallback] }
      else
        some { world := { sys.world with timers := sys.world.timers.fire handle },
               inFlight := sys.inFlight ++ [Waiting.response Caller.refreshCallback] }
    else none
  | .fetchCompleted index outcome now =>
    match sys.inFlight.get? index with
    | none => none
    | some (Waiting.response _) =>
      some { world := resume sys.world outcome now,
             inFlight := sys.inFlight.eraseIdx index }
    | some (Waiting.settled _) =>
      some { world := startTokenRefresh sys.world,
             inFlight := sys.inFlight.eraseIdx index }

/-- A sequence of events from a state: the state reached, or `none` when one of the
events cannot happen. -/
def System.run (sys : System) : List Event → Option System
  | [] => some sys
  | e :: rest =>
    match sys.step e with
    | none => none
    | some next => next.run rest

/-- Every pending timer is the one `refreshTimeout` refers to. -/
def World.timersReferenced (w : World) : Prop :=
  ∀ t ∈ w.timers.pending, w.state.refreshTimeout = some t.id

/-- The timer-count invariant of the connector. -/
def World.atMostOneTimer (w : World) : Prop :=
  w.timers.pending.length ≤ 1 ∧ w.timersReferenced

end Connector

/-! ## Sending a message to Avaya Infinity -/

/-- JavaScript truthiness of a value. -/
def JSValue.truthy : JSValue → Bool
  | .undefined => false
  | .null => false
  | .bool b => b
  | .str s => !s.isEmpty
  | .arr _ => true
  | .obj _ => true

/-- A string, `undefined` or `null` as a value. -/
def JSValue.ofOption : Option JSString → JSValue
  | none => .undefined
  | some s => .str s

/-- The response of the messaging API to a `POST`: its status, its body as
`response.text()` gives it, and as `response.json()` gives it (`none` when that
rejects). -/
structure HttpResponse where
  status : Nat
  text : JSString
  json : Option JSValue

/-- `response.ok`: the status lies between 200 and 299. -/
def HttpResponse.ok (r : HttpResponse) : Bool := decide (200 ≤ r.status ∧ r.status ≤ 299)

/-- How a `POST` to the messaging API ends: `fetch` rejects, or a response arrives. -/
inductive PostOutcome where
  | rejected
  | response (r : HttpResponse)

/-- A `POST` to `{baseUrl}/api/digital/messaging/v1/accounts/{accountId}/messages`: the
two parts of the URL, the `Authorization` header and the body. -/
structure MessagePost where
  baseUrl : JSString
  accountId : Option JSString
  authorization : JSString
  body : Option JSString
deriving DecidableEq

/-- What `sendMessage` does besides returning: it reads the access token, it sends a
`POST`. -/
inductive SendEffect where
  | tokenRead
  | post (request : MessagePost)
deriving DecidableEq

/-- The errors with which `sendMessage` fails: the error of `getAccessToken()`, an
`Error` with a message, a rejected `fetch`, a body that is not JSON. -/
inductive SendError where
  | token (e : TokenError)
  | failed (message : JSString)
  | fetchRejected
  | invalidJson
deriving DecidableEq

/-- The result `{ success: true, messageId: 'mock_avaya_id' }` of a send in mock mode. -/
def mockSendResult : JSValue :=
  .obj [(utf16 "success", .bool true), (utf16 "messageId", .str (utf16 "mock_avaya_id"))]

/-- `AvayaInfinityService.sendMessage(message)` of the connector, for a service with
`this.baseUrl`, with `config.avaya.accountId` and `config.avaya.isMockMode`, and the
token module in state `s`: the value returned or the error thrown, and what it did.
`outcome` is how the `POST` ends, if one is sent. -/
def Connector.sendMessage (isMockMode : Bool) (baseUrl : JSString)
    (accountId : Option JSString) (s : Connector.TokenState) (message : JSValue)
    (outcome : PostOutcome) : Except SendError JSValue × List SendEffect :=
  let postData := JSON.stringify message
  if isMockMode then
    (.ok mockSendResult, [])
  else
    match Connector.getAccessToken s with
    | .error e => (.error (.token e), [.tokenRead])
    | .ok _ =>
      match Connector.getAccessToken s with
      | .error e => (.error (.token e), [.tokenRead, .tokenRead])
      | .ok token =>
        let effects := [SendEffect.tokenRead, .tokenRead,
          .post { baseUrl := baseUrl, accountId := accountId,
                  authorization := utf16 "Bearer " ++ token, body := postData }]
        match outcome with
        | .rejected => (.error .fetchRejected, effects)
        | .response r =>
          if !r.ok then
            (.error (.failed (utf16 "Failed to forward message to Avaya Infinity: " ++ r.text)),
              effects)
          else
            match r.json with
            | none => (.error .invalidJson, effects)
            | some payload => (.ok payload, effects)

/-! ## The messaging client of the server SDK (`messaging-client.ts`) -/

/-- The fields of an `AvayaInfinityMessagingClient`, the token service apart. -/
structure MessagingClient where
  baseUrl : JSString
  isInitialized : Bool
  account : Option JSString
  connectorId : Option JSString
  clientId : JSString
  clientSecret : JSString
deriving DecidableEq

/-- A `TextMessage`: its `from` (here `fromAddress`), its `to` (here `toAddress`) and its
text, with the optional context parameters and provider metadata. -/
structure TextMessage where
  fromAddress : JSString
  toAddress : JSString
  text : JSString
  contextParameters : JSValue
  providerMetaData : JSValue

/-- `formatMessage(textMessage)`. -/
def MessagingClient.formatMessage (client : MessagingClient) (textMessage : TextMessage) :
    JSValue :=
  .obj [
    (utf16 "connectorId", JSValue.ofOption client.connectorId),
    (utf16 "channel", .str (utf16 "text")),
    (utf16 "headers", .obj [
      (utf16 "from", .str textMessage.fromAddress),
      (utf16 "to", .arr [.str textMessage.toAddress])]),
    (utf16 "body", .obj [(utf16 "text", .str textMessage.text)]),
    (utf16 "contextParameters",
      if textMessage.contextParameters.truthy then textMessage.contextParameters
      else .obj []),
    (utf16 "providerMetaData",
      if textMessage.providerMetaData.truthy then textMessage.providerMetaData
      else .obj [])]

/-- The part of `sendMessage(textMessage)` after the lazy initialisation: the `POST`
with the current token of the token service `service`. -/
def MessagingClient.post (client : MessagingClient) (service : TokenService)
    (textMessage : TextMessage) (outcome : PostOutcome) :
    Except SendError JSValue × List SendEffect :=
  let postData := JSON.stringify (client.formatMessage textMessage)
  match TokenService.getAccessToken service with
  | .error e => (.error (.token e), [.tokenRead])
  | .ok token =>
    let effects := [SendEffect.tokenRead,
      .post { baseUrl := client.baseUrl, accountId := client.account,
              authorization := utf16 "Bearer " ++ token, body := postData }]
    match outcome with
    | .rejected => (.error .fetchRejected, effects)
    | .response r =>
      if !r.ok then
        (.error (.failed (utf16 "Failed to send message to Avaya Infinity: " ++ r.text)),
          effects)
      else
        match r.json with
        | none => (.error .invalidJson, effects)
        | some payload => (.ok payload, effects)

/-- A call of `sendMessage` that is suspended: at `await this.initialize(...)`, or at
`await fetch(url, ...)`. -/
inductive ClientWaiting where
  | initialization (textMessage : TextMessage)
  | post (textMessage : TextMessage)

/-- A messaging client, its token service and event loop, the calls of `sendMessage` in
flight, the number of calls of `TokenService.initialize` made so far, and the `POST`s
sent so far. -/
structure ClientSystem where
  client : MessagingClient
  world : World
  waiting : List ClientWaiting
  initializeCalls : Nat
  posts : List MessagePost

/-- A client as `AvayaInfinity.init` creates it, without eager initialisation. -/
def ClientSystem.fresh (baseUrl clientId clientSecret : JSString) : ClientSystem :=
  { client := { baseUrl := baseUrl, isInitialized := false, account := none,
                connectorId := none, clientId := clientId, clientSecret := clientSecret },
    world := World.fresh, waiting := [], initializeCalls := 0, posts := [] }

/-- What can happen to a messaging client: a call of `sendMessage`, the arrival of the
token response a lazy initialisation waits for, the arrival of the response to a `POST`. -/
inductive ClientEvent where
  | sendMessageCalled (textMessage : TextMessage)
  | initializationCompleted (index : Nat) (outcome : FetchOutcome) (now : Int)
  | postCompleted (index : Nat) (outcome : PostOutcome)

/-- `sendMessage` from the line that builds the URL up to `await fetch(url, ...)`: when
`getAccessToken()` throws the call is over, otherwise the `POST` is sent and awaited. -/
def ClientSystem.startPost (sys : ClientSystem) (textMessage : TextMessage) : ClientSystem :=
  match TokenService.getAccessToken sys.world.service with
  | .error _ => sys
  | .ok token =>
    { sys with
      waiting := sys.waiting ++ [ClientWaiting.post textMessage],
      posts := sys.posts ++
        [{ baseUrl := sys.client.baseUrl, accountId := sys.client.account,
           authorization := utf16 "Bearer " ++ token,
           body := JSON.stringify (sys.client.formatMessage textMessage) }] }

/-- One event of a messaging client: the system afterwards, or `none` when the event
cannot happen. -/
def ClientSystem.step (sys : ClientSystem) : ClientEvent → Option ClientSystem
  | .sendMessageCalled textMessage =>
    if !sys.client.isInitialized && !TokenService.isInitializedStatus sys.world.service then
      let begun := TokenService.initializeBegin sys.world sys.client.baseUrl
        sys.client.clientId sys.client.clientSecret
      some { sys with
        world := begun.1,
        initializeCalls := sys.initializeCalls + 1,
        waiting := if begun.2 then sys.waiting ++ [ClientWaiting.initialization textMessage]
                   else sys.waiting }
    else some (sys.startPost textMessage)
  | .initializationCompleted index outcome now =>
    match sys.waiting.get? index with
    | some (ClientWaiting.initialization textMessage) =>
      match TokenService.initializeResume sys.world outcome now with
      | (.ok _, w2) =>
        ClientSystem.startPost
          { sys with
            client := { sys.client with
              isInitialized := true,
              account := TokenService.getTokenAccountId w2.service,
              connectorId := TokenService.getTokenConnectorId w2.service },
            world := w2,
            waiting := sys.waiting.eraseIdx index } textMessage
      | (.error _, w2) => some { sys with world := w2, waiting := sys.waiting.eraseIdx index }
    | _ => none
  | .postCompleted index _ =>
    match sys.waiting.get? index with
    | some (ClientWaiting.post _) => some { sys with waiting := sys.waiting.eraseIdx index }
    | _ => none

/-- A sequence of events of a messaging client. -/
def ClientSystem.run (sys : ClientSystem) : List ClientEvent → Option ClientSystem
  | [] => some sys
  | e :: rest =>
    match sys.step e with
    | none => none
    | some next => next.run rest

/-! ## The Twilio service and the relay controllers of the connector -/

/-- How `client.messages.create(...)` ends: it resolves, or it rejects. -/
inductive TwilioOutcome where
  | created
  | failed
deriving DecidableEq

/-- The body of a response: a text sent with `send`, or a value sent with `json`. -/
inductive ResponseBody where
  | text (s : JSString)
  | json (v : JSValue)

/-- The `headers` of a message for Avaya Infinity. -/
structure MessageHeaders where
  fromAddress : JSValue
  toAddresses : List JSValue
  destination : JSValue

/-- The `contextParameters` of a message for Avaya Infinity. -/
structure ContextParameters where
  category : JSString
  toCountryCode : JSValue
  toState : JSValue
  toCity : JSValue
  fromCountryCode : JSValue
  fromState : JSValue
  fromCity : JSValue

/-- The `providerMetaData` of a message for Avaya Infinity. -/
structure ProviderMetaData where
  messageId : JSValue
  messageTimestamp : JSString

/-- The message that `handleTwilioWebhook` builds for Avaya Infinity. -/
structure AvayaMessage where
  connectorId : Option JSString
  channel : JSString
  headers : MessageHeaders
  bodyText : JSValue
  contextParameters : ContextParameters
  providerMetaData : ProviderMetaData

/-- The message as a JavaScript value. -/
def AvayaMessage.toJSValue (m : AvayaMessage) : JSValue :=
  .obj [
    (utf16 "connectorId", JSValue.ofOption m.connectorId),
    (utf16 "channel", .str m.channel),
    (utf16 "headers", .obj [
      (utf16 "from", m.headers.fromAddress),
      (utf16 "to", .arr m.headers.toAddresses),
      (utf16 "destination", m.headers.destination)]),
    (utf16 "body", .obj [(utf16 "text", m.bodyText)]),
    (utf16 "contextParameters", .obj [
      (utf16 "category", .str m.contextParameters.category),
      (utf16 "toCountryCode", m.contextParameters.toCountryCode),
      (utf16 "toState", m.contextParameters.toState),
      (utf16 "toCity", m.contextParameters.toCity),
      (utf16 "fromCountryCode", m.contextParameters.fromCountryCode),
      (utf16 "fromState", m.contextParameters.fromState),
      (utf16 "fromCity", m.contextParameters.fromCity)]),
    (utf16 "providerMetaData", .obj [
      (utf16 "messageId", m.providerMetaData.messageId),
      (utf16 "messageTimestamp", .str m.providerMetaData.messageTimestamp)])]

/-- What a controller does: it calls `twilioService.sendMessage(from, to, message)`,
which may call `client.messages.create`; it calls `avayaInfinityService.sendMessage`,
which may read the token and send a `POST`; it sends a response. -/
inductive RelayEffect where
  | twilioSendMessage (fromAddress toAddress message : Option JSString)
  | twilioCreate (fromAddress toAddress message : Option JSString)
  | avayaSendMessage (message : AvayaMessage)
  | avaya (effect : SendEffect)
  | respond (status : Nat) (body : ResponseBody)

/-- Whether an effect is a call of `twilioService.sendMessage`. -/
def RelayEffect.isTwilioSend : RelayEffect → Bool
  | .twilioSendMessage _ _ _ => true
  | _ => false

/-- Whether an effect is a call of `avayaInfinityService.sendMessage`. -/
def RelayEffect.isAvayaSend : RelayEffect → Bool
  | .avayaSendMessage _ => true
  | _ => false

/-- `TwilioService.sendMessage(from, to, message)` with `config.twilio.isMockMode` and
with `this.client` set or not: whether it returns (rather than throws), and the calls
of the Twilio API it makes. -/
def TwilioService.sendMessage (isMockMode hasClient : Bool)
    (fromAddress toAddress message : Option JSString) (outcome : TwilioOutcome) :
    Bool × List RelayEffect :=
  if isMockMode then (true, [])
  else if !hasClient then (false, [])
  else
    match outcome with
    | .created => (true, [.twilioCreate fromAddress toAddress message])
    | .failed => (false, [.twilioCreate fromAddress toAddress message])

/-- The `headers` of an event of Avaya Infinity: `from` and `to`. -/
structure EventHeaders where
  fromAddress : Option JSString
  toAddresses : Option (List JSString)

/-- The `body` of an event of Avaya Infinity. -/
structure EventBody where
  text : Option JSString

/-- The `sender` of an event of Avaya Infinity. -/
structure EventSender where
  type : Option JSString

/-- The body of a webhook request of Avaya Infinity; a member that is absent is
`none`. -/
structure AvayaEvent where
  eventType : Option JSString
  messageId : Option JSString
  headers : Option EventHeaders
  body : Option EventBody
  sender : Option EventSender

/-- An event has the shape of the interface: `headers` with a `to` array, `body` and
`sender` are present. -/
def AvayaEvent.wellFormed (e : AvayaEvent) : Prop :=
  (∃ h toAddresses, e.headers = some h ∧ h.toAddresses = some toAddresses) ∧
  e.body.isSome = true ∧ e.sender.isSome = true

/-- How an asynchronous handler ends: it completes, or it throws (its promise is
rejected) before a response is sent. -/
inductive HandlerEnd where
  | completed
  | threw
deriving DecidableEq

/-- `handleAvayaWebhook(req, res)` for the request body `body`: how it ends and what it
does.  Reading a member of an absent `headers`, `to`, `body` or `sender` throws. -/
def handleAvayaWebhook (isMockMode hasClient : Bool) (body : AvayaEvent)
    (outcome : TwilioOutcome) : HandlerEnd × List RelayEffect :=
  if body.eventType = some (utf16 "HEALTH_CHECK") then
    (.completed, [.respond 200 (.text (utf16 "OK"))])
  else if body.eventType = some (utf16 "MESSAGES") then
    match body.headers with
    | none => (.threw, [])
    | some headers =>
      match headers.toAddresses with
      | none => (.threw, [])
      | some toAddresses =>
        match body.body with
        | none => (.threw, [])
        | some messageBody =>
          match body.sender with
          | none => (.threw, [])
          | some sender =>
            if sender.type = some (utf16 "CUSTOMER") then
              (.completed, [.respond 200 (.text (utf16 "OK"))])
            else
              let sent := TwilioService.sendMessage isMockMode hasClient headers.fromAddress
                toAddresses.head? messageBody.text outcome
              (.completed,
                [RelayEffect.twilioSendMessage headers.fromAddress toAddresses.head?
                  messageBody.text] ++ sent.2 ++
                [if sent.1 then
                  RelayEffect.respond 200 (.json (.obj [(utf16 "success", .bool true)]))
                 else
                  RelayEffect.respond 500 (.json (.obj [(utf16 "error",
                    .str (utf16 "Error processing webhook event from Avaya Infinity"))]))])
  else
    (.completed, [.respond 200 (.text (utf16 "OK"))])

/-- The body of a webhook request of Twilio; a member that is absent is `undefined`. -/
structure TwilioBody where
  From : JSValue
  To : JSValue
  Body : JSValue
  MessageSid : JSValue
  ToCountryCode : JSValue
  ToState : JSValue
  ToCity : JSValue
  FromCountryCode : JSValue
  FromState : JSValue
  FromCity : JSValue

/-- The message `handleTwilioWebhook` builds from a request body, with
`config.avaya.connectorId` and the current time as `new Date().toISOString()` gives it. -/
def twilioToAvayaMessage (connectorId : Option JSString) (twilioMessage : TwilioBody)
    (timestamp : JSString) : AvayaMessage :=
  { connectorId := connectorId,
    channel := utf16 "SMS",
    headers := { fromAddress := twilioMessage.From, toAddresses := [twilioMessage.To],
                 destination := twilioMessage.To },
    bodyText := twilioMessage.Body,
    contextParameters :=
      { category := utf16 "insurance",
        toCountryCode := twilioMessage.ToCountryCode,
        toState := twilioMessage.ToState,
        toCity := twilioMessage.ToCity,
        fromCountryCode := twilioMessage.FromCountryCode,
        fromState := twilioMessage.FromState,
        fromCity := twilioMessage.FromCity },
    providerMetaData :=
      { messageId := twilioMessage.MessageSid, messageTimestamp := timestamp } }

/-- `handleTwilioWebhook(req, res)` for the request body `twilioMessage`: what it does.
It does not throw, the whole of it standing in a `try`. -/
def handleTwilioWebhook (isMockMode : Bool) (baseUrl : JSString)
    (accountId connectorId : Option JSString) (s : Connector.TokenState)
    (twilioMessage : TwilioBody) (timestamp : JSString) (outcome : PostOutcome) :
    List RelayEffect :=
  let message := twilioToAvayaMessage connectorId twilioMessage timestamp
  let sent := Connector.sendMessage isMockMode baseUrl accountId s message.toJSValue outcome
  [RelayEffect.avayaSendMessage message] ++ sent.2.map RelayEffect.avaya ++
    [match sent.1 with
     | .ok _ => RelayEffect.respond 200 (.text (utf16 "OK"))
     | .error _ =>
       RelayEffect.respond 500 (.text (utf16 "Error processing webhook event from Twilio"))]

/-! ## The configuration of the connector (`environment.js`) -/

/-- `config.twilio.account`. -/
structure TwilioAccount where
  sid : Option JSString
  authToken : Option JSString
deriving DecidableEq

/-- `config.twilio.apiKey`. -/
structure TwilioApiKey where
  sid : Option JSString
  secret : Option JSString
deriving DecidableEq

/-- `config.twilio`. -/
structure TwilioConfig where
  account : TwilioAccount
  apiKey : TwilioApiKey
  isMockMode : Bool
deriving DecidableEq

/-- `config.avaya`. -/
structure AvayaConfig where
  host : Option JSString
  accountId : Option JSString
  clientId : Option JSString
  clientSecret : Option JSString
  connectorId : Option JSString
  webhookSecret : Option JSString
  isMockMode : Bool
deriving DecidableEq

/-- The configuration object with every setting a string or absent, as the environment
gives it. -/
structure Config where
  twilio : TwilioConfig
  avaya : AvayaConfig
deriving DecidableEq

/-- The helper `maskString(str)` of `getMaskedConfig`. -/
def maskString (str : Option JSString) : Option JSString :=
  if !truthy str then str
  else if (str.getD []).length ≤ 6 then some (utf16 "***")
  else some ((str.getD []).take 3 ++ utf16 "***" ++ (str.getD []).drop ((str.getD []).length - 2))

/-- `getMaskedConfig()`. -/
def getMaskedConfig (config : Config) : Config :=
  { twilio :=
      { account := { sid := maskString config.twilio.account.sid,
                     authToken := maskString config.twilio.account.authToken },
        apiKey := { sid := maskString config.twilio.apiKey.sid,
                    secret := maskString config.twilio.apiKey.secret },
        isMockMode := config.twilio.isMockMode },
    avaya :=
      { host := config.avaya.host,
        accountId := config.avaya.accountId,
        clientId := maskString config.avaya.clientId,
        clientSecret := maskString config.avaya.clientSecret,
        connectorId := config.avaya.connectorId,
        webhookSecret := maskString config.avaya.webhookSecret,
        isMockMode := config.avaya.isMockMode } }

/-- The two sections of the configuration object as JavaScript values:
`updateConfig` may store any value of the new configuration in them. -/
structure ConfigTree where
  twilio : JSValue
  avaya : JSValue

/-- The configuration object of a `Config`. -/
def Config.toTree (config : Config) : ConfigTree :=
  { twilio := .obj [
      (utf16 "account", .obj [
        (utf16 "sid", JSValue.ofOption config.twilio.account.sid),
        (utf16 "authToken", JSValue.ofOption config.twilio.account.authToken)]),
      (utf16 "apiKey", .obj [
        (utf16 "sid", JSValue.ofOption config.twilio.apiKey.sid),
        (utf16 "secret", JSValue.ofOption config.twilio.apiKey.secret)]),
      (utf16 "isMockMode", .bool config.twilio.isMockMode)],
    avaya := .obj [
      (utf16 "host", JSValue.ofOption config.avaya.host),
      (utf16 "accountId", JSValue.ofOption config.avaya.accountId),
      (utf16 "clientId", JSValue.ofOption config.avaya.clientId),
      (utf16 "clientSecret", JSValue.ofOption config.avaya.clientSecret),
      (utf16 "connectorId", JSValue.ofOption config.avaya.connectorId),
      (utf16 "webhookSecret", JSValue.ofOption config.avaya.webhookSecret),
      (utf16 "isMockMode", .bool config.avaya.isMockMode)] }

/-- The value of `v[key]` for an object `v`; `undefined` for a key that is absent and
for a value without named members. -/
def JSValue.getMember (v : JSValue) (key : JSString) : JSValue :=
  match v with
  | .obj members => (members.lookup key).getD .undefined
  | _ => .undefined

/-- The members of an object after `object[key] = value`. -/
def setMemberIn : List (JSString × JSValue) → JSString → JSValue → List (JSString × JSValue)
  | [], key, value => [(key, value)]
  | (k, v) :: rest, key, value =>
    if k == key then (k, value) :: rest else (k, v) :: setMemberIn rest key value

/-- The object `v` after `v[key] = value`. -/
def JSValue.setMember (v : JSValue) (key : JSString) (value : JSValue) : JSValue :=
  match v with
  | .obj members => .obj (setMemberIn members key value)
  | other => other

/-- The comparison `a !== b` where `b` is not an object of the configuration: an array
or an object is never identical to a value that was just parsed. -/
def JSValue.strictNe : JSValue → JSValue → Bool
  | .undefined, .undefined => false
  | .null, .null => false
  | .bool a, .bool b => a != b
  | .str a, .str b => a != b
  | _, _ => true

/-- Whether a code unit is white space or a line terminator, which `trim()` removes. -/
def isWhiteSpace (c : Nat) : Bool :=
  c == 9 || c == 10 || c == 11 || c == 12 || c == 13 || c == 32 || c == 160 ||
  c == 0x1680 || (0x2000 ≤ c && c ≤ 0x200A) || c == 0x2028 || c == 0x2029 ||
  c == 0x202F || c == 0x205F || c == 0x3000 || c == 0xFEFF

/-- The value of `!avayaHost || avayaHost.trim() === ''` for
`avayaHost = newConfig.avaya.host`: `none` when the expression throws, `newConfig.avaya`
being `undefined` or `null`, or the host a truthy value that is not a string. -/
def avayaMockFlag (newConfig : JSValue) : Option Bool :=
  match newConfig.getMember (utf16 "avaya") with
  | .undefined => none
  | .null => none
  | avaya =>
    match avaya.getMember (utf16 "host") with
    | .str host => some (host.all isWhiteSpace)
    | host => if host.truthy then none else some true

/-- How a call of `updateNestedConfig` ends: it returns `changed`, or it throws a
`TypeError`; `unsupported` stands for a call on a target that is an array, whose named
properties the values of this model cannot hold. -/
inductive UpdateResult where
  | returned (changed : Bool)
  | threw
  | unsupported
deriving DecidableEq

/-- The decimal digits of an array index, a key of `Object.entries`. -/
def decimal (n : Nat) : JSString := (Nat.toDigits 10 n).map Char.toNat

/-- The end of `updateNestedConfig` after its loop: `isMockMode` is set on the target
from `newConfig.avaya.host`, which throws when that expression throws. -/
def finishUpdate (flag : Option Bool) (looped : JSValue × UpdateResult) :
    JSValue × UpdateResult :=
  match looped.2 with
  | .returned changed =>
    match flag with
    | none => (looped.1, .threw)
    | some isMockMode =>
      (looped.1.setMember (utf16 "isMockMode") (.bool isMockMode), .returned changed)
  | other => (looped.1, other)

/-- The test `typeof value === 'object' && value !== null && !Array.isArray(value)`. -/
def JSValue.isPlainObject : JSValue → Bool
  | .obj _ => true
  | _ => false

/-- The test `value !== undefined`. -/
def JSValue.isDefined : JSValue → Bool
  | .undefined => false
  | _ => true

/-- The loop of `updateNestedConfig` over the characters of a string, from an index on:
each is a value that is not an object. -/
def updateChars (target : JSValue) (changed : Bool) (index : Nat) :
    JSString → JSValue × UpdateResult
  | [] => (target, .returned changed)
  | c :: rest =>
    if (target.getMember (decimal index)).strictNe (.str [c]) then
      updateChars (target.setMember (decimal index) (.str [c])) true (index + 1) rest
    else updateChars target changed (index + 1) rest

mutual
/-- The helper `updateNestedConfig(target, source)` of `updateConfig`, with the value of
the mock-mode expression in `flag`: the target afterwards (it is changed in place, also
when the call throws) and how the call ends.  A target that is not an object cannot
take a property, so the call throws; `Object.entries` throws on `undefined` and `null`. -/
def updateNestedConfig (flag : Option Bool) (target : JSValue) :
    JSValue → JSValue × UpdateResult
  | .obj members =>
    match target with
    | .obj _ => finishUpdate flag (updateMembers flag target false members)
    | .arr _ => (target, .unsupported)
    | _ => (target, .threw)
  | .arr items =>
    match target with
    | .obj _ => finishUpdate flag (updateItems flag target false 0 items)
    | .arr _ => (target, .unsupported)
    | _ => (target, .threw)
  | .str s =>
    match target with
    | .obj _ => finishUpdate flag (updateChars target false 0 s)
    | .arr _ => (target, .unsupported)
    | _ => (target, .threw)
  | .bool _ =>
    match target with
    | .obj _ => finishUpdate flag (target, .returned false)
    | .arr _ => (target, .unsupported)
    | _ => (target, .threw)
  | _ => (target, .threw)
/-- The loop of `updateNestedConfig` over the members of an object. -/
def updateMembers (flag : Option Bool) (target : JSValue) (changed : Bool) :
    List (JSString × JSValue) → JSValue × UpdateResult
  | [] => (target, .returned changed)
  | (key, value) :: rest =>
    if value.isPlainObject then
      if (target.getMember key).truthy then
        match updateNestedConfig flag (target.getMember key) value with
        | (child, .returned nestedChanged) =>
          updateMembers flag (target.setMember key child) (changed || nestedChanged) rest
        | (child, other) => (target.setMember key child, other)
      else updateMembers flag target changed rest
    else if value.isDefined && (target.getMember key).strictNe value then
      updateMembers flag (target.setMember key value) true rest
    else updateMembers flag target changed rest
/-- The loop of `updateNestedConfig` over the elements of an array, from an index on. -/
def updateItems (flag : Option Bool) (target : JSValue) (changed : Bool) (index : Nat) :
    List JSValue → JSValue × UpdateResult
  | [] => (target, .returned changed)
  | value :: rest =>
    if value.isPlainObject then
      if (target.getMember (decimal index)).truthy then
        match updateNestedConfig flag (target.getMember (decimal index)) value with
        | (child, .returned nestedChanged) =>
          updateItems flag (target.setMember (decimal index) child)
            (changed || nestedChanged) (index + 1) rest
        | (child, other) => (target.setMember (decimal index) child, other)
      else updateItems flag target changed (index + 1) rest
    else if value.isDefined && (target.getMember (decimal index)).strictNe value then
      updateItems flag (target.setMember (decimal index) value) true (index + 1) rest
    else updateItems flag target changed (index + 1) rest
end

/-- `updateConfig(newConfig)`: the configuration afterwards (it is changed in place,
also when the call throws), and `{ twilioChanged, avayaChanged }` when it returns. -/
def updateConfig (config : ConfigTree) (newConfig : JSValue) :
    ConfigTree × Option (Bool × Bool) :=
  match newConfig with
  | .undefined => (config, none)
  | .null => (config, none)
  | _ =>
    let twilio :=
      if (newConfig.getMember (utf16 "twilio")).truthy then
        updateNestedConfig (avayaMockFlag newConfig) config.twilio
          (newConfig.getMember (utf16 "twilio"))
      else (config.twilio, .returned false)
    match twilio.2 with
    | .returned twilioChanged =>
      let avaya :=
        if (newConfig.getMember (utf16 "avaya")).truthy then
          updateNestedConfig (avayaMockFlag newConfig) config.avaya
            (newConfig.getMember (utf16 "avaya"))
        else (config.avaya, .returned false)
      match avaya.2 with
      | .returned avayaChanged =>
        ({ twilio := twilio.1, avaya := avaya.1 }, some (twilioChanged, avayaChanged))
      | _ => ({ twilio := twilio.1, avaya := avaya.1 }, none)
    | _ => ({ twilio := twilio.1, avaya := config.avaya }, none)

end Avaya

namespace Avaya

set_option maxRecDepth 100000

/-! ## Lemmas on the library functions -/

/-- The model of SHA-256 on the test vector `abc` of FIPS 180-4. -/
theorem sha256_abc :
    Sha256.sha256 (utf8Encode (utf16 "abc")) =
      [0xba, 0x78, 0x16, 0xbf, 0x8f, 0x01, 0xcf, 0xea, 0x41, 0x41, 0x40, 0xde, 0x5d, 0xae,
       0x22, 0x23, 0xb0, 0x03, 0x61, 0xa3, 0x96, 0x17, 0x7a, 0x9c, 0xb4, 0x10, 0xff, 0x61,
       0xf2, 0x00, 0x15, 0xad] := by
  decide

/-- The model of HMAC-SHA256 on test case 2 of RFC 4231. -/
theorem hmac_rfc4231_case2 :
    Sha256.hmac (utf8Encode (utf16 "Jefe")) (utf8Encode (utf16 "what do ya want for nothing?")) =
      [0x5b, 0xdc, 0xc1, 0x46, 0xbf, 0x60, 0x75, 0x4e, 0x6a, 0x04, 0x24, 0x26, 0x08, 0x95,
       0x75, 0xc7, 0x5a, 0x00, 0x3f, 0x08, 0x9d, 0x27, 0x39, 0x83, 0x9d, 0xec, 0x58, 0xb9,
       0x64, 0xec, 0x38, 0x43] := by
  decide

/-- The model of base64 on the test vectors of RFC 4648. -/
theorem base64_rfc4648 :
    base64Encode (utf8Encode (utf16 "f")) = utf16 "Zg==" ∧
    base64Encode (utf8Encode (utf16 "fo")) = utf16 "Zm8=" ∧
    base64Encode (utf8Encode (utf16 "foobar")) = utf16 "Zm9vYmFy" := by
  decide

theorem base64Char_lt (i : Nat) : base64Char i < 128 := by
  unfold base64Char
  split_ifs <;> omega

theorem base64Encode_ascii : ∀ (bs : Buffer), ∀ c ∈ base64Encode bs, c < 128
  | [] => by simp [base64Encode]
  | [a] => by
    intro c hc
    simp only [base64Encode, List.mem_cons, List.mem_singleton] at hc
    rcases hc with h | h | h | h | h
    · exact h ▸ base64Char_lt _
    · exact h ▸ base64Char_lt _
    · omega
    · omega
    · simp at h
  | [a, b] => by
    intro c hc
    simp only [base64Encode, List.mem_cons, List.mem_singleton] at hc
    rcases hc with h | h | h | h | h
    · exact h ▸ base64Char_lt _
    · exact h ▸ base64Char_lt _
    · exact h ▸ base64Char_lt _
    · omega
    · simp at h
  | a :: b :: c :: rest => by
    intro x hx
    simp only [base64Encode, List.cons_append, List.nil_append, List.mem_cons] at hx
    rcases hx with h | h | h | h | h
    · exact h ▸ base64Char_lt _
    · exact h ▸ base64Char_lt _
    · exact h ▸ base64Char_lt _
    · exact h ▸ base64Char_lt _
    · exact base64Encode_ascii rest x h

theorem sha256Tag_ascii : ∀ c ∈ sha256Tag, c < 128 := by decide

theorem sha256Tag_eq : sha256Tag = utf16 "sha256=" := rfl

theorem expectedSignature_ascii (secret text : JSString) :
    ∀ c ∈ expectedSignature secret text, c < 128 := by
  intro c hc
  rw [expectedSignature, ← sha256Tag_eq, List.mem_append] at hc
  rcases hc with h | h
  · exact sha256Tag_ascii c h
  · exact base64Encode_ascii _ c h

/-- A string of ASCII characters is its own UTF-8 encoding. -/
theorem utf8Encode_of_ascii : ∀ (s : JSString), (∀ c ∈ s, c < 128) → utf8Encode s = s
  | [], _ => by simp [utf8Encode]
  | [c], h => by
    have hc : c < 128 := h c (by simp)
    simp [utf8Encode, hc]
  | c :: d :: rest, h => by
    have hc : c < 128 := h c (by simp)
    have ih := utf8Encode_of_ascii (d :: rest) (fun x hx => h x (List.mem_cons_of_mem _ hx))
    simp [utf8Encode, hc, ih]

/-- A string whose UTF-8 encoding has only bytes below 128 is that encoding. -/
theorem utf8Encode_eq_self_of_bytes : ∀ (s : JSString),
    (∀ b ∈ utf8Encode s, b < 128) → utf8Encode s = s
  | [], _ => by simp [utf8Encode]
  | [c], h => by
    unfold utf8Encode at h ⊢
    unfold replacementBytes at h ⊢
    split_ifs at h ⊢ with h1 h2 h3
    · rfl
    · have := h (0xC0 + c / 64) (by simp); omega
    · have := h 0xEF (by simp); omega
    · have := h (0xE0 + c / 4096) (by simp); omega
  | c :: d :: rest, h => by
    unfold utf8Encode at h ⊢
    unfold replacementBytes at h ⊢
    split_ifs at h ⊢ with h1 h2 h3 h4 h5
    · have ih := utf8Encode_eq_self_of_bytes (d :: rest)
        (fun x hx => h x (List.mem_cons_of_mem _ hx))
      rw [ih]
    · have := h (0xC0 + c / 64) (by simp); omega
    · have := h (0xF0 + (0x10000 + (c - 0xD800) * 1024 + (d - 0xDC00)) / 262144) (by simp)
      omega
    · have := h 0xEF (by simp); omega
    · have := h 0xEF (by simp); omega
    · have := h (0xE0 + c / 4096) (by simp); omega

/-- Only an ASCII string itself has the UTF-8 encoding of that ASCII string. -/
theorem utf8Encode_eq_ascii (s g : JSString) (hg : ∀ c ∈ g, c < 128)
    (h : utf8Encode s = utf8Encode g) : s = g := by
  rw [utf8Encode_of_ascii g hg] at h
  have hs : utf8Encode s = s := utf8Encode_eq_self_of_bytes s (by rw [h]; exact hg)
  rw [hs] at h
  exact h

theorem timingSafeEqual_self (a : Buffer) : timingSafeEqual a a = some true := by
  simp [timingSafeEqual]

theorem truthy_cons (c : Nat) (cs : JSString) : truthy (some (c :: cs)) = true := rfl

theorem startsWithSha256_expected (secret text : JSString) :
    startsWithSha256 (some (expectedSignature secret text)) = true := by
  simp [startsWithSha256, expectedSignature, ← sha256Tag_eq]

theorem secret_guard_cons (c : Nat) (cs : JSString) :
    (!truthy (some (c :: cs)) || some (c :: cs) == some ([] : JSString)) = false := by
  simp [truthy]

/-- With a non-empty secret, a signature with the tag and a body that serialises, the
verifier compares the two buffers: lengths first, then contents. -/
theorem verifySignature_compare {β : Type} (stringify : β → Option JSString)
    (c : Nat) (cs : JSString) (body : β) (sig text : JSString)
    (hsig : startsWithSha256 (some sig) = true) (hbody : stringify body = some text) :
    (SignatureValidationService.verifySignature stringify (some (c :: cs)) body (some sig)).1
      = decide (utf8Encode sig = utf8Encode (expectedSignature (c :: cs) text)) := by
  unfold SignatureValidationService.verifySignature
  rw [secret_guard_cons]
  simp only [hsig, hbody, Bool.not_true, Bool.false_eq_true, if_false, Option.getD_some,
    ← sha256Tag_eq, expectedSignature]
  by_cases hlen : (utf8Encode sig).length =
      (utf8Encode (sha256Tag ++ base64Encode
        (Sha256.hmac (utf8Encode (c :: cs)) (utf8Encode text)))).length
  · by_cases heq : utf8Encode sig = utf8Encode (sha256Tag ++ base64Encode
        (Sha256.hmac (utf8Encode (c :: cs)) (utf8Encode text)))
    · simp [timingSafeEqual, heq]
    · simp [timingSafeEqual, hlen, heq]
  · have heq : utf8Encode sig ≠ utf8Encode (sha256Tag ++ base64Encode
        (Sha256.hmac (utf8Encode (c :: cs)) (utf8Encode text))) := fun h => hlen (by rw [h])
    simp [hlen, heq]

theorem verifySignature_true_iff {β : Type} (stringify : β → Option JSString)
    (S : JSString) (body : β) (sig : Option JSString) (hS : S ≠ []) :
    (SignatureValidationService.verifySignature stringify (some S) body sig).1 = true ↔
      ∃ text, stringify body = some text ∧ sig = some (expectedSignature S text) := by
  obtain ⟨c, cs, rfl⟩ := List.exists_cons_of_ne_nil hS
  constructor
  · intro h
    cases hst : startsWithSha256 sig with
    | false =>
      unfold SignatureValidationService.verifySignature at h
      rw [secret_guard_cons] at h
      simp [hst] at h
    | true =>
      cases sig with
      | none => simp [startsWithSha256] at hst
      | some s =>
        cases hb : stringify body with
        | none =>
          unfold SignatureValidationService.verifySignature at h
          rw [secret_guard_cons] at h
          simp [hst, hb] at h
        | some text =>
          rw [verifySignature_compare stringify c cs body s text hst hb] at h
          refine ⟨text, rfl, ?_⟩
          have := utf8Encode_eq_ascii s _ (expectedSignature_ascii (c :: cs) text)
            (of_decide_eq_true h)
          rw [this]
  · rintro ⟨text, hb, rfl⟩
    rw [verifySignature_compare stringify c cs body _ text
      (startsWithSha256_expected _ _) hb]
    simp

/-- The middleware with a non-empty secret, a header with the tag and a body that
serialises: `next()` when the two buffers are equal, `403` otherwise. -/
theorem validateAvayaSignature_compare {β : Type} (stringify : β → Option JSString)
    (c : Nat) (cs : JSString) (body : β) (sig text : JSString)
    (hsig : startsWithSha256 (some sig) = true) (hbody : stringify body = some text) :
    (validateAvayaSignature stringify (some (c :: cs))
        { body := body, signatureHeader := some sig }).1
      = if utf8Encode sig = utf8Encode (expectedSignature (c :: cs) text)
        then [HttpAction.next] else [HttpAction.respond 403] := by
  unfold validateAvayaSignature
  rw [secret_guard_cons]
  simp only [hsig, hbody, Bool.not_true, Bool.false_eq_true, if_false, Option.getD_some,
    ← sha256Tag_eq, expectedSignature]
  by_cases hlen : (utf8Encode sig).length =
      (utf8Encode (sha256Tag ++ base64Encode
        (Sha256.hmac (utf8Encode (c :: cs)) (utf8Encode text)))).length
  · by_cases heq : utf8Encode sig = utf8Encode (sha256Tag ++ base64Encode
        (Sha256.hmac (utf8Encode (c :: cs)) (utf8Encode text)))
    · simp [timingSafeEqual, heq]
    · simp [timingSafeEqual, hlen, heq]
  · have heq : utf8Encode sig ≠ utf8Encode (sha256Tag ++ base64Encode
        (Sha256.hmac (utf8Encode (c :: cs)) (utf8Encode text))) := fun h => hlen (by rw [h])
    simp [hlen, heq]

theorem startsWithSha256_iff (s : JSString) :
    startsWithSha256 (some s) = true ↔ utf16 "sha256=" <+: s := by
  simp [startsWithSha256, sha256Tag_eq]

theorem startsWithSha256_false_of (sig : Option JSString)
    (h : ∀ s, sig = some s → ¬ utf16 "sha256=" <+: s) : startsWithSha256 sig = false := by
  cases sig with
  | none => rfl
  | some s =>
    cases hst : startsWithSha256 (some s) with
    | false => rfl
    | true => exact absurd ((startsWithSha256_iff s).1 hst) (h s rfl)

/-- With a non-empty secret, the middleware calls `next()` exactly for the expected
signature of the serialised body. -/
theorem validateAvayaSignature_next_iff {β : Type} (stringify : β → Option JSString)
    (S : JSString) (req : ExpressRequest β) (hS : S ≠ []) :
    HttpAction.next ∈ (validateAvayaSignature stringify (some S) req).1 ↔
      ∃ text, stringify req.body = some text ∧
        req.signatureHeader = some (expectedSignature S text) := by
  obtain ⟨c, cs, rfl⟩ := List.exists_cons_of_ne_nil hS
  obtain ⟨body, sig⟩ := req
  constructor
  · intro h
    cases hst : startsWithSha256 sig with
    | false =>
      unfold validateAvayaSignature at h
      rw [secret_guard_cons] at h
      simp [hst] at h
    | true =>
      cases sig with
      | none => simp [startsWithSha256] at hst
      | some s =>
        cases hb : stringify body with
        | none =>
          unfold validateAvayaSignature at h
          rw [secret_guard_cons] at h
          simp [hst, hb] at h
        | some text =>
          rw [validateAvayaSignature_compare stringify c cs body s text hst hb] at h
          refine ⟨text, rfl, ?_⟩
          by_cases heq : utf8Encode s = utf8Encode (expectedSignature (c :: cs) text)
          · rw [utf8Encode_eq_ascii s _ (expectedSignature_ascii (c :: cs) text) heq]
          · simp [heq] at h
  · rintro ⟨text, hb, hsig⟩
    simp only at hb hsig
    subst hsig
    rw [validateAvayaSignature_compare stringify c cs body _ text
      (startsWithSha256_expected _ _) hb]
    simp

/-! ## Claims on the signature verifier -/

/-- C1. Round trip of signing and verifying: for every body that `JSON.stringify`
serialises to `text` and every non-empty secret `S`, `verifySignature` returns `true` on
the signature `'sha256=' + base64(HMAC-SHA256(S, text))`. -/
theorem C1_sign_verify_roundtrip {β : Type} (stringify : β → Option JSString)
    (S : JSString) (body : β) (text : JSString) (hS : S ≠ [])
    (hbody : stringify body = some text) :
    (SignatureValidationService.verifySignature stringify (some S) body
      (some (expectedSignature S text))).1 = true :=
  (verifySignature_true_iff stringify S body _ hS).2 ⟨text, hbody, rfl⟩

/-- A witness of C1: the body `{"a":"b"}` under the secret `k`. -/
theorem C1_sign_verify_roundtrip_witness :
    utf16 "k" ≠ [] ∧
    JSON.stringify (.obj [(utf16 "a", .str (utf16 "b"))]) = some (utf16 "\x7b\"a\":\"b\"\x7d") ∧
    (SignatureValidationService.verifySignature JSON.stringify (some (utf16 "k"))
      (.obj [(utf16 "a", .str (utf16 "b"))])
      (some (expectedSignature (utf16 "k") (utf16 "\x7b\"a\":\"b\"\x7d")))).1 = true :=
  ⟨by decide, by decide,
   C1_sign_verify_roundtrip JSON.stringify (utf16 "k") (.obj [(utf16 "a", .str (utf16 "b"))])
     (utf16 "\x7b\"a\":\"b\"\x7d") (by decide) (by decide)⟩

/-- C2. With a non-empty secret `S`, `verifySignature` returns `true` if and only if the
body serialises and the signature is exactly `'sha256=' + base64(HMAC-SHA256(S, text))`
for the serialised text; so every other signature string, such as a valid one with a
bit changed, makes it return `false`. -/
theorem C2_true_only_on_exact_match {β : Type} (stringify : β → Option JSString)
    (S : JSString) (body : β) (sig : Option JSString) (hS : S ≠ []) :
    ((SignatureValidationService.verifySignature stringify (some S) body sig).1 = true ↔
      ∃ text, stringify body = some text ∧ sig = some (expectedSignature S text)) ∧
    (∀ text, stringify body = some text → sig ≠ some (expectedSignature S text) →
      (SignatureValidationService.verifySignature stringify (some S) body sig).1 = false) := by
  refine ⟨verifySignature_true_iff stringify S body sig hS, ?_⟩
  intro text hb hne
  cases hres : (SignatureValidationService.verifySignature stringify (some S) body sig).1 with
  | false => rfl
  | true =>
    obtain ⟨text2, hb2, hsig⟩ := (verifySignature_true_iff stringify S body sig hS).1 hres
    rw [hb] at hb2
    cases hb2
    exact absurd hsig hne

/-- A witness of C2: the secret `k`, the body `null` and the signature `sha256=AAAA`. -/
theorem C2_true_only_on_exact_match_witness :
    utf16 "k" ≠ [] ∧
    ((SignatureValidationService.verifySignature JSON.stringify (some (utf16 "k"))
        JSValue.null (some (utf16 "sha256=AAAA"))).1 = true ↔
      ∃ text, JSON.stringify JSValue.null = some text ∧
        some (utf16 "sha256=AAAA") = some (expectedSignature (utf16 "k") text)) :=
  ⟨by decide,
   (C2_true_only_on_exact_match JSON.stringify (utf16 "k") JSValue.null
     (some (utf16 "sha256=AAAA")) (by decide)).1⟩

/-- C3. Empty-secret bypass: when the webhook secret is absent or empty,
`verifySignature` returns `true` for every body and every signature, an absent one
included, without any call into `crypto`, and `validateAvayaSignature` calls `next()`
and sends no response. -/
theorem C3_empty_secret_bypass {β : Type} (stringify : β → Option JSString)
    (secret : Option JSString) (body : β) (sig : Option JSString) (req : ExpressRequest β)
    (hsecret : secret = none ∨ secret = some []) :
    SignatureValidationService.verifySignature stringify secret body sig = (true, []) ∧
    validateAvayaSignature stringify secret req = ([HttpAction.next], []) := by
  rcases hsecret with rfl | rfl <;>
    simp [SignatureValidationService.verifySignature, validateAvayaSignature, truthy]

/-- A witness of C3: the empty secret, the body `null`, no signature. -/
theorem C3_empty_secret_bypass_witness :
    SignatureValidationService.verifySignature JSON.stringify (some []) JSValue.null none
      = (true, []) ∧
    validateAvayaSignature JSON.stringify (some [])
      { body := JSValue.null, signatureHeader := none } = ([HttpAction.next], []) :=
  C3_empty_secret_bypass JSON.stringify (some []) JSValue.null none
    { body := JSValue.null, signatureHeader := none } (Or.inr rfl)

/-- C4. At the failing input, a request without `x-avaya-event-signature` header and the
empty webhook secret, `AvayaInfinity.verifyEventSignature` returns `false`, although
`verifySignature` itself returns `true` for the empty secret and an absent signature;
the same holds for an empty header and for a header given more than once. -/
theorem C4_entry_point_rejects_without_header :
    AvayaInfinity.verifyEventSignature JSON.stringify
      { body := JSValue.obj [], signatureHeader := HeaderValue.absent } [] = (false, []) ∧
    SignatureValidationService.verifySignature JSON.stringify (some []) (JSValue.obj []) none
      = (true, []) ∧
    (∀ (β : Type) (stringify : β → Option JSString) (body : β) (secret : JSString),
      AvayaInfinity.verifyEventSignature stringify
        { body := body, signatureHeader := HeaderValue.absent } secret = (false, []) ∧
      AvayaInfinity.verifyEventSignature stringify
        { body := body, signatureHeader := HeaderValue.single [] } secret = (false, []) ∧
      ∀ values, AvayaInfinity.verifyEventSignature stringify
        { body := body, signatureHeader := HeaderValue.multiple values } secret
          = (false, [])) := by
  refine ⟨by decide, by decide, ?_⟩
  intro β stringify body secret
  simp [AvayaInfinity.verifyEventSignature, HeaderValue.rejected]

/-- C5. With a non-empty secret, for every body and every signature that is absent or
does not begin with `sha256=`, `verifySignature` returns `false` and makes no call into
`crypto`: no HMAC is created, updated or digested. -/
theorem C5_missing_tag_rejected_before_hmac {β : Type} (stringify : β → Option JSString)
    (S : JSString) (body : β) (sig : Option JSString) (hS : S ≠ [])
    (hsig : ∀ s, sig = some s → ¬ utf16 "sha256=" <+: s) :
    SignatureValidationService.verifySignature stringify (some S) body sig = (false, []) := by
  obtain ⟨c, cs, rfl⟩ := List.exists_cons_of_ne_nil hS
  unfold SignatureValidationService.verifySignature
  rw [secret_guard_cons]
  simp [startsWithSha256_false_of sig hsig]

/-- A witness of C5: the secret `k` and the signature `abc`. -/
theorem C5_missing_tag_rejected_before_hmac_witness :
    utf16 "k" ≠ [] ∧ ¬ utf16 "sha256=" <+: utf16 "abc" ∧
    SignatureValidationService.verifySignature JSON.stringify (some (utf16 "k"))
      JSValue.null (some (utf16 "abc")) = (false, []) :=
  ⟨by decide, by decide,
   C5_missing_tag_rejected_before_hmac JSON.stringify (utf16 "k") JSValue.null
     (some (utf16 "abc")) (by decide)
     (fun s hs => by
       cases hs
       decide)⟩

/-- C6, as stated, fails.  The raw body `{"a": "b"}` (with a blank after the colon) is
parsed by `express.json()` to the object with the one member `a` = `"b"`, which
`JSON.stringify` writes `{"a":"b"}`; a request signed over the raw body under the secret
`secret` is answered `403` and `next()` is not called. -/
theorem C6_counterexample_raw_body_with_blank :
    JSON.stringify (.obj [(utf16 "a", .str (utf16 "b"))])
      = some (utf16 "\x7b\"a\":\"b\"\x7d") ∧
    utf16 "\x7b\"a\":\"b\"\x7d" ≠ utf16 "\x7b\"a\": \"b\"\x7d" ∧
    (validateAvayaSignature JSON.stringify (some (utf16 "secret"))
      { body := .obj [(utf16 "a", .str (utf16 "b"))],
        signatureHeader :=
          some (expectedSignature (utf16 "secret") (utf16 "\x7b\"a\": \"b\"\x7d")) }).1
      = [HttpAction.respond 403] := by
  refine ⟨by decide, by decide, ?_⟩
  decide

/-- C6, amended.  The HMAC is computed over `JSON.stringify` of the parsed body: for
every non-empty secret `S` and every request whose parsed body serialises to the text
`R`, a request whose header is `'sha256=' + base64(HMAC-SHA256(S, R))` is accepted by
`validateAvayaSignature` (`next()` is called and no response is sent), and
`verifySignature` returns `true` for it. -/
theorem C6_signature_over_serialised_body {β : Type} (stringify : β → Option JSString)
    (S R : JSString) (req : ExpressRequest β) (hS : S ≠ [])
    (hbody : stringify req.body = some R)
    (hsig : req.signatureHeader = some (expectedSignature S R)) :
    (validateAvayaSignature stringify (some S) req).1 = [HttpAction.next] ∧
    (SignatureValidationService.verifySignature stringify (some S) req.body
      req.signatureHeader).1 = true := by
  obtain ⟨c, cs, rfl⟩ := List.exists_cons_of_ne_nil hS
  obtain ⟨body, sig⟩ := req
  simp only at hbody hsig
  subst hsig
  constructor
  · rw [validateAvayaSignature_compare stringify c cs body _ R
      (startsWithSha256_expected _ _) hbody]
    simp
  · exact (verifySignature_true_iff stringify (c :: cs) body _ (by simp)).2 ⟨R, hbody, rfl⟩

/-- A witness of the amended C6: the raw body `{"a":"b"}`, which is its own
re-serialisation, under the secret `secret`. -/
theorem C6_signature_over_serialised_body_witness :
    (validateAvayaSignature JSON.stringify (some (utf16 "secret"))
      { body := .obj [(utf16 "a", .str (utf16 "b"))],
        signatureHeader :=
          some (expectedSignature (utf16 "secret") (utf16 "\x7b\"a\":\"b\"\x7d")) }).1
      = [HttpAction.next] :=
  (C6_signature_over_serialised_body JSON.stringify (utf16 "secret")
    (utf16 "\x7b\"a\":\"b\"\x7d")
    { body := .obj [(utf16 "a", .str (utf16 "b"))],
      signatureHeader :=
        some (expectedSignature (utf16 "secret") (utf16 "\x7b\"a\":\"b\"\x7d")) }
    (by decide) (by decide) rfl).1

/-- Every comparison recorded by `verifySignature` is between buffers of one length. -/
theorem verifySignature_comparisons {β : Type} (stringify : β → Option JSString)
    (secret : Option JSString) (body : β) (sig : Option JSString) (a b : Buffer)
    (h : CryptoCall.timingSafeEqual a b ∈
      (SignatureValidationService.verifySignature stringify secret body sig).2) :
    a.length = b.length := by
  unfold SignatureValidationService.verifySignature at h
  split_ifs at h with h1 h2
  · simp at h
  · simp at h
  · cases hb : stringify body with
    | none => simp [hb] at h
    | some data =>
      simp only [hb] at h
      split_ifs at h with h3
      · simp at h
      · have hlen := not_not.1 h3
        split at h <;>
        · simp at h
          rw [h.1, h.2]
          exact hlen

/-- Every comparison recorded by `validateAvayaSignature` is between buffers of one
length. -/
theorem validateAvayaSignature_comparisons {β : Type} (stringify : β → Option JSString)
    (secret : Option JSString) (req : ExpressRequest β) (a b : Buffer)
    (h : CryptoCall.timingSafeEqual a b ∈ (validateAvayaSignature stringify secret req).2) :
    a.length = b.length := by
  unfold validateAvayaSignature at h
  split_ifs at h with h1 h2
  · simp at h
  · simp at h
  · cases hb : stringify req.body with
    | none => simp [hb] at h
    | some data =>
      simp only [hb] at h
      split_ifs at h with h3
      · simp at h
      · have hlen := not_not.1 h3
        split at h <;>
        · simp at h
          rw [h.1, h.2]
          exact hlen

theorem timingSafeEqual_ne_none (a b : Buffer) (h : a.length = b.length) :
    timingSafeEqual a b ≠ none := by
  simp [timingSafeEqual, h]

/-- C7. Length-checked comparison.  With a non-empty secret and a body that serialises,
for every signature whose UTF-8 length differs from that of the generated
`sha256=<base64>` string, `verifySignature` returns `false` and the middleware does not
call `next()`, neither of them calling `crypto.timingSafeEqual`; and for all inputs
whatever, every call of `crypto.timingSafeEqual` made by either is on two buffers of
equal length, on which it does not throw. -/
theorem C7_length_checked_comparison {β : Type} (stringify : β → Option JSString)
    (S : JSString) (body : β) (sig text : JSString) (hS : S ≠ [])
    (hbody : stringify body = some text)
    (hlen : (utf8Encode sig).length ≠ (utf8Encode (expectedSignature S text)).length) :
    ((SignatureValidationService.verifySignature stringify (some S) body (some sig)).1 = false ∧
      ∀ call ∈ (SignatureValidationService.verifySignature stringify (some S) body
        (some sig)).2, call.isComparison = false) ∧
    (HttpAction.next ∉ (validateAvayaSignature stringify (some S)
        { body := body, signatureHeader := some sig }).1 ∧
      ∀ call ∈ (validateAvayaSignature stringify (some S)
        { body := body, signatureHeader := some sig }).2, call.isComparison = false) ∧
    (∀ (secret2 : Option JSString) (body2 : β) (sig2 : Option JSString) (a b : Buffer),
      (CryptoCall.timingSafeEqual a b ∈
          (SignatureValidationService.verifySignature stringify secret2 body2 sig2).2 ∨
        CryptoCall.timingSafeEqual a b ∈
          (validateAvayaSignature stringify secret2
            { body := body2, signatureHeader := sig2 }).2) →
      a.length = b.length ∧ timingSafeEqual a b ≠ none) := by
  obtain ⟨c, cs, rfl⟩ := List.exists_cons_of_ne_nil hS
  have hlen2 : (utf8Encode sig).length ≠ (utf8Encode (sha256Tag ++ base64Encode
      (Sha256.hmac (utf8Encode (c :: cs)) (utf8Encode text)))).length := by
    rw [sha256Tag_eq]; exact hlen
  refine ⟨?_, ?_, ?_⟩
  · unfold SignatureValidationService.verifySignature
    rw [secret_guard_cons]
    cases hst : startsWithSha256 (some sig) with
    | false => simp
    | true => simp [hbody, hlen2, CryptoCall.isComparison]
  · unfold validateAvayaSignature
    rw [secret_guard_cons]
    cases hst : startsWithSha256 (some sig) with
    | false => simp
    | true => simp [hbody, hlen2, CryptoCall.isComparison]
  · intro secret2 body2 sig2 a b h
    have hab : a.length = b.length := by
      rcases h with h | h
      · exact verifySignature_comparisons stringify secret2 body2 sig2 a b h
      · exact validateAvayaSignature_comparisons stringify secret2 _ a b h
    exact ⟨hab, timingSafeEqual_ne_none a b hab⟩

/-- A witness of C7: the secret `k`, the body `null` and the signature `sha256=AAAA`,
eleven bytes long where the generated one has fifty-one. -/
theorem C7_length_checked_comparison_witness :
    (utf8Encode (utf16 "sha256=AAAA")).length = 11 ∧
    (utf8Encode (expectedSignature (utf16 "k") (utf16 "null"))).length = 51 ∧
    (SignatureValidationService.verifySignature JSON.stringify (some (utf16 "k"))
      JSValue.null (some (utf16 "sha256=AAAA"))).1 = false :=
  ⟨by decide, by decide,
   (C7_length_checked_comparison JSON.stringify (utf16 "k") JSValue.null
     (utf16 "sha256=AAAA") (utf16 "null") (by decide) (by decide) (by decide)).1.1⟩

/-- C8, as stated, fails.  With the secret `secret`, a request whose body is `undefined`
(no body was parsed) and whose header is `sha256=AAAA` is decided in a fourth way:
`JSON.stringify` yields no string, `hmac.update` throws, and the answer is `500`. -/
theorem C8_counterexample_body_not_serialised :
    validateAvayaSignature JSON.stringify (some (utf16 "secret"))
      { body := JSValue.undefined, signatureHeader := some (utf16 "sha256=AAAA") }
      = ([HttpAction.respond 500], [CryptoCall.createHmac (utf16 "secret")]) := by
  decide

/-- C8, amended.  With a non-empty secret `S`, `validateAvayaSignature` decides every
request in exactly one of four ways: a header that is absent or lacks `sha256=` gives
`401`; a header with the tag on a body that does not serialise gives `500`; a header
with the tag that differs from the generated signature gives `403`; a header equal to
the generated signature gives one call of `next()` and no response.  So `next()` is
called only for a matching signature. -/
theorem C8_middleware_decision {β : Type} (stringify : β → Option JSString)
    (S : JSString) (req : ExpressRequest β) (hS : S ≠ []) :
    ((∀ s, req.signatureHeader = some s → ¬ utf16 "sha256=" <+: s) →
      (validateAvayaSignature stringify (some S) req).1 = [HttpAction.respond 401]) ∧
    (∀ s, req.signatureHeader = some s → utf16 "sha256=" <+: s →
      stringify req.body = none →
      (validateAvayaSignature stringify (some S) req).1 = [HttpAction.respond 500]) ∧
    (∀ s text, req.signatureHeader = some s → utf16 "sha256=" <+: s →
      stringify req.body = some text → s ≠ expectedSignature S text →
      (validateAvayaSignature stringify (some S) req).1 = [HttpAction.respond 403]) ∧
    (∀ text, stringify req.body = some text →
      req.signatureHeader = some (expectedSignature S text) →
      (validateAvayaSignature stringify (some S) req).1 = [HttpAction.next]) ∧
    (HttpAction.next ∈ (validateAvayaSignature stringify (some S) req).1 ↔
      ∃ text, stringify req.body = some text ∧
        req.signatureHeader = some (expectedSignature S text)) := by
  refine ⟨?_, ?_, ?_, ?_, validateAvayaSignature_next_iff stringify S req hS⟩
  · intro h
    obtain ⟨c, cs, rfl⟩ := List.exists_cons_of_ne_nil hS
    unfold validateAvayaSignature
    rw [secret_guard_cons]
    simp [startsWithSha256_false_of _ h]
  · intro s hs htag hb
    obtain ⟨c, cs, rfl⟩ := List.exists_cons_of_ne_nil hS
    unfold validateAvayaSignature
    rw [secret_guard_cons]
    simp [hs, (startsWithSha256_iff s).2 htag, hb]
  · intro s text hs htag hb hne
    obtain ⟨c, cs, rfl⟩ := List.exists_cons_of_ne_nil hS
    obtain ⟨body, sig⟩ := req
    simp only at hs hb
    subst hs
    rw [validateAvayaSignature_compare stringify c cs body s text
      ((startsWithSha256_iff s).2 htag) hb]
    have : utf8Encode s ≠ utf8Encode (expectedSignature (c :: cs) text) := fun h =>
      hne (utf8Encode_eq_ascii s _ (expectedSignature_ascii (c :: cs) text) h)
    simp [this]
  · intro text hb hs
    obtain ⟨c, cs, rfl⟩ := List.exists_cons_of_ne_nil hS
    obtain ⟨body, sig⟩ := req
    simp only at hs hb
    subst hs
    rw [validateAvayaSignature_compare stringify c cs body _ text
      (startsWithSha256_expected _ _) hb]
    simp

/-- A witness of the amended C8: under the secret `k` a request without signature header
is answered `401`. -/
theorem C8_middleware_decision_witness :
    utf16 "k" ≠ [] ∧
    (validateAvayaSignature JSON.stringify (some (utf16 "k"))
      { body := JSValue.null, signatureHeader := none }).1 = [HttpAction.respond 401] :=
  ⟨by decide,
   (C8_middleware_decision JSON.stringify (utf16 "k")
     { body := JSValue.null, signatureHeader := none } (by decide)).1
     (fun s hs => by cases hs)⟩

/-! ## Claims on the token service -/

/-- The interval computed for a payload with an `exp` claim. -/
theorem computeRefreshInterval_of_exp (payload : TokenPayload) (e now : Int)
    (hexp : payload.exp = some e) :
    computeRefreshInterval payload now =
      .int (if e * 1000 - now - 60000 > 0 then e * 1000 - now - 60000 else 60000) := by
  unfold computeRefreshInterval tokenExpirationMillis
  rw [hexp]
  simp only [JSNumber.sub, JSNumber.leZero, TOKEN_REFRESH_MARGIN_MILLIS,
    DEFAULT_TOKEN_REFRESH_INTERVAL]
  by_cases h : e * 1000 - now - 60000 ≤ 0
  · have h2 : ¬ (e * 1000 - now - 60000 > 0) := by omega
    simp [h, h2]
  · have h2 : e * 1000 - now - 60000 > 0 := by omega
    simp [h, h2]

/-- C9. Renewal interval arithmetic.  For a token whose decoded payload has the expiry
`e` (epoch seconds) and the current time `now` (epoch milliseconds), after a successful
fetch, in the SDK and in the connector outside mock mode, the stored renewal interval is
`e * 1000 - now - 60000` when that is greater than 0 and `60000` otherwise; it is
strictly positive, and exactly `60000` when the expiry is in the past. -/
theorem C9_renewal_interval (s : TokenService) (c : Connector.TokenState)
    (data : TokenResponseBody) (payload : TokenPayload) (e now : Int)
    (hdecoded : data.decoded = some payload) (hexp : payload.exp = some e) :
    (∀ s2, TokenService.fetchAccessToken s (.response 200 (some data)) now = (.ok (), s2) →
      s2.refreshIntervalTime =
        .int (if e * 1000 - now - 60000 > 0 then e * 1000 - now - 60000 else 60000)) ∧
    (∀ c2, Connector.fetchAccessToken false c (.response 200 (some data)) now = (.ok (), c2) →
      c2.refreshIntervalTime =
        .int (if e * 1000 - now - 60000 > 0 then e * 1000 - now - 60000 else 60000)) ∧
    0 < (if e * 1000 - now - 60000 > 0 then e * 1000 - now - 60000 else 60000) ∧
    (e * 1000 ≤ now →
      (if e * 1000 - now - 60000 > 0 then e * 1000 - now - 60000 else 60000) = 60000) := by
  refine ⟨?_, ?_, ?_, ?_⟩
  · intro s2 h
    unfold TokenService.fetchAccessToken at h
    split_ifs at h with hcred
    · simp at h
    · unfold TokenService.fetchAccessTokenResume at h
      simp only [ne_eq, not_true_eq_false, if_false] at h
      cases htok : data.access_token with
      | none => simp [getAccessTokenData, htok] at h
      | some tok =>
        cases tok with
        | nil => simp [getAccessTokenData, htok] at h
        | cons t ts =>
        simp only [getAccessTokenData, htok, hdecoded] at h
        cases horg : payload.organization with
        | none => simp [horg] at h
        | some org =>
          cases hown : payload.owner with
          | none => simp [horg, hown] at h
          | some own =>
            simp only [horg, hown] at h
            split_ifs at h with hdate
            · simp at h
            · simp only [Prod.mk.injEq, true_and] at h
              rw [← h]
              exact computeRefreshInterval_of_exp payload e now hexp
  · intro c2 h
    unfold Connector.fetchAccessToken at h
    simp only [Bool.false_eq_true, if_false, ne_eq, not_true_eq_false] at h
    cases htok : data.access_token with
    | none => simp [getAccessTokenData, htok] at h
    | some tok =>
      cases tok with
      | nil => simp [getAccessTokenData, htok] at h
      | cons t ts =>
      simp only [getAccessTokenData, htok, hdecoded] at h
      split_ifs at h with hdate
      · simp at h
      · simp only [Prod.mk.injEq, true_and] at h
        rw [← h]
        exact computeRefreshInterval_of_exp payload e now hexp
  · split_ifs with h
    · exact h
    · norm_num
  · intro hpast
    have h : ¬ (e * 1000 - now - 60000 > 0) := by omega
    simp [h]

/-- A witness of C9: a token expiring at second 2000, fetched at millisecond 1000000, is
renewed after 940000 milliseconds. -/
theorem C9_renewal_interval_witness :
    ∃ s2, TokenService.fetchAccessToken
        { TokenService.fresh with
          tokenUrl := some (utf16 "u"), currentClientId := some (utf16 "i"),
          currentClientSecret := some (utf16 "s") }
        (.response 200 (some
          { access_token := some (utf16 "t"),
            decoded := some { exp := some 2000, organization := some [utf16 "a"],
                              owner := some [utf16 "c"] } })) 1000000 = (.ok (), s2) ∧
      s2.refreshIntervalTime = .int 940000 := by
  refine ⟨_, rfl, ?_⟩
  have h := (C9_renewal_interval
    { TokenService.fresh with
      tokenUrl := some (utf16 "u"), currentClientId := some (utf16 "i"),
      currentClientSecret := some (utf16 "s") }
    Connector.TokenState.fresh
    { access_token := some (utf16 "t"),
      decoded := some { exp := some 2000, organization := some [utf16 "a"],
                        owner := some [utf16 "c"] } }
    { exp := some 2000, organization := some [utf16 "a"], owner := some [utf16 "c"] }
    2000 1000000 rfl rfl).1 _ rfl
  rw [h]
  norm_num

/-- What `fetchAccessToken` leaves untouched: the initialisation flag and the timer
handle always, and the current token unless the response was a `200` with a body, whose
`access_token` is then the current token, also when the fetch throws later. -/
theorem fetchAccessToken_frame (s : TokenService) (outcome : FetchOutcome) (now : Int) :
    (TokenService.fetchAccessToken s outcome now).2.isInitialized = s.isInitialized ∧
    (TokenService.fetchAccessToken s outcome now).2.refreshTimeout = s.refreshTimeout ∧
    ((TokenService.fetchAccessToken s outcome now).2.currentAccessToken
        = s.currentAccessToken ∨
      ∃ data, outcome = .response 200 (some data) ∧
        (TokenService.fetchAccessToken s outcome now).2.currentAccessToken
          = data.access_token) := by
  unfold TokenService.fetchAccessToken
  split_ifs with hcred
  · simp
  · unfold TokenService.fetchAccessTokenResume
    cases outcome with
    | rejected => simp
    | response status body =>
      by_cases hstatus : status = 200
      · subst hstatus
        cases body with
        | none => simp
        | some data =>
          simp only [ne_eq, not_true_eq_false, if_false]
          cases hdec : getAccessTokenData data with
          | error err => simp
          | ok payload =>
            simp only
            cases horg : payload.organization with
            | none => simp
            | some org =>
              simp only
              cases hown : payload.owner with
              | none => simp
              | some own =>
                simp only
                split_ifs <;> simp
      · simp [hstatus]


/-- C10. At the failing input, a fresh `TokenService` whose token request is answered
`200` with the access token `abc`, which `jwt.decode` cannot decode, `initialize` throws
the decode error, `isInitializedStatus()` is `false` and no timer is pending, but
`getAccessToken()` returns `abc` instead of throwing.  In general a failed `initialize`
of a fresh service leaves it not initialised and without a timer, and `getAccessToken()`
throws afterwards unless the response was a `200` whose body carried a non-empty
`access_token`, which it then returns. -/
theorem C10_failed_initialize_keeps_undecodable_token :
    ( TokenService.initialize World.fresh (utf16 "https://host") (utf16 "id") (utf16 "secret")
        (.response 200 (some { access_token := some (utf16 "abc"), decoded := none })) 0).1
      = .error .failedToDecode ∧
    TokenService.getAccessToken
      ( TokenService.initialize World.fresh (utf16 "https://host") (utf16 "id") (utf16 "secret")
        (.response 200 (some { access_token := some (utf16 "abc"), decoded := none })) 0).2.service
      = .ok (utf16 "abc") ∧
    (∀ (baseUrl clientId clientSecret : JSString) (outcome : FetchOutcome) (now : Int)
        (e : TokenError) (w : World),
      TokenService.initialize World.fresh baseUrl clientId clientSecret outcome now
        = (.error e, w) →
      TokenService.isInitializedStatus w.service = false ∧ w.timers.pending = [] ∧
      w.service.refreshTimeout = none ∧
      (TokenService.getAccessToken w.service = .error .accessTokenNotInitialized ∨
        ∃ data c cs, outcome = .response 200 (some data) ∧
          data.access_token = some (c :: cs) ∧
          TokenService.getAccessToken w.service = .ok (c :: cs))) := by
  refine ⟨rfl, rfl, ?_⟩
  intro baseUrl clientId clientSecret outcome now e w h
  unfold TokenService.initialize at h
  have hstop : TokenService.stopTokenRefresh World.fresh = World.fresh := rfl
  rw [hstop] at h
  simp only at h
  generalize hs1 : ({ World.fresh.service with
    tokenUrl := some (baseUrl ++ tokenPath),
    currentClientId := some clientId,
    currentClientSecret := some clientSecret } : TokenService) = s1 at h
  have hs1tok : s1.currentAccessToken = none := by rw [← hs1]; rfl
  have hs1init : s1.isInitialized = false := by rw [← hs1]; rfl
  have hs1t : s1.refreshTimeout = none := by rw [← hs1]; rfl
  obtain ⟨hinit, htimeout, htoken⟩ := fetchAccessToken_frame s1 outcome now
  rcases hf : TokenService.fetchAccessToken s1 outcome now with ⟨r, s2⟩
  rw [hf] at h hinit htimeout htoken
  simp only at hinit htimeout htoken
  cases r with
  | ok u => simp at h
  | error err =>
    simp only [Prod.mk.injEq, Except.error.injEq] at h
    obtain ⟨-, rfl⟩ := h
    refine ⟨?_, rfl, ?_, ?_⟩
    · simp only [TokenService.isInitializedStatus]
      rw [hinit, hs1init]
    · simp only
      rw [htimeout, hs1t]
    · simp only [TokenService.getAccessToken]
      rcases htoken with htoken | ⟨data, hout, htoken⟩
      · left
        rw [htoken, hs1tok]
        rfl
      · rw [htoken]
        cases hat : data.access_token with
        | none => left; rfl
        | some tok =>
          cases tok with
          | nil => left; rfl
          | cons c cs => right; exact ⟨data, c, cs, hout, hat, rfl⟩

/-! ## Lemmas on timers and on the token service -/

theorem resume_refreshTimeout (s : TokenService) (outcome : FetchOutcome) (now : Int) :
    (TokenService.fetchAccessTokenResume s outcome now).2.refreshTimeout = s.refreshTimeout ∧
    (TokenService.fetchAccessTokenResume s outcome now).2.isInitialized = s.isInitialized := by
  unfold TokenService.fetchAccessTokenResume
  cases outcome with
  | rejected => simp
  | response status body =>
    by_cases hstatus : status = 200
    · subst hstatus
      cases body with
      | none => simp
      | some data =>
        simp only [ne_eq, not_true_eq_false, if_false]
        cases hdec : getAccessTokenData data with
        | error err => simp
        | ok payload =>
          simp only
          cases horg : payload.organization with
          | none => simp
          | some org =>
            simp only
            cases hown : payload.owner with
            | none => simp
            | some own =>
              simp only
              split_ifs <;> simp
    · simp [hstatus]

/-- With every pending timer referenced, `stopTokenRefresh` leaves none pending. -/
theorem stopTokenRefresh_spec (w : World) (h : w.timersReferenced) :
    (TokenService.stopTokenRefresh w).timers.pending = [] ∧
    (TokenService.stopTokenRefresh w).timers.nextId = w.timers.nextId ∧
    (TokenService.stopTokenRefresh w).service = { w.service with refreshTimeout := none } := by
  unfold TokenService.stopTokenRefresh
  cases hrt : w.service.refreshTimeout with
  | none =>
    refine ⟨?_, ?_, ?_⟩
    · cases hp : w.timers.pending with
      | nil => rfl
      | cons t rest =>
        have := h t (by rw [hp]; simp)
        rw [hrt] at this
        cases this
    · rfl
    · cases hs : w.service
      rw [hs] at hrt
      simp only at hrt
      subst hrt
      rfl
  | some handle =>
    refine ⟨?_, rfl, rfl⟩
    show List.filter (fun timer => timer.id != handle) w.timers.pending = []
    rw [List.filter_eq_nil_iff]
    intro t ht
    have := h t ht
    rw [hrt] at this
    cases this
    simp

/-- With every pending timer referenced, `startTokenRefresh` leaves exactly one timer
pending, the new one, referenced, whose delay is what `setTimeout` makes of the current
interval. -/
theorem startTokenRefresh_spec (w : World) (h : w.timersReferenced) :
    (TokenService.startTokenRefresh w).timers.pending =
      [{ id := w.timers.nextId, delay := timeoutDelay w.service.refreshIntervalTime }] ∧
    (TokenService.startTokenRefresh w).service =
      { w.service with refreshTimeout := some w.timers.nextId } := by
  obtain ⟨hp, hn, hs⟩ := stopTokenRefresh_spec w h
  unfold TokenService.startTokenRefresh
  refine ⟨?_, ?_⟩
  · show (TokenService.stopTokenRefresh w).timers.pending ++ _ = _
    rw [hp, hn, hs]
    rfl
  · show { (TokenService.stopTokenRefresh w).service with
        refreshTimeout := some (TokenService.stopTokenRefresh w).timers.nextId } = _
    rw [hn, hs]

theorem atMostOneTimer_of_pending_nil (w : World) (h : w.timers.pending = []) :
    w.atMostOneTimer := by
  unfold World.atMostOneTimer World.timersReferenced
  rw [h]
  simp

theorem atMostOneTimer_fresh : World.fresh.atMostOneTimer :=
  atMostOneTimer_of_pending_nil _ rfl

/-- A change of the service that keeps `refreshTimeout`, with the same timers, keeps the
invariant. -/
theorem atMostOneTimer_of_same (w : World) (s2 : TokenService) (h : w.atMostOneTimer)
    (hrt : s2.refreshTimeout = w.service.refreshTimeout) :
    ({ service := s2, timers := w.timers } : World).atMostOneTimer := by
  unfold World.atMostOneTimer World.timersReferenced at h ⊢
  simp only
  rw [hrt]
  exact h

theorem atMostOneTimer_start (w : World) (h : w.timersReferenced) :
    (TokenService.startTokenRefresh w).atMostOneTimer := by
  obtain ⟨hp, hs⟩ := startTokenRefresh_spec w h
  unfold World.atMostOneTimer World.timersReferenced
  rw [hp, hs]
  simp

theorem atMostOneTimer_stop (w : World) (h : w.timersReferenced) :
    (TokenService.stopTokenRefresh w).atMostOneTimer :=
  atMostOneTimer_of_pending_nil _ (stopTokenRefresh_spec w h).1

theorem atMostOneTimer_fire (w : World) (handle : Nat) (h : w.atMostOneTimer) :
    ({ w with timers := w.timers.fire handle } : World).atMostOneTimer := by
  unfold World.atMostOneTimer World.timersReferenced at h ⊢
  simp only [Timers.fire]
  refine ⟨le_trans (List.length_filter_le _ _) h.1, ?_⟩
  intro t ht
  exact h.2 t (List.mem_of_mem_filter ht)

theorem atMostOneTimer_initializeBegin (w : World) (baseUrl clientId clientSecret : JSString)
    (h : w.atMostOneTimer) :
    (TokenService.initializeBegin w baseUrl clientId clientSecret).1.timers.pending = [] ∧
    (TokenService.initializeBegin w baseUrl clientId clientSecret).1.atMostOneTimer := by
  have hp : (TokenService.initializeBegin w baseUrl clientId clientSecret).1.timers.pending
      = [] := (stopTokenRefresh_spec w h.2).1
  exact ⟨hp, atMostOneTimer_of_pending_nil _ hp⟩

theorem dispose_pending (w : World) (h : w.timersReferenced) :
    (TokenService.dispose w).timers.pending = [] ∧
    (TokenService.dispose w).service.refreshTimeout = none := by
  obtain ⟨hp, -, hs⟩ := stopTokenRefresh_spec w h
  unfold TokenService.dispose
  simp only [hp, hs]
  exact ⟨trivial, trivial⟩

theorem atMostOneTimer_initializeResume (w : World) (outcome : FetchOutcome) (now : Int)
    (h : w.atMostOneTimer) :
    (TokenService.initializeResume w outcome now).2.atMostOneTimer := by
  obtain ⟨hrt, -⟩ := resume_refreshTimeout w.service outcome now
  unfold TokenService.initializeResume
  rcases hf : TokenService.fetchAccessTokenResume w.service outcome now with ⟨r, s2⟩
  rw [hf] at hrt
  cases r with
  | ok u =>
    apply atMostOneTimer_start
    exact (atMostOneTimer_of_same w { s2 with isInitialized := true } h hrt).2
  | error e => exact atMostOneTimer_of_same w s2 h hrt

theorem atMostOneTimer_refreshResume (w : World) (outcome : FetchOutcome) (now : Int)
    (h : w.atMostOneTimer) :
    (TokenService.refreshResume w outcome now).atMostOneTimer := by
  obtain ⟨hrt, -⟩ := resume_refreshTimeout w.service outcome now
  unfold TokenService.refreshResume
  rcases hf : TokenService.fetchAccessTokenResume w.service outcome now with ⟨r, s2⟩
  rw [hf] at hrt
  cases r with
  | ok u =>
    apply atMostOneTimer_start
    exact (atMostOneTimer_of_same w s2 h hrt).2
  | error e => exact atMostOneTimer_of_same w s2 h hrt

/-- Every event keeps the timer-count invariant. -/
theorem atMostOneTimer_step (sys sys2 : System) (e : Event) (h : sys.world.atMostOneTimer)
    (hstep : sys.step e = some sys2) : sys2.world.atMostOneTimer := by
  cases e with
  | initializeCalled baseUrl clientId clientSecret =>
    simp only [System.step, Option.some.injEq] at hstep
    rw [← hstep]
    exact (atMostOneTimer_initializeBegin sys.world baseUrl clientId clientSecret h).2
  | disposeCalled =>
    simp only [System.step, Option.some.injEq] at hstep
    rw [← hstep]
    exact atMostOneTimer_of_pending_nil _ (dispose_pending sys.world h.2).1
  | timerFired handle =>
    simp only [System.step] at hstep
    by_cases hp : sys.world.timers.isPending handle = true
    · rw [if_pos hp] at hstep
      simp only [Option.some.injEq] at hstep
      rw [← hstep]
      exact atMostOneTimer_fire sys.world handle h
    · rw [if_neg hp] at hstep
      cases hstep
  | fetchCompleted index outcome now =>
    simp only [System.step] at hstep
    split at hstep
    · cases hstep
    · simp only [Option.some.injEq] at hstep
      rw [← hstep]
      exact atMostOneTimer_initializeResume sys.world outcome now h
    · simp only [Option.some.injEq] at hstep
      rw [← hstep]
      exact atMostOneTimer_refreshResume sys.world outcome now h

/-- Every sequence of events keeps the timer-count invariant. -/
theorem atMostOneTimer_run : ∀ (events : List Event) (sys sys2 : System),
    sys.world.atMostOneTimer → sys.run events = some sys2 → sys2.world.atMostOneTimer
  | [], sys, sys2, h, hrun => by
    simp only [System.run, Option.some.injEq] at hrun
    rw [← hrun]
    exact h
  | e :: rest, sys, sys2, h, hrun => by
    simp only [System.run] at hrun
    cases hstep : sys.step e with
    | none => rw [hstep] at hrun; cases hrun
    | some next =>
      rw [hstep] at hrun
      exact atMostOneTimer_run rest next sys2 (atMostOneTimer_step sys next e h hstep) hrun

/-! ### The connector -/

theorem Connector.fetchAccessToken_refreshTimeout (isMockMode : Bool) (s : Connector.TokenState)
    (outcome : FetchOutcome) (now : Int) :
    (Connector.fetchAccessToken isMockMode s outcome now).2.refreshTimeout
      = s.refreshTimeout := by
  unfold Connector.fetchAccessToken
  cases isMockMode with
  | true => simp
  | false =>
    simp only [Bool.false_eq_true, if_false]
    cases outcome with
    | rejected => simp
    | response status body =>
      by_cases hstatus : status = 200
      · subst hstatus
        cases body with
        | none => simp
        | some data =>
          simp only [ne_eq, not_true_eq_false, if_false]
          cases hdec : getAccessTokenData data with
          | error err => simp
          | ok payload =>
            simp only
            split_ifs <;> simp
      · simp [hstatus]

theorem Connector.stopTokenRefresh_spec_connector (w : Connector.World) (h : w.timersReferenced) :
    (Connector.stopTokenRefresh w).timers.pending = [] ∧
    (Connector.stopTokenRefresh w).timers.nextId = w.timers.nextId ∧
    (Connector.stopTokenRefresh w).state = { w.state with refreshTimeout := none } := by
  unfold Connector.stopTokenRefresh
  cases hrt : w.state.refreshTimeout with
  | none =>
    refine ⟨?_, ?_, ?_⟩
    · cases hp : w.timers.pending with
      | nil => rfl
      | cons t rest =>
        have := h t (by rw [hp]; simp)
        rw [hrt] at this
        cases this
    · rfl
    · cases hs : w.state
      rw [hs] at hrt
      simp only at hrt
      subst hrt
      rfl
  | some handle =>
    refine ⟨?_, rfl, rfl⟩
    show List.filter (fun timer => timer.id != handle) w.timers.pending = []
    rw [List.filter_eq_nil_iff]
    intro t ht
    have := h t ht
    rw [hrt] at this
    cases this
    simp

theorem Connector.startTokenRefresh_spec_connector (w : Connector.World) (h : w.timersReferenced) :
    (Connector.startTokenRefresh w).timers.pending =
      [{ id := w.timers.nextId, delay := timeoutDelay w.state.refreshIntervalTime }] ∧
    (Connector.startTokenRefresh w).state =
      { w.state with refreshTimeout := some w.timers.nextId } := by
  obtain ⟨hp, hn, hs⟩ := Connector.stopTokenRefresh_spec_connector w h
  unfold Connector.startTokenRefresh
  refine ⟨?_, ?_⟩
  · show (Connector.stopTokenRefresh w).timers.pending ++ _ = _
    rw [hp, hn, hs]
    rfl
  · show { (Connector.stopTokenRefresh w).state with
        refreshTimeout := some (Connector.stopTokenRefresh w).timers.nextId } = _
    rw [hn, hs]

theorem Connector.atMostOneTimer_of_pending_nil_connector (w : Connector.World)
    (h : w.timers.pending = []) : w.atMostOneTimer := by
  unfold Connector.World.atMostOneTimer Connector.World.timersReferenced
  rw [h]
  simp

theorem Connector.atMostOneTimer_of_same_connector (w : Connector.World) (s2 : Connector.TokenState)
    (h : w.atMostOneTimer) (hrt : s2.refreshTimeout = w.state.refreshTimeout) :
    ({ state := s2, timers := w.timers } : Connector.World).atMostOneTimer := by
  unfold Connector.World.atMostOneTimer Connector.World.timersReferenced at h ⊢
  simp only
  rw [hrt]
  exact h

theorem Connector.atMostOneTimer_start_connector (w : Connector.World) (h : w.timersReferenced) :
    (Connector.startTokenRefresh w).atMostOneTimer := by
  obtain ⟨hp, hs⟩ := Connector.startTokenRefresh_spec_connector w h
  unfold Connector.World.atMostOneTimer Connector.World.timersReferenced
  rw [hp, hs]
  simp

theorem Connector.atMostOneTimer_fire_connector (w : Connector.World) (s2 : Connector.TokenState)
    (handle : Nat) (h : w.atMostOneTimer) (hrt : s2.refreshTimeout = w.state.refreshTimeout) :
    ({ state := s2, timers := w.timers.fire handle } : Connector.World).atMostOneTimer := by
  unfold Connector.World.atMostOneTimer Connector.World.timersReferenced at h ⊢
  simp only [Timers.fire]
  rw [hrt]
  refine ⟨le_trans (List.length_filter_le _ _) h.1, ?_⟩
  intro t ht
  exact h.2 t (List.mem_of_mem_filter ht)

theorem Connector.atMostOneTimer_resume (w : Connector.World) (outcome : FetchOutcome)
    (now : Int) (h : w.atMostOneTimer) :
    (Connector.resume w outcome now).atMostOneTimer := by
  have hrt := Connector.fetchAccessToken_refreshTimeout false w.state outcome now
  unfold Connector.resume
  rcases hf : Connector.fetchAccessToken false w.state outcome now with ⟨r, s2⟩
  rw [hf] at hrt
  cases r with
  | ok u =>
    apply Connector.atMostOneTimer_start_connector
    exact (Connector.atMostOneTimer_of_same_connector w s2 h hrt).2
  | error e => exact Connector.atMostOneTimer_of_same_connector w s2 h hrt

/-- Every event of the connector keeps the timer-count invariant. -/
theorem Connector.atMostOneTimer_step_connector (sys sys2 : Connector.System) (e : Connector.Event)
    (h : sys.world.atMostOneTimer) (hstep : sys.step e = some sys2) :
    sys2.world.atMostOneTimer := by
  cases e with
  | initializeCalled isMockMode baseUrl clientId clientSecret =>
    have hp := (Connector.stopTokenRefresh_spec_connector sys.world h.2).1
    simp only [Connector.System.step] at hstep
    cases isMockMode with
    | true =>
      simp only [if_true, Option.some.injEq] at hstep
      rw [← hstep]
      exact Connector.atMostOneTimer_of_pending_nil_connector _ hp
    | false =>
      simp only [Bool.false_eq_true, if_false, Option.some.injEq] at hstep
      rw [← hstep]
      exact Connector.atMostOneTimer_of_pending_nil_connector _ hp
  | timerFired isMockMode handle =>
    simp only [Connector.System.step] at hstep
    by_cases hp : sys.world.timers.isPending handle = true
    · rw [if_pos hp] at hstep
      cases isMockMode with
      | true =>
        simp only [if_true, Option.some.injEq] at hstep
        rw [← hstep]
        exact Connector.atMostOneTimer_fire_connector sys.world _ handle h
          (Connector.fetchAccessToken_refreshTimeout true _ _ _)
      | false =>
        simp only [Bool.false_eq_true, if_false, Option.some.injEq] at hstep
        rw [← hstep]
        exact Connector.atMostOneTimer_fire_connector sys.world _ handle h rfl
    · rw [if_neg hp] at hstep
      cases hstep
  | fetchCompleted index outcome now =>
    simp only [Connector.System.step] at hstep
    split at hstep
    · cases hstep
    · simp only [Option.some.injEq] at hstep
      rw [← hstep]
      exact Connector.atMostOneTimer_resume sys.world outcome now h
    · simp only [Option.some.injEq] at hstep
      rw [← hstep]
      exact Connector.atMostOneTimer_start_connector sys.world h.2

/-- Every sequence of events of the connector keeps the timer-count invariant. -/
theorem Connector.atMostOneTimer_run_connector : ∀ (events : List Connector.Event)
    (sys sys2 : Connector.System),
    sys.world.atMostOneTimer → sys.run events = some sys2 → sys2.world.atMostOneTimer
  | [], sys, sys2, h, hrun => by
    simp only [Connector.System.run, Option.some.injEq] at hrun
    rw [← hrun]
    exact h
  | e :: rest, sys, sys2, h, hrun => by
    simp only [Connector.System.run] at hrun
    cases hstep : sys.step e with
    | none => rw [hstep] at hrun; cases hrun
    | some next =>
      rw [hstep] at hrun
      exact Connector.atMostOneTimer_run_connector rest next sys2
        (Connector.atMostOneTimer_step_connector sys next e h hstep) hrun

/-! ## Claims on failed fetches, `dispose` and mock mode -/

/-- A fetch that fails before the token is stored leaves the service as it was: missing
credentials, a rejected request, a status other than 200, an unreadable body. -/
theorem fetchAccessToken_unchanged_of_early_failure (s : TokenService) (now : Int) :
    (∀ outcome, s.credentialsMissing = true →
      (TokenService.fetchAccessToken s outcome now).2 = s) ∧
    (TokenService.fetchAccessToken s .rejected now).2 = s ∧
    (∀ status body, status ≠ 200 →
      (TokenService.fetchAccessToken s (.response status body) now).2 = s) ∧
    (TokenService.fetchAccessToken s (.response 200 none) now).2 = s := by
  refine ⟨?_, ?_, ?_, ?_⟩
  · intro outcome h
    unfold TokenService.credentialsMissing at h
    simp [TokenService.fetchAccessToken, h]
  · unfold TokenService.fetchAccessToken TokenService.fetchAccessTokenResume
    split_ifs <;> rfl
  · intro status body h
    unfold TokenService.fetchAccessToken TokenService.fetchAccessTokenResume
    split_ifs <;> simp [h]
  · unfold TokenService.fetchAccessToken TokenService.fetchAccessTokenResume
    split_ifs <;> simp

/-- C11. At the failing input, a service that holds the token `good`, the interval
940000 and the account `acct`, a renewal answered `200` with the undecodable token
`abc` fails and leaves `abc` as the current token; and one answered with a token `t2`
whose payload has an `exp` but no `organization` claim fails with a `TypeError` and
leaves the new token and the new interval next to the old account.  A fetch that fails
before the token is stored (missing credentials, rejected request, status other than
200, unreadable body) leaves the whole state as it was. -/
theorem C11_failed_fetch_is_not_atomic :
    TokenService.fetchAccessToken
        { tokenUrl := some (utf16 "u"), currentClientId := some (utf16 "i"),
          currentClientSecret := some (utf16 "s"), currentAccessToken := some (utf16 "good"),
          refreshTimeout := none, refreshIntervalTime := .int 940000, isInitialized := true,
          tokenAccountId := some (utf16 "acct"), tokenConnectorId := some (utf16 "conn") }
        (.response 200 (some { access_token := some (utf16 "abc"), decoded := none })) 0
      = (.error .failedToDecode,
        { tokenUrl := some (utf16 "u"), currentClientId := some (utf16 "i"),
          currentClientSecret := some (utf16 "s"), currentAccessToken := some (utf16 "abc"),
          refreshTimeout := none, refreshIntervalTime := .int 940000, isInitialized := true,
          tokenAccountId := some (utf16 "acct"), tokenConnectorId := some (utf16 "conn") }) ∧
    TokenService.fetchAccessToken
        { tokenUrl := some (utf16 "u"), currentClientId := some (utf16 "i"),
          currentClientSecret := some (utf16 "s"), currentAccessToken := some (utf16 "good"),
          refreshTimeout := none, refreshIntervalTime := .int 940000, isInitialized := true,
          tokenAccountId := some (utf16 "acct"), tokenConnectorId := some (utf16 "conn") }
        (.response 200 (some
          { access_token := some (utf16 "t2"),
            decoded := some
              { exp := some 5000, organization := none
                owner := some [utf16 "c2"] } })) 0
      = (.error .typeError,
        { tokenUrl := some (utf16 "u"), currentClientId := some (utf16 "i"),
          currentClientSecret := some (utf16 "s"), currentAccessToken := some (utf16 "t2"),
          refreshTimeout := none, refreshIntervalTime := .int 4940000, isInitialized := true,
          tokenAccountId := some (utf16 "acct"), tokenConnectorId := some (utf16 "conn") }) ∧
    (∀ (s : TokenService) (now : Int),
      (∀ outcome, s.credentialsMissing = true →
        (TokenService.fetchAccessToken s outcome now).2 = s) ∧
      (TokenService.fetchAccessToken s .rejected now).2 = s ∧
      (∀ status body, status ≠ 200 →
        (TokenService.fetchAccessToken s (.response status body) now).2 = s) ∧
      (TokenService.fetchAccessToken s (.response 200 none) now).2 = s) :=
  ⟨rfl, rfl, fetchAccessToken_unchanged_of_early_failure⟩

/-- C17. For every state of the service, right after `dispose()` the call
`getAccessToken()` throws the error that the token is not initialised and
`isInitializedStatus()` is `false`. -/
theorem C17_after_dispose_not_initialised (w : World) :
    TokenService.getAccessToken (TokenService.dispose w).service
      = .error .accessTokenNotInitialized ∧
    TokenService.isInitializedStatus (TokenService.dispose w).service = false := by
  unfold TokenService.dispose TokenService.getAccessToken TokenService.isInitializedStatus
  simp [truthy]

/-- `dispose()` leaves the account and the connector of the last token in place. -/
theorem dispose_keeps_identifiers (w : World) :
    TokenService.getTokenAccountId (TokenService.dispose w).service
      = TokenService.getTokenAccountId w.service ∧
    TokenService.getTokenConnectorId (TokenService.dispose w).service
      = TokenService.getTokenConnectorId w.service := by
  unfold TokenService.dispose TokenService.stopTokenRefresh TokenService.getTokenAccountId
    TokenService.getTokenConnectorId
  cases w.service.refreshTimeout <;> exact ⟨rfl, rfl⟩

/-- C18. At the failing input, a fresh service initialised with a token whose payload
names the account `acct-1` and the connector `conn-1` and then disposed, the token is
absent, but `getTokenAccountId()` still returns `acct-1` and `getTokenConnectorId()`
still returns `conn-1`; in every state `dispose()` leaves both as they were. -/
theorem C18_dispose_keeps_account_and_connector :
    (TokenService.dispose
      ( TokenService.initialize World.fresh (utf16 "https://host") (utf16 "id")
        (utf16 "secret")
        (.response 200 (some
          { access_token := some (utf16 "t1"),
            decoded := some
              { exp := some 2000, organization := some [utf16 "acct-1"]
                owner := some [utf16 "conn-1"] } })) 1000000).2).service
      = { tokenUrl := some (utf16 "https://host/auth/realms/avaya/protocol/openid-connect/token"),
          currentClientId := some (utf16 "id"), currentClientSecret := some (utf16 "secret"),
          currentAccessToken := none, refreshTimeout := none,
          refreshIntervalTime := .int 940000, isInitialized := false,
          tokenAccountId := some (utf16 "acct-1"),
          tokenConnectorId := some (utf16 "conn-1") } ∧
    (∀ w : World,
      TokenService.getTokenAccountId (TokenService.dispose w).service
        = TokenService.getTokenAccountId w.service ∧
      TokenService.getTokenConnectorId (TokenService.dispose w).service
        = TokenService.getTokenConnectorId w.service) :=
  ⟨by decide, dispose_keeps_identifiers⟩

/-- C19. At the failing input, a `200` response whose token has a payload with a valid
`exp` and an `owner` but no `organization` claim, the SDK `fetchAccessToken` throws a
`TypeError` after it has stored the token and the interval, and `initialize` fails; the
same happens when only the `owner` claim is absent; the connector, which does not read
the two claims, fetches the same token successfully. -/
theorem C19_missing_identifier_claim_throws :
    (TokenService.fetchAccessToken
        { TokenService.fresh with
          tokenUrl := some (utf16 "u"), currentClientId := some (utf16 "i"),
          currentClientSecret := some (utf16 "s") }
        (.response 200 (some
          { access_token := some (utf16 "t"),
            decoded := some
              { exp := some 2000, organization := none
                owner := some [utf16 "c"] } })) 1000000)
      = (.error .typeError,
        { TokenService.fresh with
          tokenUrl := some (utf16 "u"), currentClientId := some (utf16 "i"),
          currentClientSecret := some (utf16 "s"), currentAccessToken := some (utf16 "t"),
          refreshIntervalTime := .int 940000 }) ∧
    (TokenService.fetchAccessToken
        { TokenService.fresh with
          tokenUrl := some (utf16 "u"), currentClientId := some (utf16 "i"),
          currentClientSecret := some (utf16 "s") }
        (.response 200 (some
          { access_token := some (utf16 "t"),
            decoded := some
              { exp := some 2000, organization := some [utf16 "a"]
                owner := none } })) 1000000).1
      = .error .typeError ∧
    ( TokenService.initialize World.fresh (utf16 "https://host") (utf16 "id") (utf16 "secret")
        (.response 200 (some
          { access_token := some (utf16 "t"),
            decoded := some
              { exp := some 2000, organization := none
                owner := some [utf16 "c"] } })) 1000000).1
      = .error .typeError ∧
    (Connector.fetchAccessToken false Connector.TokenState.fresh
        (.response 200 (some
          { access_token := some (utf16 "t"),
            decoded := some
              { exp := some 2000, organization := none
                owner := some [utf16 "c"] } })) 1000000).1
      = .ok () := by
  exact ⟨rfl, rfl, rfl, rfl⟩

/-- C20. Mock-mode token fetch in the connector: with `config.avaya.isMockMode` true,
`fetchAccessToken` sends no request to the token endpoint and, from every state and
whatever the network would answer, returns normally with the current token
`mock_access_token` and the interval 60000; so `initializeTokenService` succeeds, starts
the timer with that interval, and `getAccessToken()` returns `mock_access_token`. -/
theorem C20_mock_mode_token_fetch (s : Connector.TokenState) (w : Connector.World)
    (baseUrl : JSString) (clientId clientSecret : Option JSString) (outcome : FetchOutcome)
    (now : Int) :
    Connector.fetchAccessTokenRequests true s = [] ∧
    Connector.fetchAccessToken true s outcome now =
      (.ok (), { s with currentAccessToken := some (utf16 "mock_access_token"),
                        refreshIntervalTime := .int 60000 }) ∧
    Connector.getAccessToken (Connector.fetchAccessToken true s outcome now).2
      = .ok (utf16 "mock_access_token") ∧
    (Connector.initializeTokenService true w baseUrl clientId clientSecret outcome now).1
      = .ok () ∧
    Connector.getAccessToken
      (Connector.initializeTokenService true w baseUrl clientId clientSecret outcome now).2.state
      = .ok (utf16 "mock_access_token") ∧
    (Connector.initializeTokenService true w baseUrl clientId clientSecret outcome
      now).2.state.refreshIntervalTime = .int 60000 := by
  have hstart : ∀ w2 : Connector.World,
      (Connector.startTokenRefresh w2).state.currentAccessToken = w2.state.currentAccessToken ∧
      (Connector.startTokenRefresh w2).state.refreshIntervalTime
        = w2.state.refreshIntervalTime := by
    intro w2
    unfold Connector.startTokenRefresh Connector.stopTokenRefresh
    cases w2.state.refreshTimeout <;> exact ⟨rfl, rfl⟩
  refine ⟨rfl, rfl, rfl, rfl, ?_, ?_⟩
  · unfold Connector.getAccessToken Connector.initializeTokenService
    simp only [Connector.fetchAccessToken, if_true]
    rw [(hstart _).1]
    rfl
  · unfold Connector.initializeTokenService
    simp only [Connector.fetchAccessToken, if_true]
    rw [(hstart _).2]
    rfl

/-! ## Claims on the timers of the token service -/

/-- The current token after the second half of a fetch: the old one, or the
`access_token` of a `200` response with a readable body. -/
theorem resume_token (s : TokenService) (outcome : FetchOutcome) (now : Int) :
    (TokenService.fetchAccessTokenResume s outcome now).2.currentAccessToken
        = s.currentAccessToken ∨
    ∃ data, outcome = .response 200 (some data) ∧
      (TokenService.fetchAccessTokenResume s outcome now).2.currentAccessToken
        = data.access_token := by
  unfold TokenService.fetchAccessTokenResume
  cases outcome with
  | rejected => simp
  | response status body =>
    by_cases hstatus : status = 200
    · subst hstatus
      cases body with
      | none => simp
      | some data =>
        right
        refine ⟨data, rfl, ?_⟩
        simp only [ne_eq, not_true_eq_false, if_false]
        cases hdec : getAccessTokenData data with
        | error err => simp
        | ok payload =>
          simp only
          cases horg : payload.organization with
          | none => simp
          | some org =>
            simp only
            cases hown : payload.owner with
            | none => simp
            | some own =>
              simp only
              split_ifs <;> simp
    · simp [hstatus]

/-- A successful second half of a fetch: the response was a `200` whose non-empty token
decodes, and the token and the interval computed from its payload are stored. -/
theorem resume_ok (s s2 : TokenService) (outcome : FetchOutcome) (now : Int) (u : Unit)
    (h : TokenService.fetchAccessTokenResume s outcome now = (.ok u, s2)) :
    ∃ data payload c cs, outcome = .response 200 (some data) ∧
      data.access_token = some (c :: cs) ∧ data.decoded = some payload ∧
      s2.currentAccessToken = some (c :: cs) ∧
      s2.refreshIntervalTime = computeRefreshInterval payload now ∧
      s2.refreshTimeout = s.refreshTimeout ∧ s2.isInitialized = s.isInitialized := by
  unfold TokenService.fetchAccessTokenResume at h
  cases outcome with
  | rejected => simp at h
  | response status body =>
    by_cases hstatus : status = 200
    · subst hstatus
      cases body with
      | none => simp at h
      | some data =>
        simp only [ne_eq, not_true_eq_false, if_false] at h
        cases htok : data.access_token with
        | none => simp [getAccessTokenData, htok] at h
        | some tok =>
          cases tok with
          | nil => simp [getAccessTokenData, htok] at h
          | cons c cs =>
            cases hdec : data.decoded with
            | none => simp [getAccessTokenData, htok, hdec] at h
            | some payload =>
              simp only [getAccessTokenData, htok, hdec] at h
              cases horg : payload.organization with
              | none => simp [horg] at h
              | some org =>
                cases hown : payload.owner with
                | none => simp [horg, hown] at h
                | some own =>
                  simp only [horg, hown] at h
                  split_ifs at h with hdate
                  · simp at h
                  · simp only [Prod.mk.injEq, true_and] at h
                    refine ⟨data, payload, c, cs, rfl, htok, hdec, ?_⟩
                    rw [← h]
                    exact ⟨rfl, rfl, rfl, rfl⟩
    · simp [hstatus] at h

/-- With no timer pending and no request in flight, the only event that can happen,
apart from a call of `initialize`, is a call of `dispose`, and it changes neither. -/
theorem quiescent_step (sys sys2 : System) (e : Event)
    (hp : sys.world.timers.pending = []) (hf : sys.inFlight = [])
    (he : e.isInitializeCall = false) (hstep : sys.step e = some sys2) :
    e = Event.disposeCalled ∧ sys2.world.timers.pending = [] ∧ sys2.inFlight = [] ∧
    TokenService.getAccessToken sys2.world.service = .error .accessTokenNotInitialized := by
  cases e with
  | initializeCalled baseUrl clientId clientSecret => simp [Event.isInitializeCall] at he
  | disposeCalled =>
    simp only [System.step, Option.some.injEq] at hstep
    rw [← hstep]
    refine ⟨rfl, ?_, hf, ?_⟩
    · exact (dispose_pending sys.world (by
        unfold World.timersReferenced
        rw [hp]
        simp)).1
    · exact (by
        unfold TokenService.dispose TokenService.getAccessToken
        simp [truthy])
  | timerFired handle =>
    simp [System.step, Timers.isPending, hp] at hstep
  | fetchCompleted index outcome now =>
    simp [System.step, hf] at hstep

/-- With no timer pending and no request in flight, no timer becomes pending, and no
timer fires, as long as `initialize` is not called. -/
theorem quiescent_run : ∀ (events : List Event) (sys sys2 : System),
    sys.world.timers.pending = [] → sys.inFlight = [] →
    (∀ e ∈ events, e.isInitializeCall = false) → sys.run events = some sys2 →
    sys2.world.timers.pending = [] ∧ sys2.inFlight = [] ∧
    (∀ e ∈ events, e = Event.disposeCalled) ∧
    (TokenService.getAccessToken sys.world.service = .error .accessTokenNotInitialized →
      TokenService.getAccessToken sys2.world.service = .error .accessTokenNotInitialized)
  | [], sys, sys2, hp, hf, _, hrun => by
    simp only [System.run, Option.some.injEq] at hrun
    rw [← hrun]
    exact ⟨hp, hf, by simp, fun h => h⟩
  | e :: rest, sys, sys2, hp, hf, he, hrun => by
    simp only [System.run] at hrun
    cases hstep : sys.step e with
    | none => rw [hstep] at hrun; cases hrun
    | some next =>
      rw [hstep] at hrun
      obtain ⟨h1, h2, h3, h4⟩ := quiescent_step sys next e hp hf (he e (by simp)) hstep
      obtain ⟨r1, r2, r3, r4⟩ := quiescent_run rest next sys2 h2 h3
        (fun x hx => he x (List.mem_cons_of_mem _ hx)) hrun
      refine ⟨r1, r2, ?_, fun _ => r4 h4⟩
      intro x hx
      rcases List.mem_cons.1 hx with rfl | hx
      · exact h1
      · exact r3 x hx

/-- C12. Timer-count invariant: in every state reached from a fresh `TokenService` by
calls of `initialize` and `dispose`, firings of timers and arrivals of responses, in any
order, and in every state reached likewise by the connector's token module, at most one
timer is pending and a pending timer is the one `refreshTimeout` refers to; from such a
state `startTokenRefresh` leaves exactly one timer pending, the new one, created by
`setTimeout` with the current interval. -/
theorem C12_timer_count_invariant (events : List Event) (sys : System)
    (cevents : List Connector.Event) (csys : Connector.System)
    (hrun : System.fresh.run events = some sys)
    (hcrun : Connector.System.fresh.run cevents = some csys) :
    (sys.world.timers.pending.length ≤ 1 ∧
      (∀ t ∈ sys.world.timers.pending, sys.world.service.refreshTimeout = some t.id) ∧
      (TokenService.startTokenRefresh sys.world).timers.pending =
        [{ id := sys.world.timers.nextId,
           delay := timeoutDelay sys.world.service.refreshIntervalTime }]) ∧
    (csys.world.timers.pending.length ≤ 1 ∧
      (∀ t ∈ csys.world.timers.pending, csys.world.state.refreshTimeout = some t.id) ∧
      (Connector.startTokenRefresh csys.world).timers.pending =
        [{ id := csys.world.timers.nextId,
           delay := timeoutDelay csys.world.state.refreshIntervalTime }]) := by
  have h := atMostOneTimer_run events System.fresh sys atMostOneTimer_fresh hrun
  have hc := Connector.atMostOneTimer_run_connector cevents Connector.System.fresh csys
    (Connector.atMostOneTimer_of_pending_nil_connector _ rfl) hcrun
  exact ⟨⟨h.1, h.2, (startTokenRefresh_spec sys.world h.2).1⟩,
    ⟨hc.1, hc.2, (Connector.startTokenRefresh_spec_connector csys.world hc.2).1⟩⟩

/-- A witness of C12: two overlapping calls of `initialize`, both answered with a token,
leave one timer pending, and so do two calls of `initializeTokenService` in mock mode. -/
theorem C12_timer_count_invariant_witness :
    ∃ sys csys,
      System.fresh.run
        [.initializeCalled (utf16 "https://host") (utf16 "id") (utf16 "secret"),
         .initializeCalled (utf16 "https://host") (utf16 "id") (utf16 "secret"),
         .fetchCompleted 0 (.response 200 (some
            { access_token := some (utf16 "t1"),
              decoded := some { exp := some 2000, organization := some [utf16 "a"],
                                owner := some [utf16 "c"] } })) 1000000,
         .fetchCompleted 0 (.response 200 (some
            { access_token := some (utf16 "t2"),
              decoded := some { exp := some 3000, organization := some [utf16 "a"],
                                owner := some [utf16 "c"] } })) 1000000] = some sys ∧
      Connector.System.fresh.run
        [.initializeCalled true (utf16 "https://host") none none,
         .initializeCalled true (utf16 "https://host") none none,
         .fetchCompleted 0 .rejected 0, .fetchCompleted 0 .rejected 0] = some csys ∧
      sys.world.timers.pending = [{ id := 2, delay := .int 1940000 }] ∧
      csys.world.timers.pending = [{ id := 2, delay := .int 60000 }] ∧
      sys.world.timers.pending.length ≤ 1 ∧ csys.world.timers.pending.length ≤ 1 := by
  obtain ⟨sys, hs, hp⟩ : ∃ sys, System.fresh.run
      [.initializeCalled (utf16 "https://host") (utf16 "id") (utf16 "secret"),
       .initializeCalled (utf16 "https://host") (utf16 "id") (utf16 "secret"),
       .fetchCompleted 0 (.response 200 (some
          { access_token := some (utf16 "t1"),
            decoded := some { exp := some 2000, organization := some [utf16 "a"],
                              owner := some [utf16 "c"] } })) 1000000,
       .fetchCompleted 0 (.response 200 (some
          { access_token := some (utf16 "t2"),
            decoded := some { exp := some 3000, organization := some [utf16 "a"],
                              owner := some [utf16 "c"] } })) 1000000] = some sys ∧
      sys.world.timers.pending = [{ id := 2, delay := .int 1940000 }] := ⟨_, rfl, rfl⟩
  obtain ⟨csys, hc, hcp⟩ : ∃ csys, Connector.System.fresh.run
      [.initializeCalled true (utf16 "https://host") none none,
       .initializeCalled true (utf16 "https://host") none none,
       .fetchCompleted 0 .rejected 0, .fetchCompleted 0 .rejected 0] = some csys ∧
      csys.world.timers.pending = [{ id := 2, delay := .int 60000 }] := ⟨_, rfl, rfl⟩
  exact ⟨sys, csys, hs, hc, hp, hcp,
    (C12_timer_count_invariant _ sys _ csys hs hc).1.1,
    (C12_timer_count_invariant _ sys _ csys hs hc).2.1⟩

theorem dispose_getAccessToken (w : World) :
    TokenService.getAccessToken (TokenService.dispose w).service
      = .error .accessTokenNotInitialized := by
  unfold TokenService.dispose TokenService.getAccessToken
  simp [truthy]

theorem startTokenRefresh_token (w : World) :
    (TokenService.startTokenRefresh w).service.currentAccessToken
      = w.service.currentAccessToken := by
  unfold TokenService.startTokenRefresh TokenService.stopTokenRefresh
  cases w.service.refreshTimeout <;> rfl

/-- Every event that brings a token when it brings a `200` keeps: a pending timer comes
with a truthy token. -/
theorem tokenWhilePending_step (sys sys2 : System) (e : Event)
    (h : sys.world.timers.pending ≠ [] → truthy sys.world.service.currentAccessToken = true)
    (hinv : sys.world.atMostOneTimer)
    (he : e.carriesToken = true) (hstep : sys.step e = some sys2) :
    sys2.world.timers.pending ≠ [] → truthy sys2.world.service.currentAccessToken = true := by
  cases e with
  | initializeCalled baseUrl clientId clientSecret =>
    simp only [System.step, Option.some.injEq] at hstep
    rw [← hstep]
    intro hne
    exact absurd (atMostOneTimer_initializeBegin sys.world baseUrl clientId clientSecret
      hinv).1 hne
  | disposeCalled =>
    simp only [System.step, Option.some.injEq] at hstep
    rw [← hstep]
    intro hne
    exact absurd (dispose_pending sys.world hinv.2).1 hne
  | timerFired handle =>
    simp only [System.step] at hstep
    by_cases hp : sys.world.timers.isPending handle = true
    · rw [if_pos hp] at hstep
      simp only [Option.some.injEq] at hstep
      rw [← hstep]
      intro hne
      apply h
      intro hnil
      apply hne
      simp [Timers.fire, hnil]
    · rw [if_neg hp] at hstep
      cases hstep
  | fetchCompleted index outcome now =>
    have key : ∀ s2 r, TokenService.fetchAccessTokenResume sys.world.service outcome now
        = (r, s2) → (∀ u, r = .ok u → truthy s2.currentAccessToken = true) ∧
          (sys.world.timers.pending ≠ [] → truthy s2.currentAccessToken = true) := by
      intro s2 r hf
      constructor
      · intro u hr
        subst hr
        obtain ⟨data, payload, c, cs, -, -, -, htok, -⟩ :=
          resume_ok sys.world.service s2 outcome now u hf
        rw [htok]
        rfl
      · intro hne
        have ht := resume_token sys.world.service outcome now
        rw [hf] at ht
        rcases ht with ht | ⟨data, hout, ht⟩
        · simp only at ht
          rw [ht]
          exact h hne
        · simp only at ht
          rw [ht]
          subst hout
          simpa [Event.carriesToken] using he
    simp only [System.step] at hstep
    split at hstep
    · cases hstep
    · simp only [Option.some.injEq] at hstep
      rw [← hstep]
      simp only [TokenService.initializeResume]
      rcases hf : TokenService.fetchAccessTokenResume sys.world.service outcome now
        with ⟨r, s2⟩
      obtain ⟨k1, k2⟩ := key s2 r hf
      cases r with
      | ok u =>
        intro _
        simp only
        rw [startTokenRefresh_token]
        exact k1 u rfl
      | error err => exact k2
    · simp only [Option.some.injEq] at hstep
      rw [← hstep]
      simp only [TokenService.refreshResume]
      rcases hf : TokenService.fetchAccessTokenResume sys.world.service outcome now
        with ⟨r, s2⟩
      obtain ⟨k1, k2⟩ := key s2 r hf
      cases r with
      | ok u =>
        intro _
        simp only
        rw [startTokenRefresh_token]
        exact k1 u rfl
      | error err => exact k2

theorem tokenWhilePending_run_aux : ∀ (events : List Event) (sys sys2 : System),
    (sys.world.timers.pending ≠ [] → truthy sys.world.service.currentAccessToken = true) →
    sys.world.atMostOneTimer →
    (∀ e ∈ events, e.carriesToken = true) → sys.run events = some sys2 →
    sys2.world.timers.pending ≠ [] → truthy sys2.world.service.currentAccessToken = true
  | [], sys, sys2, h, _, _, hrun => by
    simp only [System.run, Option.some.injEq] at hrun
    rw [← hrun]
    exact h
  | e :: rest, sys, sys2, h, hinv, he, hrun => by
    simp only [System.run] at hrun
    cases hstep : sys.step e with
    | none => rw [hstep] at hrun; cases hrun
    | some next =>
      rw [hstep] at hrun
      exact tokenWhilePending_run_aux rest next sys2
        (tokenWhilePending_step sys next e h hinv (he e (by simp)) hstep)
        (atMostOneTimer_step sys next e hinv hstep)
        (fun x hx => he x (List.mem_cons_of_mem _ hx)) hrun

/-- From a fresh service, when every `200` brings a token, a pending timer comes with a
truthy token. -/
theorem tokenWhilePending_run (events : List Event) (sys : System)
    (he : ∀ e ∈ events, e.carriesToken = true) (hrun : System.fresh.run events = some sys)
    (hne : sys.world.timers.pending ≠ []) :
    truthy sys.world.service.currentAccessToken = true :=
  tokenWhilePending_run_aux events System.fresh sys (fun hp => absurd rfl hp)
    atMostOneTimer_fresh he hrun hne

/-- C13. At the failing input, a service initialised with a token, whose timer fires,
which is disposed while the renewal request is in flight, and whose renewal is then
answered with a new token, a timer is pending after `dispose()` although `initialize`
was not called again, `refreshTimeout` refers to it and `getAccessToken()` returns the
new token.  When `dispose()` is called with no request in flight, no timer is pending
afterwards, none becomes pending, none fires and `getAccessToken()` keeps throwing as
long as `initialize` is not called. -/
theorem C13_renewal_in_flight_survives_dispose :
    (∃ sys, System.fresh.run
        [.initializeCalled (utf16 "https://host") (utf16 "id") (utf16 "secret"),
         .fetchCompleted 0 (.response 200 (some
            { access_token := some (utf16 "t1"),
              decoded := some { exp := some 2000, organization := some [utf16 "a"],
                                owner := some [utf16 "c"] } })) 1000000,
         .timerFired 1,
         .disposeCalled,
         .fetchCompleted 0 (.response 200 (some
            { access_token := some (utf16 "t2"),
              decoded := some { exp := some 5000, organization := some [utf16 "a"],
                                owner := some [utf16 "c"] } })) 1900000] = some sys ∧
      sys.world.timers.pending = [{ id := 2, delay := .int 3040000 }] ∧
      sys.world.service.refreshTimeout = some 2 ∧
      TokenService.getAccessToken sys.world.service = .ok (utf16 "t2") ∧
      TokenService.isInitializedStatus sys.world.service = false) ∧
    (∀ (sys sys2 : System) (events : List Event),
      sys.world.timersReferenced → sys.inFlight = [] →
      (∀ e ∈ events, e.isInitializeCall = false) →
      System.run { sys with world := TokenService.dispose sys.world } events = some sys2 →
      sys2.world.timers.pending = [] ∧ sys2.inFlight = [] ∧
      (∀ e ∈ events, e.isTimerFiring = false) ∧
      TokenService.getAccessToken sys2.world.service = .error .accessTokenNotInitialized) := by
  refine ⟨⟨_, rfl, rfl, rfl, rfl, rfl⟩, ?_⟩
  intro sys sys2 events href hf he hrun
  obtain ⟨r1, r2, r3, r4⟩ := quiescent_run events
    { sys with world := TokenService.dispose sys.world } sys2
    (dispose_pending sys.world href).1 hf he hrun
  refine ⟨r1, r2, ?_, r4 (dispose_getAccessToken sys.world)⟩
  intro e hmem
  rw [r3 e hmem]
  rfl

/-- C14. At the failing input, two overlapping calls of `initialize` of which the first
is answered with a token and the second with a `200` whose body has no `access_token`,
a timer is pending while `getAccessToken()` throws.  When every `200` response with a
readable body carries a non-empty `access_token`, the claim holds: in every state
reached from a fresh service in which a timer is pending, `getAccessToken()` returns a
token. -/
theorem C14_timer_pending_without_token :
    (∃ sys, System.fresh.run
        [.initializeCalled (utf16 "https://host") (utf16 "id") (utf16 "secret"),
         .initializeCalled (utf16 "https://host") (utf16 "id") (utf16 "secret"),
         .fetchCompleted 0 (.response 200 (some
            { access_token := some (utf16 "t1"),
              decoded := some { exp := some 2000, organization := some [utf16 "a"],
                                owner := some [utf16 "c"] } })) 1000000,
         .fetchCompleted 0 (.response 200 (some
            { access_token := none, decoded := none })) 1000000] = some sys ∧
      sys.world.timers.pending = [{ id := 1, delay := .int 940000 }] ∧
      TokenService.getAccessToken sys.world.service = .error .accessTokenNotInitialized) ∧
    (∀ (events : List Event) (sys : System),
      (∀ e ∈ events, e.carriesToken = true) → System.fresh.run events = some sys →
      sys.world.timers.pending ≠ [] →
      ∃ c cs, TokenService.getAccessToken sys.world.service = .ok (c :: cs)) := by
  refine ⟨⟨_, rfl, rfl, rfl⟩, ?_⟩
  intro events sys hev hrun hne
  have h := tokenWhilePending_run events sys hev hrun hne
  cases htok : sys.world.service.currentAccessToken with
  | none => rw [htok] at h; cases h
  | some tok =>
    cases tok with
    | nil => rw [htok] at h; cases h
    | cons c cs =>
      refine ⟨c, cs, ?_⟩
      simp [TokenService.getAccessToken, htok, truthy]

/-- The atomic `initialize` is its first half followed at once by its second half. -/
theorem initialize_eq_begin_resume (w : World) (baseUrl clientId clientSecret : JSString)
    (outcome : FetchOutcome) (now : Int) :
    TokenService.initialize w baseUrl clientId clientSecret outcome now =
      if (TokenService.initializeBegin w baseUrl clientId clientSecret).2 then
        TokenService.initializeResume
          (TokenService.initializeBegin w baseUrl clientId clientSecret).1 outcome now
      else (.error .notProperlyInitialized,
        (TokenService.initializeBegin w baseUrl clientId clientSecret).1) := by
  unfold TokenService.initialize TokenService.initializeBegin TokenService.initializeResume
    TokenService.fetchAccessToken TokenService.credentialsMissing
  simp only
  split_ifs with h1 h2 h2
  · simp [h1] at h2
  · rfl
  · rfl
  · simp [h1] at h2

/-- What `setTimeout` makes of a computed renewal interval that is at most
`TIMEOUT_MAX`: the interval itself, a computed interval being positive. -/
theorem timeoutDelay_of_le (payload : TokenPayload) (now n : Int)
    (h : computeRefreshInterval payload now = .int n) (hn : n ≤ TIMEOUT_MAX) :
    timeoutDelay (computeRefreshInterval payload now) = .int n := by
  have hpos : 1 ≤ n := by
    unfold computeRefreshInterval tokenExpirationMillis at h
    cases hexp : payload.exp with
    | none => simp [hexp, JSNumber.sub, JSNumber.leZero] at h
    | some e =>
      simp only [hexp, JSNumber.sub, JSNumber.leZero] at h
      split_ifs at h with hle
      · simp only [JSNumber.int.injEq] at h
        rw [← h]
        decide
      · simp only [JSNumber.int.injEq] at h
        simp only [decide_eq_true_eq, not_le] at hle
        omega
  rw [h]
  unfold timeoutDelay
  simp [hpos, hn]

/-- What `setTimeout` makes of a renewal interval above `TIMEOUT_MAX`: one
millisecond. -/
theorem timeoutDelay_of_gt (n : Int) (hn : TIMEOUT_MAX < n) :
    timeoutDelay (.int n) = .int 1 := by
  unfold timeoutDelay
  have : ¬ (1 ≤ n ∧ n ≤ TIMEOUT_MAX) := fun h => absurd h.2 (not_le.2 hn)
  simp [this]

/-- When the second half of `initialize` succeeds in a state whose pending timers are
referenced, the token of the response is current, the service is initialised and
exactly one timer is pending, created by `setTimeout` with the interval computed from
the token. -/
theorem initializeResume_ok (w w2 : World) (outcome : FetchOutcome) (now : Int) (u : Unit)
    (href : w.timersReferenced)
    (h : TokenService.initializeResume w outcome now = (.ok u, w2)) :
    ∃ data payload c cs, outcome = .response 200 (some data) ∧
      data.access_token = some (c :: cs) ∧ data.decoded = some payload ∧
      TokenService.getAccessToken w2.service = .ok (c :: cs) ∧
      TokenService.isInitializedStatus w2.service = true ∧
      w2.timers.pending =
        [{ id := w.timers.nextId,
           delay := timeoutDelay (computeRefreshInterval payload now) }] ∧
      w2.service.refreshTimeout = some w.timers.nextId ∧
      w2.service.refreshIntervalTime = computeRefreshInterval payload now := by
  unfold TokenService.initializeResume at h
  rcases hf : TokenService.fetchAccessTokenResume w.service outcome now with ⟨r, s2⟩
  rw [hf] at h
  cases r with
  | error e => simp at h
  | ok u2 =>
    simp only [Prod.mk.injEq, true_and] at h
    obtain ⟨data, payload, c, cs, hout, htok, hdec, hcur, hint, hrt, -⟩ :=
      resume_ok w.service s2 outcome now u2 hf
    have href2 : ({ service := { s2 with isInitialized := true }, timers := w.timers }
        : World).timersReferenced := by
      unfold World.timersReferenced at href ⊢
      simp only
      rw [hrt]
      exact href
    obtain ⟨hp, hs⟩ := startTokenRefresh_spec _ href2
    rw [← h]
    refine ⟨data, payload, c, cs, hout, htok, hdec, ?_, ?_, ?_, ?_, ?_⟩
    · rw [hs]
      simp [TokenService.getAccessToken, hcur, truthy]
    · rw [hs]
      rfl
    · rw [hp]
      simp only
      rw [hint]
    · rw [hs]
    · rw [hs]
      exact hint

/-- The postcondition of a successful `initialize`, from a state whose pending timers
are referenced. -/
theorem initialize_ok (w w2 : World) (baseUrl clientId clientSecret : JSString)
    (outcome : FetchOutcome) (now : Int) (href : w.timersReferenced)
    (h : TokenService.initialize w baseUrl clientId clientSecret outcome now = (.ok (), w2)) :
    ∃ data payload c cs, outcome = .response 200 (some data) ∧
      data.access_token = some (c :: cs) ∧ data.decoded = some payload ∧
      TokenService.getAccessToken w2.service = .ok (c :: cs) ∧
      TokenService.isInitializedStatus w2.service = true ∧
      w2.timers.pending =
        [{ id := w.timers.nextId,
           delay := timeoutDelay (computeRefreshInterval payload now) }] ∧
      w2.service.refreshTimeout = some w.timers.nextId ∧
      w2.service.refreshIntervalTime = computeRefreshInterval payload now := by
  rw [initialize_eq_begin_resume] at h
  split_ifs at h with hsent
  · obtain ⟨hp, hn, -⟩ := stopTokenRefresh_spec w href
    have href1 : (TokenService.initializeBegin w baseUrl clientId clientSecret).1.timersReferenced :=
      (atMostOneTimer_of_pending_nil _ hp).2
    have hn1 : (TokenService.initializeBegin w baseUrl clientId clientSecret).1.timers.nextId
        = w.timers.nextId := hn
    have := initializeResume_ok _ w2 outcome now () href1 h
    rw [hn1] at this
    exact this
  · simp at h

/-- C16. A defect at a long-lived token.  `initialize` answered with a token that
expires 30 days ahead returns successfully, `getAccessToken()` returns the token and
`isInitializedStatus()` is `true`, the renewal interval stored is 2591940000 ms, and
the one pending timer has the delay 1 ms: `setTimeout` is given the interval, which is
above `TIMEOUT_MAX`.  In general, after a successful `initialize` from a state whose
pending timers are referenced (every reachable state is such), `getAccessToken()`
returns the non-empty `access_token` of the response, `isInitializedStatus()` is `true`
and exactly one timer is pending, referenced by `refreshTimeout`, created by
`setTimeout` with the computed renewal interval; its delay is that interval when the
interval is at most `TIMEOUT_MAX`, and 1 ms when it is above. -/
theorem C16_long_lived_token_timer_delay :
    (∃ w2, TokenService.initialize World.fresh (utf16 "https://host") (utf16 "id")
        (utf16 "secret")
        (.response 200 (some
          { access_token := some (utf16 "t1"),
            decoded := some { exp := some 2593000, organization := some [utf16 "a"],
                              owner := some [utf16 "c"] } })) 1000000 = (.ok (), w2) ∧
      TokenService.getAccessToken w2.service = .ok (utf16 "t1") ∧
      TokenService.isInitializedStatus w2.service = true ∧
      w2.service.refreshIntervalTime = .int 2591940000 ∧
      w2.timers.pending = [{ id := 1, delay := .int 1 }]) ∧
    (∀ (w w2 : World) (baseUrl clientId clientSecret : JSString) (outcome : FetchOutcome)
        (now : Int),
      w.timersReferenced →
      TokenService.initialize w baseUrl clientId clientSecret outcome now = (.ok (), w2) →
      ∃ data payload c cs, outcome = .response 200 (some data) ∧
        data.access_token = some (c :: cs) ∧ data.decoded = some payload ∧
        TokenService.getAccessToken w2.service = .ok (c :: cs) ∧
        TokenService.isInitializedStatus w2.service = true ∧
        w2.timers.pending =
          [{ id := w.timers.nextId,
             delay := timeoutDelay (computeRefreshInterval payload now) }] ∧
        w2.service.refreshTimeout = some w.timers.nextId ∧
        w2.service.refreshIntervalTime = computeRefreshInterval payload now ∧
        (∀ n, computeRefreshInterval payload now = .int n → n ≤ TIMEOUT_MAX →
          w2.timers.pending = [{ id := w.timers.nextId, delay := .int n }]) ∧
        (∀ n, computeRefreshInterval payload now = .int n → TIMEOUT_MAX < n →
          w2.timers.pending = [{ id := w.timers.nextId, delay := .int 1 }])) := by
  refine ⟨⟨_, rfl, rfl, rfl, rfl, rfl⟩, ?_⟩
  intro w w2 baseUrl clientId clientSecret outcome now href h
  obtain ⟨data, payload, c, cs, h1, h2, h3, h4, h5, h6, h7, h8⟩ :=
    initialize_ok w w2 baseUrl clientId clientSecret outcome now href h
  refine ⟨data, payload, c, cs, h1, h2, h3, h4, h5, h6, h7, h8, ?_, ?_⟩
  · intro n hn hle
    rw [h6, timeoutDelay_of_le payload now n hn hle]
  · intro n hn hgt
    rw [h6, hn, timeoutDelay_of_gt n hgt]

/-- When at most one timer is pending and it fires, none is pending. -/
theorem fire_pending_nil (t : Timers) (handle : Nat) (hlen : t.pending.length ≤ 1)
    (hp : t.isPending handle = true) :
    (t.fire handle).pending = [] ∧ (t.fire handle).nextId = t.nextId := by
  refine ⟨?_, rfl⟩
  unfold Timers.isPending at hp
  unfold Timers.fire
  cases hpend : t.pending with
  | nil => rfl
  | cons a rest =>
    cases rest with
    | nil =>
      rw [hpend] at hp
      simp only [List.any_cons, List.any_nil, Bool.or_false, beq_iff_eq] at hp
      simp [hp]
    | cons b rest2 =>
      rw [hpend] at hlen
      simp at hlen

/-- The connector with no timer pending and nothing in flight: nothing can happen
before `initializeTokenService` is called. -/
theorem Connector.quiescent_run_connector (events : List Connector.Event)
    (sys sys2 : Connector.System)
    (hp : sys.world.timers.pending = []) (hf : sys.inFlight = [])
    (he : ∀ e ∈ events, e.isInitializeCall = false) (hrun : sys.run events = some sys2) :
    events = [] ∧ sys2 = sys := by
  cases events with
  | nil =>
    simp only [Connector.System.run, Option.some.injEq] at hrun
    exact ⟨rfl, hrun.symm⟩
  | cons e rest =>
    exfalso
    simp only [Connector.System.run] at hrun
    have hnone : sys.step e = none := by
      cases e with
      | initializeCalled m b i s =>
        have := he _ (List.mem_cons_self _ _)
        simp [Connector.Event.isInitializeCall] at this
      | timerFired m handle => simp [Connector.System.step, Timers.isPending, hp]
      | fetchCompleted index outcome now => simp [Connector.System.step, hf]
    rw [hnone] at hrun
    cases hrun

/-- The callback of the refresh timer after a successful fetch, in a state whose pending
timers are referenced: exactly one timer is pending, the new one, created by
`setTimeout` with the interval the fetch has just stored. -/
theorem refreshResume_ok (v : World) (s2 : TokenService) (outcome : FetchOutcome)
    (now : Int) (u : Unit) (href : v.timersReferenced)
    (h : TokenService.fetchAccessTokenResume v.service outcome now = (.ok u, s2)) :
    (TokenService.refreshResume v outcome now).timers.pending =
      [{ id := v.timers.nextId, delay := timeoutDelay s2.refreshIntervalTime }] ∧
    (TokenService.refreshResume v outcome now).service.refreshIntervalTime
      = s2.refreshIntervalTime ∧
    ∃ data payload, outcome = .response 200 (some data) ∧ data.decoded = some payload ∧
      s2.refreshIntervalTime = computeRefreshInterval payload now := by
  obtain ⟨data, payload, c, cs, hout, -, hdec, -, hint, hrt, -⟩ :=
    resume_ok v.service s2 outcome now u h
  have href2 : ({ service := s2, timers := v.timers } : World).timersReferenced := by
    unfold World.timersReferenced at href ⊢
    simp only
    rw [hrt]
    exact href
  obtain ⟨hp, hs⟩ := startTokenRefresh_spec _ href2
  have hcb : TokenService.refreshResume v outcome now =
      TokenService.startTokenRefresh { service := s2, timers := v.timers } := by
    unfold TokenService.refreshResume
    simp only [h]
  rw [hcb, hp, hs]
  exact ⟨rfl, rfl, data, payload, hout, hdec, hint⟩

/-- The callback of the refresh timer after a failed fetch: the timers are as they
were. -/
theorem refreshResume_error (v : World) (s2 : TokenService) (outcome : FetchOutcome)
    (now : Int) (e : TokenError)
    (h : TokenService.fetchAccessTokenResume v.service outcome now = (.error e, s2)) :
    TokenService.refreshResume v outcome now = { service := s2, timers := v.timers } := by
  unfold TokenService.refreshResume
  simp only [h]

/-- The callback of the connector's refresh timer, run when the one pending timer
fires: after a successful fetch exactly one timer is pending, the new one, created by
`setTimeout` with the interval the fetch has just stored; after a failed fetch none
is. -/
theorem refreshCallback_connector (cw : Connector.World) (chandle : Nat)
    (isMockMode : Bool) (outcome : FetchOutcome) (now : Int)
    (hcinv : cw.atMostOneTimer) (hcpend : cw.timers.isPending chandle = true) :
    (∀ u s2, Connector.fetchAccessToken isMockMode cw.state outcome now = (.ok u, s2) →
      (Connector.refreshCallback isMockMode cw chandle outcome now).timers.pending =
        [{ id := cw.timers.nextId, delay := timeoutDelay s2.refreshIntervalTime }] ∧
      (Connector.refreshCallback isMockMode cw chandle outcome now).state.refreshIntervalTime
        = s2.refreshIntervalTime) ∧
    (∀ e s2, Connector.fetchAccessToken isMockMode cw.state outcome now = (.error e, s2) →
      (Connector.refreshCallback isMockMode cw chandle outcome now).timers.pending = [] ∧
      ∀ events sys2, (∀ ev ∈ events, ev.isInitializeCall = false) →
        Connector.System.run
          { world := Connector.refreshCallback isMockMode cw chandle outcome now,
            inFlight := [] } events = some sys2 →
        sys2.world.timers.pending = [] ∧ ∀ ev ∈ events, ev.isTimerFiring = false) := by
  obtain ⟨hcfp, hcfn⟩ := fire_pending_nil cw.timers chandle hcinv.1 hcpend
  refine ⟨?_, ?_⟩
  · intro u s2 h
    have href : ({ state := s2, timers := cw.timers.fire chandle }
        : Connector.World).timersReferenced := by
      unfold Connector.World.timersReferenced
      simp [hcfp]
    obtain ⟨hp, hs⟩ := Connector.startTokenRefresh_spec_connector _ href
    have hcb : Connector.refreshCallback isMockMode cw chandle outcome now =
        Connector.startTokenRefresh { state := s2, timers := cw.timers.fire chandle } := by
      unfold Connector.refreshCallback
      simp only [h]
    rw [hcb, hp, hs]
    exact ⟨by rw [hcfn], rfl⟩
  · intro e s2 h
    have hcb : Connector.refreshCallback isMockMode cw chandle outcome now =
        { state := s2, timers := cw.timers.fire chandle } := by
      unfold Connector.refreshCallback
      simp only [h]
    have hp : (Connector.refreshCallback isMockMode cw chandle outcome now).timers.pending
        = [] := by
      rw [hcb]
      exact hcfp
    refine ⟨hp, ?_⟩
    intro events sys2 hev hrun
    obtain ⟨r1, r2⟩ := Connector.quiescent_run_connector events _ sys2 hp rfl hev hrun
    subst r1
    subst r2
    exact ⟨hp, by simp⟩

/-- C15. Defects of the renewal chain.  (1) When the timer fires and the renewal is
answered with a token that expires 30 days ahead, the interval stored is 2591999000 ms
and the one new timer has the delay 1 ms, in the SDK and in the connector: `setTimeout`
is given the interval, which is above `TIMEOUT_MAX`.  (2) When `initialize` was called
again while the callback of an earlier timer was waiting for its response, and the
renewal of the later timer fails, no timer is pending; the earlier callback then gets
its response, schedules timer 3, and timer 3 fires, although `initialize` was not
called after the failure.  In general, when the callback of a fired timer resumes in a
state whose pending timers are referenced: after a successful fetch exactly one timer
is pending, the new one, created by `setTimeout` with the interval that the fetch has
just computed and stored, whose delay is that interval when it is at most
`TIMEOUT_MAX`; after a failed fetch the callback schedules no timer, and when at that
moment no timer is pending and no request is in flight, no timer becomes pending and
none fires as long as `initialize` is not called.  The same holds for the connector's
callback, in and out of mock mode, when the one pending timer fires. -/
theorem C15_renewal_chain_defects :
    (∃ sys, System.fresh.run
        [.initializeCalled (utf16 "https://host") (utf16 "id") (utf16 "secret"),
         .fetchCompleted 0 (.response 200 (some
            { access_token := some (utf16 "t1"),
              decoded := some { exp := some 2000, organization := some [utf16 "a"],
                                owner := some [utf16 "c"] } })) 1000000,
         .timerFired 1,
         .fetchCompleted 0 (.response 200 (some
            { access_token := some (utf16 "t2"),
              decoded := some { exp := some 2594000, organization := some [utf16 "a"],
                                owner := some [utf16 "c"] } })) 1941000] = some sys ∧
      sys.world.service.refreshIntervalTime = .int 2591999000 ∧
      sys.world.timers.pending = [{ id := 2, delay := .int 1 }]) ∧
    (∃ csys, Connector.System.fresh.run
        [.initializeCalled false (utf16 "https://host") (some (utf16 "id"))
            (some (utf16 "secret")),
         .fetchCompleted 0 (.response 200 (some
            { access_token := some (utf16 "t1"),
              decoded := some { exp := some 2000, organization := some [utf16 "a"],
                                owner := some [utf16 "c"] } })) 1000000,
         .timerFired false 1,
         .fetchCompleted 0 (.response 200 (some
            { access_token := some (utf16 "t2"),
              decoded := some { exp := some 2594000, organization := some [utf16 "a"],
                                owner := some [utf16 "c"] } })) 1941000] = some csys ∧
      csys.world.state.refreshIntervalTime = .int 2591999000 ∧
      csys.world.timers.pending = [{ id := 2, delay := .int 1 }]) ∧
    (∃ sys1 sys2, System.fresh.run
        [.initializeCalled (utf16 "https://host") (utf16 "id") (utf16 "secret"),
         .fetchCompleted 0 (.response 200 (some
            { access_token := some (utf16 "t1"),
              decoded := some { exp := some 2000, organization := some [utf16 "a"],
                                owner := some [utf16 "c"] } })) 1000000,
         .timerFired 1,
         .initializeCalled (utf16 "https://host") (utf16 "id") (utf16 "secret"),
         .fetchCompleted 1 (.response 200 (some
            { access_token := some (utf16 "t2"),
              decoded := some { exp := some 2001, organization := some [utf16 "a"],
                                owner := some [utf16 "c"] } })) 1940900,
         .timerFired 2,
         .fetchCompleted 1 (.response 500 none) 1941050] = some sys1 ∧
      sys1.world.timers.pending = [] ∧
      sys1.inFlight = [Caller.refreshCallback] ∧
      sys1.run
        [.fetchCompleted 0 (.response 200 (some
            { access_token := some (utf16 "t3"),
              decoded := some { exp := some 5000, organization := some [utf16 "a"],
                                owner := some [utf16 "c"] } })) 1941100] = some sys2 ∧
      sys2.world.timers.pending = [{ id := 3, delay := .int 2998900 }] ∧
      (sys2.step (.timerFired 3)).isSome = true) ∧
    (∀ (v : World) (s2 : TokenService) (outcome : FetchOutcome) (now : Int) (u : Unit),
      v.timersReferenced →
      TokenService.fetchAccessTokenResume v.service outcome now = (.ok u, s2) →
      (TokenService.refreshResume v outcome now).timers.pending =
        [{ id := v.timers.nextId, delay := timeoutDelay s2.refreshIntervalTime }] ∧
      (TokenService.refreshResume v outcome now).service.refreshIntervalTime
        = s2.refreshIntervalTime ∧
      (∃ data payload, outcome = .response 200 (some data) ∧ data.decoded = some payload ∧
        s2.refreshIntervalTime = computeRefreshInterval payload now) ∧
      (∀ n, s2.refreshIntervalTime = .int n → n ≤ TIMEOUT_MAX →
        (TokenService.refreshResume v outcome now).timers.pending =
          [{ id := v.timers.nextId, delay := s2.refreshIntervalTime }])) ∧
    (∀ (v : World) (s2 : TokenService) (outcome : FetchOutcome) (now : Int)
        (e : TokenError),
      TokenService.fetchAccessTokenResume v.service outcome now = (.error e, s2) →
      (TokenService.refreshResume v outcome now).timers = v.timers ∧
      (v.timers.pending = [] →
        ∀ events sys2, (∀ ev ∈ events, ev.isInitializeCall = false) →
          System.run { world := TokenService.refreshResume v outcome now,
                       inFlight := [] } events = some sys2 →
          sys2.world.timers.pending = [] ∧ ∀ ev ∈ events, ev.isTimerFiring = false)) ∧
    (∀ (cw : Connector.World) (chandle : Nat) (isMockMode : Bool) (outcome : FetchOutcome)
        (now : Int),
      cw.atMostOneTimer → cw.timers.isPending chandle = true →
      (∀ u s2, Connector.fetchAccessToken isMockMode cw.state outcome now = (.ok u, s2) →
        (Connector.refreshCallback isMockMode cw chandle outcome now).timers.pending =
          [{ id := cw.timers.nextId, delay := timeoutDelay s2.refreshIntervalTime }] ∧
        (Connector.refreshCallback isMockMode cw chandle outcome now).state.refreshIntervalTime
          = s2.refreshIntervalTime) ∧
      (∀ e s2, Connector.fetchAccessToken isMockMode cw.state outcome now = (.error e, s2) →
        (Connector.refreshCallback isMockMode cw chandle outcome now).timers.pending = [] ∧
        ∀ events sys2, (∀ ev ∈ events, ev.isInitializeCall = false) →
          Connector.System.run
            { world := Connector.refreshCallback isMockMode cw chandle outcome now,
              inFlight := [] } events = some sys2 →
          sys2.world.timers.pending = [] ∧ ∀ ev ∈ events, ev.isTimerFiring = false)) := by
  refine ⟨⟨_, rfl, rfl, rfl⟩, ⟨_, rfl, rfl, rfl⟩, ⟨_, _, rfl, rfl, rfl, rfl, rfl, rfl⟩,
    ?_, ?_, ?_⟩
  · intro v s2 outcome now u href h
    obtain ⟨hp, hi, data, payload, hout, hdec, hint⟩ :=
      refreshResume_ok v s2 outcome now u href h
    refine ⟨hp, hi, ⟨data, payload, hout, hdec, hint⟩, ?_⟩
    intro n hn hle
    rw [hp, hint, timeoutDelay_of_le payload now n (hint ▸ hn) hle, ← hint, hn]
  · intro v s2 outcome now e h
    have hcb := refreshResume_error v s2 outcome now e h
    refine ⟨by rw [hcb], ?_⟩
    intro hp events sys2 hev hrun
    have hp2 : (TokenService.refreshResume v outcome now).timers.pending = [] := by
      rw [hcb]
      exact hp
    obtain ⟨r1, -, r3, -⟩ := quiescent_run events _ sys2 hp2 rfl hev hrun
    refine ⟨r1, ?_⟩
    intro ev hmem
    rw [r3 ev hmem]
    rfl
  · intro cw chandle isMockMode outcome now hcinv hcpend
    exact refreshCallback_connector cw chandle isMockMode outcome now hcinv hcpend

/-! ## Claims on sending and relaying -/

/-- C21. Mock-mode send: with `config.avaya.isMockMode` true, `sendMessage` of the
connector returns `{ success: true, messageId: 'mock_avaya_id' }` for every message,
sends no `POST` and does not read the access token, whatever the state of the token
module, the state before any initialisation included. -/
theorem C21_mock_mode_send (baseUrl : JSString) (accountId : Option JSString)
    (s : Connector.TokenState) (message : JSValue) (outcome : PostOutcome) :
    Connector.sendMessage true baseUrl accountId s message outcome =
      (.ok (.obj [(utf16 "success", .bool true),
                  (utf16 "messageId", .str (utf16 "mock_avaya_id"))]), []) ∧
    Connector.sendMessage true baseUrl accountId Connector.TokenState.fresh message outcome =
      (.ok (.obj [(utf16 "success", .bool true),
                  (utf16 "messageId", .str (utf16 "mock_avaya_id"))]), []) ∧
    Connector.getAccessToken Connector.TokenState.fresh = .error .accessTokenNotInitialized :=
  ⟨rfl, rfl, rfl⟩

/-- C22, as stated, fails.  A response with status 500 and body `oops` makes
`sendMessage` fail, in the connector and in the SDK, with a message that ends in `oops`
and does not contain `500`. -/
theorem C22_counterexample_status_not_in_message :
    (Connector.sendMessage false (utf16 "https://host") (some (utf16 "acc"))
        { Connector.TokenState.fresh with currentAccessToken := some (utf16 "t") }
        JSValue.null (.response { status := 500, text := utf16 "oops", json := none })).1
      = .error (.failed (utf16 "Failed to forward message to Avaya Infinity: oops")) ∧
    ¬ decimal 500 <:+: utf16 "Failed to forward message to Avaya Infinity: oops" ∧
    (MessagingClient.post
        { baseUrl := utf16 "https://host", isInitialized := true, account := none,
          connectorId := none, clientId := utf16 "id", clientSecret := utf16 "secret" }
        { TokenService.fresh with currentAccessToken := some (utf16 "t") }
        { fromAddress := utf16 "+1", toAddress := utf16 "+2", text := utf16 "hi",
          contextParameters := .undefined, providerMetaData := .undefined }
        (.response { status := 500, text := utf16 "oops", json := none })).1
      = .error (.failed (utf16 "Failed to send message to Avaya Infinity: oops")) ∧
    ¬ decimal 500 <:+: utf16 "Failed to send message to Avaya Infinity: oops" :=
  ⟨rfl, by decide, rfl, by decide⟩

/-- C22, amended.  Outside mock mode and with a token available, for every response with
a non-success status `sendMessage` fails with an error whose message is a fixed text
followed by the response body, so that it contains the body (the status code is not
part of it); for every success status whose body parses as JSON it returns the parsed
payload.  This holds for the connector and for the SDK client. -/
theorem C22_send_result (baseUrl : JSString) (accountId : Option JSString)
    (s : Connector.TokenState) (message : JSValue) (client : MessagingClient)
    (service : TokenService) (textMessage : TextMessage) (r : HttpResponse)
    (token token2 : JSString)
    (htoken : Connector.getAccessToken s = .ok token)
    (htoken2 : TokenService.getAccessToken service = .ok token2) :
    (r.ok = false →
      (Connector.sendMessage false baseUrl accountId s message (.response r)).1 =
        .error (.failed (utf16 "Failed to forward message to Avaya Infinity: " ++ r.text)) ∧
      r.text <:+: utf16 "Failed to forward message to Avaya Infinity: " ++ r.text ∧
      (MessagingClient.post client service textMessage (.response r)).1 =
        .error (.failed (utf16 "Failed to send message to Avaya Infinity: " ++ r.text)) ∧
      r.text <:+: utf16 "Failed to send message to Avaya Infinity: " ++ r.text) ∧
    (r.ok = true → ∀ payload, r.json = some payload →
      (Connector.sendMessage false baseUrl accountId s message (.response r)).1 = .ok payload ∧
      (MessagingClient.post client service textMessage (.response r)).1 = .ok payload) := by
  constructor
  · intro hok
    refine ⟨?_, (List.suffix_append _ _).isInfix, ?_, (List.suffix_append _ _).isInfix⟩
    · simp [Connector.sendMessage, htoken, hok]
    · simp [MessagingClient.post, htoken2, hok]
  · intro hok payload hjson
    constructor
    · simp [Connector.sendMessage, htoken, hok, hjson]
    · simp [MessagingClient.post, htoken2, hok, hjson]

/-- A witness of the amended C22: the status 404 with the body `no` and the token `t`. -/
theorem C22_send_result_witness :
    (Connector.sendMessage false (utf16 "https://host") (some (utf16 "acc"))
        { Connector.TokenState.fresh with currentAccessToken := some (utf16 "t") }
        JSValue.null (.response { status := 404, text := utf16 "no", json := none })).1
      = .error (.failed (utf16 "Failed to forward message to Avaya Infinity: " ++ utf16 "no")) :=
  ((C22_send_result (utf16 "https://host") (some (utf16 "acc"))
    { Connector.TokenState.fresh with currentAccessToken := some (utf16 "t") }
    JSValue.null
    { baseUrl := utf16 "https://host", isInitialized := true, account := none,
      connectorId := none, clientId := utf16 "id", clientSecret := utf16 "secret" }
    { TokenService.fresh with currentAccessToken := some (utf16 "t") }
    { fromAddress := utf16 "+1", toAddress := utf16 "+2", text := utf16 "hi",
      contextParameters := .undefined, providerMetaData := .undefined }
    { status := 404, text := utf16 "no", json := none }
    (utf16 "t") (utf16 "t") rfl rfl).1 rfl).1

/-- C23. At the failing input, a client created without eager initialisation on which
`sendMessage` is called twice, the second call starting while the initialisation begun
by the first is in flight, `TokenService.initialize` is invoked twice: both calls find
the client and the token service not initialised, the flags being set only when a token
response has arrived.  A call of `sendMessage` that starts once the client or the token
service is initialised invokes no initialisation; so two calls of which the second
starts after the first initialisation has completed invoke it once. -/
theorem C23_concurrent_sends_initialise_twice :
    (∃ sys, ClientSystem.run
        (ClientSystem.fresh (utf16 "https://host") (utf16 "id") (utf16 "secret"))
        [.sendMessageCalled
           { fromAddress := utf16 "+1", toAddress := utf16 "+2", text := utf16 "one",
             contextParameters := .undefined, providerMetaData := .undefined },
         .sendMessageCalled
           { fromAddress := utf16 "+1", toAddress := utf16 "+2", text := utf16 "two",
             contextParameters := .undefined, providerMetaData := .undefined },
         .initializationCompleted 0 (.response 200 (some
            { access_token := some (utf16 "t1"),
              decoded := some { exp := some 2000, organization := some [utf16 "a"],
                                owner := some [utf16 "c"] } })) 1000000,
         .initializationCompleted 0 (.response 200 (some
            { access_token := some (utf16 "t2"),
              decoded := some { exp := some 2000, organization := some [utf16 "a"],
                                owner := some [utf16 "c"] } })) 1000000] = some sys ∧
      sys.initializeCalls = 2 ∧ sys.posts.length = 2 ∧ sys.client.isInitialized = true) ∧
    (∃ sys, ClientSystem.run
        (ClientSystem.fresh (utf16 "https://host") (utf16 "id") (utf16 "secret"))
        [.sendMessageCalled
           { fromAddress := utf16 "+1", toAddress := utf16 "+2", text := utf16 "one",
             contextParameters := .undefined, providerMetaData := .undefined },
         .initializationCompleted 0 (.response 200 (some
            { access_token := some (utf16 "t1"),
              decoded := some { exp := some 2000, organization := some [utf16 "a"],
                                owner := some [utf16 "c"] } })) 1000000,
         .sendMessageCalled
           { fromAddress := utf16 "+1", toAddress := utf16 "+2", text := utf16 "two",
             contextParameters := .undefined, providerMetaData := .undefined }] = some sys ∧
      sys.initializeCalls = 1 ∧ sys.posts.length = 2) ∧
    (∀ (sys : ClientSystem) (textMessage : TextMessage),
      sys.client.isInitialized = true ∨
        TokenService.isInitializedStatus sys.world.service = true →
      ∃ sys2, sys.step (.sendMessageCalled textMessage) = some sys2 ∧
        sys2.initializeCalls = sys.initializeCalls) := by
  refine ⟨⟨_, rfl, rfl, rfl, rfl⟩, ⟨_, rfl, rfl, rfl⟩, ?_⟩
  intro sys textMessage h
  have hcond : (!sys.client.isInitialized &&
      !TokenService.isInitializedStatus sys.world.service) = false := by
    rcases h with h | h <;> simp [h]
  refine ⟨sys.startPost textMessage, ?_, ?_⟩
  · simp only [ClientSystem.step, hcond, Bool.false_eq_true, if_false]
  · unfold ClientSystem.startPost
    cases TokenService.getAccessToken sys.world.service <;> rfl

theorem twilioSendMessage_effects (isMockMode hasClient : Bool)
    (f t m : Option JSString) (outcome : TwilioOutcome) :
    ((TwilioService.sendMessage isMockMode hasClient f t m outcome).2.filter
      RelayEffect.isTwilioSend) = [] := by
  unfold TwilioService.sendMessage
  split_ifs
  · rfl
  · rfl
  · cases outcome <;> rfl

/-- The handler on a `MESSAGES` event of the shape of the interface whose sender is not
a customer. -/
theorem handleAvayaWebhook_relay (isMockMode hasClient : Bool) (body : AvayaEvent)
    (outcome : TwilioOutcome) (headers : EventHeaders) (toAddresses : List JSString)
    (messageBody : EventBody) (sender : EventSender)
    (htype : body.eventType = some (utf16 "MESSAGES"))
    (hheaders : body.headers = some headers) (hto : headers.toAddresses = some toAddresses)
    (hbody : body.body = some messageBody) (hsender : body.sender = some sender)
    (hnot : sender.type ≠ some (utf16 "CUSTOMER")) :
    handleAvayaWebhook isMockMode hasClient body outcome =
      (.completed,
        [RelayEffect.twilioSendMessage headers.fromAddress toAddresses.head?
          messageBody.text] ++
        (TwilioService.sendMessage isMockMode hasClient headers.fromAddress
          toAddresses.head? messageBody.text outcome).2 ++
        [if (TwilioService.sendMessage isMockMode hasClient headers.fromAddress
            toAddresses.head? messageBody.text outcome).1 then
          RelayEffect.respond 200 (.json (.obj [(utf16 "success", .bool true)]))
         else
          RelayEffect.respond 500 (.json (.obj [(utf16 "error",
            .str (utf16 "Error processing webhook event from Avaya Infinity"))]))]) := by
  have hne : (utf16 "MESSAGES") ≠ (utf16 "HEALTH_CHECK") := by decide
  unfold handleAvayaWebhook
  rw [htype]
  simp only [Option.some.injEq, hne, if_false, if_true, hheaders, hto, hbody, hsender, hnot]

/-- C24, as stated, fails on a `MESSAGES` event without `headers`.  For the event
`{ eventType: 'MESSAGES', sender: { type: 'CUSTOMER' } }` the handler throws at
`body.headers.from` before it sends a response, so it does not respond `200`; for the
event `{ eventType: 'MESSAGES', sender: { type: 'AGENT' } }`, whose type is `MESSAGES`
and whose sender is not a customer, it throws likewise and
`twilioService.sendMessage` is not called. -/
theorem C24_counterexample_event_without_headers :
    handleAvayaWebhook false true
      { eventType := some (utf16 "MESSAGES"), messageId := none, headers := none,
        body := none, sender := some { type := some (utf16 "CUSTOMER") } }
      TwilioOutcome.created = (.threw, []) ∧
    (∃ event sender, event.eventType = some (utf16 "MESSAGES") ∧
      event.sender = some sender ∧ sender.type = some (utf16 "AGENT") ∧
      sender.type ≠ some (utf16 "CUSTOMER") ∧
      handleAvayaWebhook false true event TwilioOutcome.created = (.threw, []) ∧
      (handleAvayaWebhook false true event TwilioOutcome.created).2.filter
        RelayEffect.isTwilioSend = []) :=
  ⟨rfl,
    { eventType := some (utf16 "MESSAGES"), messageId := none, headers := none,
      body := none, sender := some { type := some (utf16 "AGENT") } },
    { type := some (utf16 "AGENT") }, rfl, rfl, rfl, by decide, rfl, rfl⟩

/-- C24, as amended.  Relay decision: for every event of Avaya Infinity in which a
`MESSAGES` event carries the members the handler reads (`headers` with a `to` array,
`body` and `sender`), `handleAvayaWebhook` calls `twilioService.sendMessage` if and only
if `eventType` is `MESSAGES` and `sender.type` is not `CUSTOMER`, and then exactly once;
for `HEALTH_CHECK`, for every other event type and for a `MESSAGES` event of a customer
it does nothing but respond `200` with `OK`: no send, no call of the Twilio API, no
read or fetch of a token. -/
theorem C24_relay_decision (isMockMode hasClient : Bool) (body : AvayaEvent)
    (outcome : TwilioOutcome)
    (hshape : body.eventType = some (utf16 "MESSAGES") → body.wellFormed) :
    (body.eventType ≠ some (utf16 "MESSAGES") →
      handleAvayaWebhook isMockMode hasClient body outcome =
        (.completed, [.respond 200 (.text (utf16 "OK"))])) ∧
    (body.eventType = some (utf16 "MESSAGES") →
      ∀ sender, body.sender = some sender → sender.type = some (utf16 "CUSTOMER") →
      handleAvayaWebhook isMockMode hasClient body outcome =
        (.completed, [.respond 200 (.text (utf16 "OK"))])) ∧
    (body.eventType = some (utf16 "MESSAGES") →
      ∀ sender, body.sender = some sender → sender.type ≠ some (utf16 "CUSTOMER") →
      ((handleAvayaWebhook isMockMode hasClient body outcome).2.filter
        RelayEffect.isTwilioSend).length = 1) ∧
    (((handleAvayaWebhook isMockMode hasClient body outcome).2.filter
        RelayEffect.isTwilioSend) ≠ [] ↔
      body.eventType = some (utf16 "MESSAGES") ∧
        ∃ sender, body.sender = some sender ∧ sender.type ≠ some (utf16 "CUSTOMER")) := by
  have hne : (utf16 "MESSAGES") ≠ (utf16 "HEALTH_CHECK") := by decide
  have h1 : body.eventType ≠ some (utf16 "MESSAGES") →
      handleAvayaWebhook isMockMode hasClient body outcome =
        (.completed, [.respond 200 (.text (utf16 "OK"))]) := by
    intro h
    unfold handleAvayaWebhook
    split_ifs <;> rfl
  have h2 : body.eventType = some (utf16 "MESSAGES") →
      ∀ sender, body.sender = some sender → sender.type = some (utf16 "CUSTOMER") →
      handleAvayaWebhook isMockMode hasClient body outcome =
        (.completed, [.respond 200 (.text (utf16 "OK"))]) := by
    intro htype sender hsender hcust
    obtain ⟨⟨headers, toAddresses, hheaders, hto⟩, hbody, -⟩ := hshape htype
    obtain ⟨messageBody, hbody⟩ := Option.isSome_iff_exists.1 hbody
    unfold handleAvayaWebhook
    rw [htype]
    simp only [Option.some.injEq, hne, if_false, if_true, hheaders, hto, hbody, hsender, hcust]
  have h3 : body.eventType = some (utf16 "MESSAGES") →
      ∀ sender, body.sender = some sender → sender.type ≠ some (utf16 "CUSTOMER") →
      ((handleAvayaWebhook isMockMode hasClient body outcome).2.filter
        RelayEffect.isTwilioSend).length = 1 := by
    intro htype sender hsender hnot
    obtain ⟨⟨headers, toAddresses, hheaders, hto⟩, hbody, -⟩ := hshape htype
    obtain ⟨messageBody, hbody⟩ := Option.isSome_iff_exists.1 hbody
    rw [handleAvayaWebhook_relay isMockMode hasClient body outcome headers toAddresses
      messageBody sender htype hheaders hto hbody hsender hnot]
    simp only [List.filter_append, twilioSendMessage_effects]
    split_ifs <;> rfl
  refine ⟨h1, h2, h3, ?_⟩
  constructor
  · intro hsend
    by_cases htype : body.eventType = some (utf16 "MESSAGES")
    · refine ⟨htype, ?_⟩
      obtain ⟨-, -, hsender⟩ := hshape htype
      obtain ⟨sender, hsender⟩ := Option.isSome_iff_exists.1 hsender
      refine ⟨sender, hsender, ?_⟩
      intro hcust
      rw [h2 htype sender hsender hcust] at hsend
      exact hsend rfl
    · rw [h1 htype] at hsend
      exact absurd rfl hsend
  · rintro ⟨htype, sender, hsender, hnot⟩ hnil
    have := h3 htype sender hsender hnot
    rw [hnil] at this
    simp at this

/-- A witness of C24: the event of the scenario of the specification, sent by an agent,
is relayed once. -/
theorem C24_relay_decision_witness :
    ((handleAvayaWebhook false true
      { eventType := some (utf16 "MESSAGES"), messageId := some (utf16 "m1"),
        headers := some { fromAddress := some (utf16 "+1"),
                          toAddresses := some [utf16 "+2"] },
        body := some { text := some (utf16 "hi") },
        sender := some { type := some (utf16 "AGENT") } }
      TwilioOutcome.created).2.filter RelayEffect.isTwilioSend).length = 1 :=
  (C24_relay_decision false true
    { eventType := some (utf16 "MESSAGES"), messageId := some (utf16 "m1"),
      headers := some { fromAddress := some (utf16 "+1"),
                        toAddresses := some [utf16 "+2"] },
      body := some { text := some (utf16 "hi") },
      sender := some { type := some (utf16 "AGENT") } }
    TwilioOutcome.created
    (fun _ => ⟨⟨_, _, rfl, rfl⟩, rfl, rfl⟩)).2.2.1 rfl _ rfl (by decide)

/-- C25. For every `MESSAGES` event of the shape of the interface whose sender is not a
customer, `handleAvayaWebhook` calls `twilioService.sendMessage` once, with `from` equal
to `body.headers.from`, `to` the first element of `body.headers.to` and the text
`body.body.text`; it responds `200` with `{ success: true }` when that call returns and
`500` when it throws. -/
theorem C25_relayed_message (isMockMode hasClient : Bool) (body : AvayaEvent)
    (outcome : TwilioOutcome) (headers : EventHeaders) (toAddresses : List JSString)
    (messageBody : EventBody) (sender : EventSender)
    (htype : body.eventType = some (utf16 "MESSAGES"))
    (hheaders : body.headers = some headers) (hto : headers.toAddresses = some toAddresses)
    (hbody : body.body = some messageBody) (hsender : body.sender = some sender)
    (hnot : sender.type ≠ some (utf16 "CUSTOMER")) :
    (handleAvayaWebhook isMockMode hasClient body outcome).2.filter RelayEffect.isTwilioSend
      = [RelayEffect.twilioSendMessage headers.fromAddress toAddresses.head?
          messageBody.text] ∧
    ((TwilioService.sendMessage isMockMode hasClient headers.fromAddress toAddresses.head?
        messageBody.text outcome).1 = true →
      handleAvayaWebhook isMockMode hasClient body outcome =
        (.completed,
          [RelayEffect.twilioSendMessage headers.fromAddress toAddresses.head?
            messageBody.text] ++
          (TwilioService.sendMessage isMockMode hasClient headers.fromAddress
            toAddresses.head? messageBody.text outcome).2 ++
          [RelayEffect.respond 200 (.json (.obj [(utf16 "success", .bool true)]))])) ∧
    ((TwilioService.sendMessage isMockMode hasClient headers.fromAddress toAddresses.head?
        messageBody.text outcome).1 = false →
      handleAvayaWebhook isMockMode hasClient body outcome =
        (.completed,
          [RelayEffect.twilioSendMessage headers.fromAddress toAddresses.head?
            messageBody.text] ++
          (TwilioService.sendMessage isMockMode hasClient headers.fromAddress
            toAddresses.head? messageBody.text outcome).2 ++
          [RelayEffect.respond 500 (.json (.obj [(utf16 "error",
            .str (utf16 "Error processing webhook event from Avaya Infinity"))]))])) := by
  have hrelay := handleAvayaWebhook_relay isMockMode hasClient body outcome headers
    toAddresses messageBody sender htype hheaders hto hbody hsender hnot
  refine ⟨?_, ?_, ?_⟩
  · rw [hrelay]
    simp only [List.filter_append, twilioSendMessage_effects]
    split_ifs <;> rfl
  · intro hok
    rw [hrelay, hok]
    rfl
  · intro hfail
    rw [hrelay, hfail]
    rfl

/-- A witness of C25: the scenario of the specification, `from` `+1`, `to` `+2`, text
`hi`, sent by an agent and accepted by Twilio. -/
theorem C25_relayed_message_witness :
    handleAvayaWebhook false true
      { eventType := some (utf16 "MESSAGES"), messageId := some (utf16 "m1"),
        headers := some { fromAddress := some (utf16 "+1"),
                          toAddresses := some [utf16 "+2"] },
        body := some { text := some (utf16 "hi") },
        sender := some { type := some (utf16 "AGENT") } }
      TwilioOutcome.created =
      (.completed,
        [RelayEffect.twilioSendMessage (some (utf16 "+1")) (some (utf16 "+2"))
            (some (utf16 "hi"))] ++
          [RelayEffect.twilioCreate (some (utf16 "+1")) (some (utf16 "+2"))
            (some (utf16 "hi"))] ++
          [RelayEffect.respond 200 (.json (.obj [(utf16 "success", .bool true)]))]) :=
  (C25_relayed_message false true
    { eventType := some (utf16 "MESSAGES"), messageId := some (utf16 "m1"),
      headers := some { fromAddress := some (utf16 "+1"),
                        toAddresses := some [utf16 "+2"] },
      body := some { text := some (utf16 "hi") },
      sender := some { type := some (utf16 "AGENT") } }
    TwilioOutcome.created
    { fromAddress := some (utf16 "+1"), toAddresses := some [utf16 "+2"] } [utf16 "+2"]
    { text := some (utf16 "hi") } { type := some (utf16 "AGENT") }
    rfl rfl rfl rfl rfl (by decide)).2.1 rfl

/-- C26. The reverse direction is unconditional: for every request body of Twilio,
whatever its members, `handleTwilioWebhook` calls `avayaInfinityService.sendMessage`
exactly once, with `headers.from` equal to `From`, `headers.to` equal to `[To]`,
`body.text` equal to `Body` and `providerMetaData.messageId` equal to `MessageSid`; it
responds `200` when the call returns and `500` when it throws. -/
theorem C26_reverse_direction (isMockMode : Bool) (baseUrl : JSString)
    (accountId connectorId : Option JSString) (s : Connector.TokenState)
    (twilioMessage : TwilioBody) (timestamp : JSString) (outcome : PostOutcome) :
    (handleTwilioWebhook isMockMode baseUrl accountId connectorId s twilioMessage timestamp
        outcome).filter RelayEffect.isAvayaSend
      = [RelayEffect.avayaSendMessage
          (twilioToAvayaMessage connectorId twilioMessage timestamp)] ∧
    (twilioToAvayaMessage connectorId twilioMessage timestamp).headers.fromAddress
      = twilioMessage.From ∧
    (twilioToAvayaMessage connectorId twilioMessage timestamp).headers.toAddresses
      = [twilioMessage.To] ∧
    (twilioToAvayaMessage connectorId twilioMessage timestamp).bodyText
      = twilioMessage.Body ∧
    (twilioToAvayaMessage connectorId twilioMessage timestamp).providerMetaData.messageId
      = twilioMessage.MessageSid ∧
    (∀ payload, (Connector.sendMessage isMockMode baseUrl accountId s
        (twilioToAvayaMessage connectorId twilioMessage timestamp).toJSValue outcome).1
        = .ok payload →
      handleTwilioWebhook isMockMode baseUrl accountId connectorId s twilioMessage timestamp
          outcome =
        [RelayEffect.avayaSendMessage
          (twilioToAvayaMessage connectorId twilioMessage timestamp)] ++
        (Connector.sendMessage isMockMode baseUrl accountId s
          (twilioToAvayaMessage connectorId twilioMessage timestamp).toJSValue
          outcome).2.map RelayEffect.avaya ++
        [RelayEffect.respond 200 (.text (utf16 "OK"))]) ∧
    (∀ e, (Connector.sendMessage isMockMode baseUrl accountId s
        (twilioToAvayaMessage connectorId twilioMessage timestamp).toJSValue outcome).1
        = .error e →
      handleTwilioWebhook isMockMode baseUrl accountId connectorId s twilioMessage timestamp
          outcome =
        [RelayEffect.avayaSendMessage
          (twilioToAvayaMessage connectorId twilioMessage timestamp)] ++
        (Connector.sendMessage isMockMode baseUrl accountId s
          (twilioToAvayaMessage connectorId twilioMessage timestamp).toJSValue
          outcome).2.map RelayEffect.avaya ++
        [RelayEffect.respond 500
          (.text (utf16 "Error processing webhook event from Twilio"))]) := by
  refine ⟨?_, rfl, rfl, rfl, rfl, ?_, ?_⟩
  · unfold handleTwilioWebhook
    have hmap : ∀ l : List SendEffect,
        (l.map RelayEffect.avaya).filter RelayEffect.isAvayaSend = [] := by
      intro l
      induction l with
      | nil => rfl
      | cons a rest ih => simp [List.filter, RelayEffect.isAvayaSend]
    simp only [List.filter_append, hmap]
    cases (Connector.sendMessage isMockMode baseUrl accountId s
      (twilioToAvayaMessage connectorId twilioMessage timestamp).toJSValue outcome).1 <;> rfl
  · intro payload h
    unfold handleTwilioWebhook
    simp only [h]
  · intro e h
    unfold handleTwilioWebhook
    simp only [h]

/-! ## Claims on the configuration -/

/-- Without a usable `newConfig.avaya.host`, `updateNestedConfig` does not return. -/
theorem updateNestedConfig_none (target source : JSValue) (changed : Bool) :
    (updateNestedConfig none target source).2 ≠ .returned changed := by
  have hfinish : ∀ looped : JSValue × UpdateResult,
      (finishUpdate none looped).2 ≠ .returned changed := by
    intro looped
    unfold finishUpdate
    cases h : looped.2 <;> simp
  cases source <;> cases target <;> simp [updateNestedConfig, hfinish]

/-- C27. At the failing input, a new configuration with a `twilio` section only,
`updateConfig` throws a `TypeError`: `updateNestedConfig` reads `newConfig.avaya.host`
at the end of every call, also for the `twilio` section; the `sid` of the account has
been replaced before the throw.  So it is for every new configuration whose `twilio`
section is truthy and whose `avaya` section is absent, while a new configuration
without either section returns `{ twilioChanged: false, avayaChanged: false }` and
changes nothing. -/
theorem C27_twilio_only_update_throws :
    updateConfig
        (Config.toTree
          { twilio := { account := { sid := some (utf16 "AC123"),
                                     authToken := some (utf16 "tok") },
                        apiKey := { sid := none, secret := none }, isMockMode := false },
            avaya := { host := some (utf16 "h.example"), accountId := some (utf16 "acc"),
                       clientId := some (utf16 "id"), clientSecret := some (utf16 "sec"),
                       connectorId := none, webhookSecret := none, isMockMode := false } })
        (.obj [(utf16 "twilio", .obj [(utf16 "account",
          .obj [(utf16 "sid", .str (utf16 "AC999"))])])])
      = ({ twilio := .obj [
            (utf16 "account", .obj [
              (utf16 "sid", .str (utf16 "AC999")),
              (utf16 "authToken", .str (utf16 "tok"))]),
            (utf16 "apiKey", .obj [
              (utf16 "sid", .undefined),
              (utf16 "secret", .undefined)]),
            (utf16 "isMockMode", .bool false)],
           avaya := .obj [
            (utf16 "host", .str (utf16 "h.example")),
            (utf16 "accountId", .str (utf16 "acc")),
            (utf16 "clientId", .str (utf16 "id")),
            (utf16 "clientSecret", .str (utf16 "sec")),
            (utf16 "connectorId", .undefined),
            (utf16 "webhookSecret", .undefined),
            (utf16 "isMockMode", .bool false)] }, none) ∧
    (∀ (config : ConfigTree) (newConfig : JSValue),
      (newConfig.getMember (utf16 "twilio")).truthy = true →
      (newConfig.getMember (utf16 "avaya") = .undefined ∨
        newConfig.getMember (utf16 "avaya") = .null) →
      (updateConfig config newConfig).2 = none) ∧
    (∀ (config : ConfigTree) (members : List (JSString × JSValue)),
      ((JSValue.obj members).getMember (utf16 "twilio")).truthy = false →
      ((JSValue.obj members).getMember (utf16 "avaya")).truthy = false →
      (updateConfig config (.obj members)).2 = some (false, false) ∧
      (updateConfig config (.obj members)).1.twilio = config.twilio ∧
      (updateConfig config (.obj members)).1.avaya = config.avaya) := by
  refine ⟨rfl, ?_, ?_⟩
  · intro config newConfig htw hav
    have hflag : avayaMockFlag newConfig = none := by
      unfold avayaMockFlag
      rcases hav with h | h <;> rw [h]
    unfold updateConfig
    cases newConfig with
    | undefined => rfl
    | null => rfl
    | bool b => simp [JSValue.getMember, JSValue.truthy] at htw
    | str s => simp [JSValue.getMember, JSValue.truthy] at htw
    | arr items => simp [JSValue.getMember, JSValue.truthy] at htw
    | obj members =>
      simp only [htw, if_true, hflag]
      cases h : (updateNestedConfig none config.twilio
        ((JSValue.obj members).getMember (utf16 "twilio"))).2 with
      | returned changed => exact absurd h (updateNestedConfig_none _ _ _)
      | threw => rfl
      | unsupported => rfl
  · intro config members htw hav
    have h : updateConfig config (.obj members) = (config, some (false, false)) := by
      unfold updateConfig
      simp only [htw, hav, Bool.false_eq_true, if_false]
    rw [h]
    exact ⟨rfl, rfl, rfl⟩

/-- The masked value of a secret longer than 6 is 8 long. -/
theorem maskString_long (s : JSString) (h : 6 < s.length) :
    maskString (some s) = some (s.take 3 ++ utf16 "***" ++ s.drop (s.length - 2)) ∧
    (s.take 3 ++ utf16 "***" ++ s.drop (s.length - 2)).length = 8 := by
  have hne : s ≠ [] := by
    intro h0
    rw [h0] at h
    simp at h
  obtain ⟨c, cs, rfl⟩ := List.exists_cons_of_ne_nil hne
  have hstar : (utf16 "***").length = 3 := by decide
  constructor
  · unfold maskString
    have hlen : ¬ (c :: cs).length ≤ 6 := by omega
    simp only [truthy, Bool.not_true, Bool.false_eq_true, if_false, Option.getD_some, hlen]
  · simp only [List.length_append, List.length_take, List.length_drop, hstar]
    omega

/-- C28. `getMaskedConfig` hides every secret (the Twilio account sid, auth token, API
key sid and secret; the Avaya client id, client secret and webhook secret) through
`maskString` and leaves the other settings as they are; `maskString` turns a secret
longer than 6 into its first 3 characters, `***` and its last 2 characters, 8 characters
in all, a non-empty secret of at most 6 into `***`, and returns an empty or absent value
unchanged; so at most 5 characters of a secret are revealed. -/
theorem C28_masked_config (config : Config) (s : JSString) :
    (getMaskedConfig config).twilio.account.sid = maskString config.twilio.account.sid ∧
    (getMaskedConfig config).twilio.account.authToken
      = maskString config.twilio.account.authToken ∧
    (getMaskedConfig config).twilio.apiKey.sid = maskString config.twilio.apiKey.sid ∧
    (getMaskedConfig config).twilio.apiKey.secret = maskString config.twilio.apiKey.secret ∧
    (getMaskedConfig config).avaya.clientId = maskString config.avaya.clientId ∧
    (getMaskedConfig config).avaya.clientSecret = maskString config.avaya.clientSecret ∧
    (getMaskedConfig config).avaya.webhookSecret = maskString config.avaya.webhookSecret ∧
    (6 < s.length →
      maskString (some s) = some (s.take 3 ++ utf16 "***" ++ s.drop (s.length - 2)) ∧
      (s.take 3 ++ utf16 "***" ++ s.drop (s.length - 2)).length = 8 ∧
      (s.take 3).length + (s.drop (s.length - 2)).length = 5) ∧
    (s ≠ [] → s.length ≤ 6 → maskString (some s) = some (utf16 "***")) ∧
    maskString (some []) = some [] ∧
    maskString none = none := by
  refine ⟨rfl, rfl, rfl, rfl, rfl, rfl, rfl, ?_, ?_, rfl, rfl⟩
  · intro h
    obtain ⟨h1, h2⟩ := maskString_long s h
    refine ⟨h1, h2, ?_⟩
    simp only [List.length_take, List.length_drop]
    omega
  · intro hne hlen
    obtain ⟨c, cs, rfl⟩ := List.exists_cons_of_ne_nil hne
    unfold maskString
    simp only [truthy, Bool.not_true, Bool.false_eq_true, if_false, Option.getD_some, hlen,
      if_true]

end Avaya
